import Mathlib

/-!
# E-paper display drivers: framebuffer model

A shallow embedding of the framebuffer code of two e-paper drivers,

* `ssd1681/ssd1681.go` (namespace `ssd1681`), and
* `waveshare-epd/epd2in9v2/epd2in9.go` (namespace `epd2in9v2`),

followed by theorems about them.

The fixed-width Go integers are modelled as `Int` with explicit wrap-around:
every arithmetic result of type `int16` goes through `wrap16`, every result
of type `int32` through `wrap32`.  Bytes are natural numbers below 256.
A Go run-time panic (slice index out of range, negative shift count) is the
outer `none` of an `Option`.
-/

/-! ## Machine integers -/

/-- Twos-complement wrap-around of an integer to the `int16` range. -/
def wrap16 (n : Int) : Int := (n + 32768) % 65536 - 32768

/-- Twos-complement wrap-around of an integer to the `int32` range. -/
def wrap32 (n : Int) : Int := (n + 2147483648) % 4294967296 - 2147483648

/-- The value is representable as an `int16`. -/
def isInt16 (n : Int) : Prop := -32768 ≤ n ∧ n ≤ 32767

instance (n : Int) : Decidable (isInt16 n) := by
  unfold isInt16; infer_instance

/-- Colour value `color.RGBA` of the Go package `image/color`: four bytes. -/
structure RGBA where
  R : Nat
  G : Nat
  B : Nat
  A : Nat
deriving DecidableEq, Repr

/-- Opaque white `color.RGBA{255, 255, 255, 255}`. -/
def white : RGBA := ⟨255, 255, 255, 255⟩

/-- Opaque black `color.RGBA{0, 0, 0, 255}`. -/
def black : RGBA := ⟨0, 0, 0, 255⟩

/-! ## Pins, bus and traces -/

/-- The digital lines a driver holds: chip select, data/command select,
reset, enable and the busy input. -/
inductive Pin where
  | cs
  | dc
  | rst
  | en
  | busy
deriving DecidableEq, Repr

/-- One observable action of a driver on its pins, on the SPI bus or on the
clock: `Pin.Configure` (as output or input), `Pin.High`/`Low`/`Set`,
`bus.Transfer(b)`, `bus.Tx(data, nil)`, a read of the busy pin with its
result, and `time.Sleep` in milliseconds. -/
inductive Event where
  | pinConfigure (p : Pin) (output : Bool)
  | pinSet (p : Pin) (high : Bool)
  | transfer (b : Nat)
  | tx (data : List Nat)
  | busyGet (v : Bool)
  | sleep (ms : Nat)
deriving DecidableEq, Repr

/-- Truncation of an integer to a byte: `byte(v)`, `uint8(v)`, `v & 0xFF`. -/
def toByte (v : Int) : Nat := (v % 256).toNat

/-- The polling loop `for busy.Get() { time.Sleep(ms) }`.  `busy i` is what
the `i`-th read of the busy pin returns and `k` counts the reads made so far;
the result is the trace of the loop and the new read count.  `fuel` bounds the
number of reads: the result is `none` when the pin is still busy after `fuel`
reads. -/
def pollBusy (ms : Nat) (busy : Nat → Bool) : Nat → Nat → Option (List Event × Nat)
  | 0, _ => none
  | fuel + 1, k =>
    if busy k then
      match pollBusy ms busy fuel (k + 1) with
      | none => none
      | some (t, k1) => some (Event.busyGet true :: Event.sleep ms :: t, k1)
    else some ([Event.busyGet false], k + 1)

/-- The trace of a polling loop that finds the pin busy `n` times and then
idle: `n` times a read and a sleep of `ms` milliseconds, then one more read. -/
def pollTrace (ms : Nat) : Nat → List Event
  | 0 => [Event.busyGet false]
  | n + 1 => Event.busyGet true :: Event.sleep ms :: pollTrace ms n

/-- The number of reads of the busy pin in a trace. -/
def reads : List Event → Nat
  | [] => 0
  | Event.busyGet _ :: t => reads t + 1
  | _ :: t => reads t

/-- The durations of the sleeps in a trace, in order. -/
def sleeps : List Event → List Nat
  | [] => []
  | Event.sleep ms :: t => ms :: sleeps t
  | _ :: t => sleeps t

/-- Sequencing of two steps of a driver call: the traces are concatenated and
the read count is passed on; `none` (no return) propagates. -/
def seqRun (a : Option (List Event × Nat)) (f : Nat → Option (List Event × Nat)) :
    Option (List Event × Nat) :=
  match a with
  | none => none
  | some (t1, k1) =>
    match f k1 with
    | none => none
    | some (t2, k2) => some (t1 ++ t2, k2)

/-- The levels last driven on the chip-select and data/command lines (`none`:
not driven yet; `some false`: low). -/
structure Lines where
  cs : Option Bool
  dc : Option Bool
deriving DecidableEq, Repr

/-- The effect of one event on the line levels. -/
def Lines.step (l : Lines) : Event → Lines
  | Event.pinSet Pin.cs v => { l with cs := some v }
  | Event.pinSet Pin.dc v => { l with dc := some v }
  | _ => l

/-- The bytes a trace puts on the bus, in order, each with the line levels at
the moment of its transfer. -/
def wire (l : Lines) : List Event → List (Nat × Lines)
  | [] => []
  | Event.transfer b :: t => (b, l) :: wire l t
  | Event.tx data :: t => data.map (fun b => (b, l)) ++ wire l t
  | Event.pinConfigure p o :: t => wire (l.step (Event.pinConfigure p o)) t
  | Event.pinSet p v :: t => wire (l.step (Event.pinSet p v)) t
  | Event.busyGet v :: t => wire (l.step (Event.busyGet v)) t
  | Event.sleep ms :: t => wire (l.step (Event.sleep ms)) t

/-- The bytes of a trace, in order. -/
def busBytes (l : Lines) (t : List Event) : List Nat := (wire l t).map Prod.fst

/-- The bytes of a trace sent with the data/command line low (commands). -/
def cmdBytes (l : Lines) (t : List Event) : List Nat :=
  ((wire l t).filter (fun p => p.2.dc = some false)).map Prod.fst

/-- The bytes of a trace sent with the data/command line high (data). -/
def dataBytes (l : Lines) (t : List Event) : List Nat :=
  ((wire l t).filter (fun p => p.2.dc = some true)).map Prod.fst

/-- The line levels after a trace. -/
def Lines.run (l : Lines) (t : List Event) : Lines := t.foldl Lines.step l

/-- A trace that only reads the busy pin and sleeps. -/
def Quiet (t : List Event) : Prop :=
  ∀ e ∈ t, (∃ v, e = Event.busyGet v) ∨ (∃ ms, e = Event.sleep ms)

/-- Row `j` of a row-major buffer with `m` bytes per row:
`buf[j*m .. (j+1)*m - 1]`. -/
def bufferRow (buf : List Nat) (m j : Nat) : List Nat := (buf.drop (j * m)).take m

/-- The slice expression `buf[lo:hi]`: `none` (panic) unless
`0 ≤ lo ≤ hi ≤ len(buf)`. -/
def sliceBuf (buf : List Nat) (lo hi : Int) : Option (List Nat) :=
  if 0 ≤ lo ∧ lo ≤ hi ∧ hi ≤ buf.length then some ((buf.drop lo.toNat).take (hi - lo).toNat)
  else none

/-- The index expressions `buf[i]` for a list of indices: `none` (panic) when
one of them is outside the buffer. -/
def readAll (buf : List Nat) : List Int → Option (List Nat)
  | [] => some []
  | i :: is =>
    if 0 ≤ i ∧ i < buf.length then
      match readAll buf is with
      | none => none
      | some bs => some (buf.getD i.toNat 0 :: bs)
    else none

/-! ## Driver `ssd1681` -/

namespace ssd1681

/-- The error values `FillRectangle` can return. -/
inductive Error where
  | errDrawingOutOfBounds
deriving DecidableEq, Repr

/-- The fields of `Device` that the framebuffer code reads or writes
(`width`, `height : int16`, `buffer : []byte`). -/
structure Device where
  width : Int
  height : Int
  buffer : List Nat
deriving DecidableEq, Repr

/-- Source `ceil(n, d int16) int16 = (n + d - 1) / d`, in `int16` arithmetic
with the truncating Go division. -/
def ceil (n d : Int) : Int := wrap16 (Int.tdiv (wrap16 (wrap16 (n + d) - 1)) d)

/-- The luminance `color.GrayModel.Convert(c).(color.Gray).Y` of the Go package
`image/color`: the channels are widened to 16 bits (`r |= r << 8`) and
combined in `uint32` arithmetic. -/
def grayY (c : RGBA) : Nat :=
  let r := c.R ||| (c.R <<< 8)
  let g := c.G ||| (c.G <<< 8)
  let b := c.B ||| (c.B <<< 8)
  (((19595 * r + 38470 * g + 7471 * b + (1 <<< 15)) % 4294967296) >>> 24) % 256

/-- The byte `colBit` of `FillRectangle`: 255 for white, 0 for black. -/
def colBit (c : RGBA) : Nat := if grayY c < 128 then 0 else 255

/-- The inner loop of `FillRectangle`,
`for xpos := x; xpos < x+width; xpos++ { ... }`, started at `xpos` on the
buffer `buf`; `dw` is `d.width`. -/
def fillCols (dw ypos x width : Int) (cb : Nat) (xpos : Int) (buf : List Nat) :
    Option (List Nat) :=
  if xpos < wrap16 (x + width) then
    let bufPos := wrap16 (wrap16 (ypos * ceil dw 8) + wrap16 (Int.tdiv xpos 8))
    let s := wrap16 (7 - wrap16 (Int.tmod xpos 8))
    if s < 0 then none
    else
      let mask := (1 <<< s.toNat) % 256
      if 0 ≤ bufPos ∧ bufPos < buf.length then
        let b := buf.getD bufPos.toNat 0
        fillCols dw ypos x width cb (wrap16 (xpos + 1))
          (buf.set bufPos.toNat ((b &&& (255 - mask)) ||| (cb &&& mask)))
      else none
  else some buf
termination_by (32767 - xpos).toNat
decreasing_by
  rename_i hlt _ _
  have h1 : wrap16 (x + width) ≤ 32767 := by unfold wrap16; omega
  have h2 : xpos + 1 ≤ wrap16 (xpos + 1) := by unfold wrap16; omega
  omega

/-- The outer loop of `FillRectangle`,
`for ypos := y; ypos < y+height; ypos++ { ... }`, started at `ypos`. -/
def fillRows (dw x y width height : Int) (cb : Nat) (ypos : Int) (buf : List Nat) :
    Option (List Nat) :=
  if ypos < wrap16 (y + height) then
    match fillCols dw ypos x width cb x buf with
    | none => none
    | some buf1 => fillRows dw x y width height cb (wrap16 (ypos + 1)) buf1
  else some buf
termination_by (32767 - ypos).toNat
decreasing_by
  rename_i hlt
  have h1 : wrap16 (y + height) ≤ 32767 := by unfold wrap16; omega
  have h2 : ypos + 1 ≤ wrap16 (ypos + 1) := by unfold wrap16; omega
  omega

/-- Source `Device.FillRectangle(x, y, width, height, c) error`.  The result
is `none` on a run-time panic, otherwise the device after the call and the
returned error (`none` for `nil`). -/
def FillRectangle (d : Device) (x y width height : Int) (c : RGBA) :
    Option (Device × Option Error) :=
  if x < 0 ∨ y < 0 ∨ width ≤ 0 ∨ height ≤ 0 ∨
      x ≥ d.width ∨ wrap16 (x + width) > d.width ∨
      y ≥ d.height ∨ wrap16 (y + height) > d.height then
    some (d, some Error.errDrawingOutOfBounds)
  else
    match fillRows d.width x y width height (colBit c) y d.buffer with
    | none => none
    | some buf => some ({ d with buffer := buf }, none)

/-- Bit `7 - px mod 8` of byte `py * ceil(width, 8) + px / 8`: the bit that
holds pixel `(px, py)`. -/
def pixelBit (dw : Int) (buf : List Nat) (px py : Int) : Bool :=
  Nat.testBit (buf.getD (py * ceil dw 8 + px / 8).toNat 0) (7 - px % 8).toNat

/-- A 200x200 panel with the all-zero buffer that `Configure` allocates. -/
def panel200 : Device := { width := 200, height := 200, buffer := List.replicate 5000 0 }

/-- Source `Device.SetPixel(x, y, c)`: `none` on a run-time panic, otherwise
the device after the call.  The error `FillRectangle` returns is dropped. -/
def SetPixel (d : Device) (x y : Int) (c : RGBA) : Option Device :=
  if x < 0 ∨ y < 0 ∨ x ≥ d.width ∨ y ≥ d.height then some d
  else
    match FillRectangle d x y 1 1 c with
    | none => none
    | some (d1, _) => some d1

/-- Source `Config`: `Width`, `Height : int16`. -/
structure Config where
  Width : Int
  Height : Int
deriving DecidableEq, Repr

/-- The state part of source `Device.Configure(cfg)`: the defaults, the two
field assignments and `make([]byte, ((d.width+7)/8)*d.height)`, whose length
is an `int16` expression; `make` panics on a negative length.  The pin and bus
traffic that follows does not touch these fields. -/
def Configure (cfg : Config) : Option Device :=
  let width := if cfg.Width = 0 then 200 else cfg.Width
  let height := if cfg.Height = 0 then 200 else cfg.Height
  let n := wrap16 (wrap16 (Int.tdiv (wrap16 (width + 7)) 8) * height)
  if n < 0 then none
  else some { width := width, height := height, buffer := List.replicate n.toNat 0 }

/-- The register constants of package `ssd1681` that the driver code names;
the file declaring them is not among the sources, so their values are
parameters. -/
structure Registers where
  SW_RESET : Nat
  DRIVER_CONTROL : Nat
  DATA_MODE : Nat
  SET_RAMXPOS : Nat
  SET_RAMYPOS : Nat
  WRITE_BORDER : Nat
  TEMP_CONTROL : Nat
  SET_RAMXCOUNT : Nat
  SET_RAMYCOUNT : Nat
  WRITE_BWRAM : Nat
  DISP_CTRL2 : Nat
  MASTER_ACTIVATE : Nat
  DEEP_SLEEP : Nat
deriving DecidableEq, Repr

/-- A 16x2 panel whose buffer holds the bytes `1, 2, 3, 4` (two per row). -/
def panel16x2 : Device := { width := 16, height := 2, buffer := [1, 2, 3, 4] }

/-- Sample register values (the command codes of the SSD1681 data sheet), used
to instantiate theorems at a concrete input. -/
def sampleRegisters : Registers :=
  { SW_RESET := 0x12, DRIVER_CONTROL := 0x01, DATA_MODE := 0x11, SET_RAMXPOS := 0x44,
    SET_RAMYPOS := 0x45, WRITE_BORDER := 0x3C, TEMP_CONTROL := 0x18, SET_RAMXCOUNT := 0x4E,
    SET_RAMYCOUNT := 0x4F, WRITE_BWRAM := 0x24, DISP_CTRL2 := 0x22, MASTER_ACTIVATE := 0x20,
    DEEP_SLEEP := 0x10 }

/-- Source `Device.Command(command, data...)`. -/
def Command (command : Nat) (data : List Nat) : List Event :=
  [Event.pinSet Pin.dc false, Event.pinSet Pin.cs false, Event.transfer command,
   Event.pinSet Pin.dc true, Event.tx data, Event.pinSet Pin.cs true]

/-- Source `Device.Wait()`: poll the busy pin every 10 ms. -/
def Wait (busy : Nat → Bool) (fuel k : Nat) : Option (List Event × Nat) :=
  pollBusy 10 busy fuel k

/-- The loop `for row := 0; row < int(d.height); row++ { d.Command(WRITE_BWRAM,
d.buffer[row*int(ceil(d.width, 8)):(row+1)*int(ceil(d.width, 8))]...) }` of
`Display`, with `n` rows left and `row` the next one.  The counter is an `int`
and runs over `0 .. height-1`; the products of `int16` values fit an `int`. -/
def displayRows (r : Registers) (d : Device) : Nat → Int → Option (List Event)
  | 0, _ => some []
  | n + 1, row =>
    match sliceBuf d.buffer (row * ceil d.width 8) ((row + 1) * ceil d.width 8) with
    | none => none
    | some data =>
      match displayRows r d n (row + 1) with
      | none => none
      | some t => some (Command r.WRITE_BWRAM data ++ t)

/-- Source `Device.Display() error`: `none` when the call does not return (a
run-time panic, or the busy pin never idle within `fuel` reads), otherwise the
device after the call, the returned error (`none` for `nil`), the trace and the
new read count. -/
def Display (r : Registers) (d : Device) (busy : Nat → Bool) (fuel k : Nat) :
    Option (Device × Option Error × List Event × Nat) :=
  match displayRows r d d.height.toNat 0 with
  | none => none
  | some rows =>
    match Wait busy fuel k with
    | none => none
    | some (w, k1) =>
      some (d, none,
        Command r.SET_RAMXCOUNT [0] ++ Command r.SET_RAMYCOUNT [0, 0] ++ rows ++
          Command r.DISP_CTRL2 [0xF7] ++ Command r.MASTER_ACTIVATE [] ++ w, k1)

/-- The pin and bus traffic of source `Device.Configure(cfg)`, which follows
the field assignments and the allocation of the buffer (see `Configure`) and
reads `d.width` and `d.height`. -/
def ConfigureTraffic (r : Registers) (d : Device) (busy : Nat → Bool) (fuel k : Nat) :
    Option (List Event × Nat) :=
  seqRun (some
    ([Event.pinConfigure Pin.dc true, Event.pinConfigure Pin.rst true,
      Event.pinConfigure Pin.cs true, Event.pinConfigure Pin.en true,
      Event.pinConfigure Pin.busy false,
      Event.pinSet Pin.en true,
      Event.pinSet Pin.rst true, Event.sleep 100,
      Event.pinSet Pin.rst false, Event.sleep 100,
      Event.pinSet Pin.rst true, Event.sleep 200], k)) fun k1 =>
  seqRun (Wait busy fuel k1) fun k2 =>
  seqRun (some (Command r.SW_RESET [], k2)) fun k3 =>
  seqRun (Wait busy fuel k3) fun k4 =>
  seqRun (some
    (Command r.DRIVER_CONTROL
        [toByte (wrap16 (d.width - 1)), toByte (wrap16 (d.width - 1) / 256), 0] ++
      Command r.DATA_MODE [0x3] ++
      Command r.SET_RAMXPOS [0, toByte (ceil d.width 8)] ++
      Command r.SET_RAMYPOS
        [0, 0, toByte (wrap16 (d.height - 1)), toByte (wrap16 (d.height - 1) / 256)] ++
      Command r.WRITE_BORDER [0x05] ++
      Command r.TEMP_CONTROL [0x80], k4)) fun k5 =>
  Wait busy fuel k5

end ssd1681

/-! ## Driver `epd2in9v2` -/

namespace epd2in9v2

/-- Source constant `NO_ROTATION Rotation = 0` (`Rotation` is `uint8`). -/
def NO_ROTATION : Nat := 0

/-- Source constant `ROTATION_90 Rotation = 1`. -/
def ROTATION_90 : Nat := 1

/-- Source constant `ROTATION_180 Rotation = 2`. -/
def ROTATION_180 : Nat := 2

/-- Source constant `ROTATION_270 Rotation = 3`. -/
def ROTATION_270 : Nat := 3

/-- Source `Config`: `Width`, `Height`, `LogicalWidth : int16` and
`Rotation : uint8`. -/
structure Config where
  Width : Int
  Height : Int
  LogicalWidth : Int
  Rotation : Nat
deriving DecidableEq, Repr

/-- The fields of `Device` that the framebuffer code reads or writes. -/
structure Device where
  logicalWidth : Int
  width : Int
  height : Int
  buffer : List Nat
  bufferLength : Nat
  rotation : Nat
deriving DecidableEq, Repr

/-- Conversion `uint32(v)` of an `int16` value. -/
def toU32 (v : Int) : Nat := (v % 4294967296).toNat

/-- The loop `for i := uint32(0); i < d.bufferLength; i++ { d.buffer[i] = 0xFF }`
of `Configure` and `ClearBuffer`, started at index `i`; `none` when an index
is outside the buffer.  The counter stays below `n`, which is a `uint32`, so
`i++` does not wrap. -/
def fillFF (n : Nat) (i : Nat) (buf : List Nat) : Option (List Nat) :=
  if i < n then
    if i < buf.length then fillFF n (i + 1) (buf.set i 0xFF) else none
  else some buf
termination_by n - i

/-- The state part of source `Device.Configure(cfg)`: every modelled field is
assigned from `cfg`, the buffer is allocated with `make` and filled with
`0xFF`.  The bus and pin traffic that follows does not touch these fields. -/
def Configure (cfg : Config) : Option Device :=
  let logicalWidth := if cfg.LogicalWidth ≠ 0 then cfg.LogicalWidth else 128
  let width := if cfg.Width ≠ 0 then cfg.Width else 128
  let height := if cfg.Height ≠ 0 then cfg.Height else 296
  let bufferLength := ((toU32 logicalWidth * toU32 height) % 4294967296) / 8
  match fillFF bufferLength 0 (List.replicate bufferLength 0) with
  | none => none
  | some buf =>
    some { logicalWidth := logicalWidth, width := width, height := height,
           buffer := buf, bufferLength := bufferLength, rotation := cfg.Rotation }

/-- Source `Device.xy(x, y)`: the rotation transform, in `int16` arithmetic. -/
def xy (d : Device) (x y : Int) : Int × Int :=
  if d.rotation = NO_ROTATION then (x, y)
  else if d.rotation = ROTATION_90 then (wrap16 (wrap16 (d.width - y) - 1), x)
  else if d.rotation = ROTATION_180 then
    (wrap16 (wrap16 (d.width - x) - 1), wrap16 (wrap16 (d.height - y) - 1))
  else if d.rotation = ROTATION_270 then (y, wrap16 (wrap16 (d.height - x) - 1))
  else (x, y)

/-- The expression `(int32(x) + int32(y)*int32(d.logicalWidth)) / 8` of
`SetPixel`, in `int32` arithmetic with the truncating Go division. -/
def byteIndex (lw x y : Int) : Int :=
  wrap32 (Int.tdiv (wrap32 (x + wrap32 (y * lw))) 8)

/-- The expression `0x80 >> uint8(x%8)` of `SetPixel`, a `uint8`. -/
def bitMask (x : Int) : Nat := 0x80 >>> ((wrap16 (Int.tmod x 8)) % 256).toNat

/-- Source `Device.SetPixel(x, y, c)`: `none` on a run-time panic, otherwise
the device after the call. -/
def SetPixel (d : Device) (x y : Int) (c : RGBA) : Option Device :=
  let p := xy d x y
  if p.1 < 0 ∨ p.1 ≥ d.logicalWidth ∨ p.2 < 0 ∨ p.2 ≥ d.height then some d
  else
    let i := byteIndex d.logicalWidth p.1 p.2
    if 0 ≤ i ∧ i < d.buffer.length then
      let b := d.buffer.getD i.toNat 0
      if c.R = 0 ∧ c.G = 0 ∧ c.B = 0 then
        some { d with buffer := d.buffer.set i.toNat (b ||| bitMask p.1) }
      else
        some { d with buffer := d.buffer.set i.toNat (b &&& (255 - bitMask p.1)) }
    else none

/-- Source `Device.ClearBuffer()`: `none` on a run-time panic. -/
def ClearBuffer (d : Device) : Option Device :=
  match fillFF d.bufferLength 0 d.buffer with
  | none => none
  | some buf => some { d with buffer := buf }

/-- Source `Device.Size()`. -/
def Size (d : Device) : Int × Int :=
  if d.rotation = ROTATION_90 ∨ d.rotation = ROTATION_270 then (d.height, d.logicalWidth)
  else (d.logicalWidth, d.height)

/-- The canvas of the rotated panel in terms of the native size:
`(width, height)` for 0 and 180 degrees, `(height, width)` for 90 and 270
degrees. -/
def nativeCanvas (d : Device) : Int × Int :=
  if d.rotation = ROTATION_90 ∨ d.rotation = ROTATION_270 then (d.height, d.width)
  else (d.width, d.height)

/-- A configured 122x250 panel padded to a logical width of 128 (the numbers
of the rotation example in the specification), with rotation `r` and a
cleared buffer of `128 * 250 / 8 = 4000` bytes. -/
def panel122 (r : Nat) : Device :=
  { logicalWidth := 128, width := 122, height := 250,
    buffer := List.replicate 4000 0xFF, bufferLength := 4000, rotation := r }

/-- The default 128x296 panel (logical width 128) with rotation `r` and a
cleared buffer of `128 * 296 / 8 = 4736` bytes. -/
def panel128 (r : Nat) : Device :=
  { logicalWidth := 128, width := 128, height := 296,
    buffer := List.replicate 4736 0xFF, bufferLength := 4736, rotation := r }

/-- An 8x2 panel whose buffer holds the bytes `0xAA, 0x55` (one per row). -/
def panel8x2 : Device :=
  { logicalWidth := 8, width := 8, height := 2, buffer := [0xAA, 0x55], bufferLength := 2,
    rotation := 0 }

/-- A configuration whose `LogicalWidth` is not a multiple of 8. -/
def cfg12 : Config := { Width := 12, Height := 1, LogicalWidth := 12, Rotation := 0 }

/-- The device that `Configure(cfg12)` produces: one buffer byte. -/
def dev12 : Device :=
  { logicalWidth := 12, width := 12, height := 1, buffer := [0xFF], bufferLength := 1,
    rotation := 0 }

/-- Source constant `DRIVER_OUTPUT_CONTROL`. -/
def DRIVER_OUTPUT_CONTROL : Nat := 0x01

/-- Source constant `DATA_ENTRY_MODE_SETTING`. -/
def DATA_ENTRY_MODE_SETTING : Nat := 0x11

/-- Source constant `SW_RESET`. -/
def SW_RESET : Nat := 0x12

/-- Source constant `MASTER_ACTIVATION`. -/
def MASTER_ACTIVATION : Nat := 0x20

/-- Source constant `DISPLAY_UPDATE_CONTROL_1`. -/
def DISPLAY_UPDATE_CONTROL_1 : Nat := 0x21

/-- Source constant `DISPLAY_UPDATE_CONTROL_2`. -/
def DISPLAY_UPDATE_CONTROL_2 : Nat := 0x22

/-- Source constant `WRITE_RAM`. -/
def WRITE_RAM : Nat := 0x24

/-- Source constant `WRITE_LUT_REGISTER`. -/
def WRITE_LUT_REGISTER : Nat := 0x32

/-- Source constant `SET_RAM_X_ADDRESS_START_END_POSITION`. -/
def SET_RAM_X_ADDRESS_START_END_POSITION : Nat := 0x44

/-- Source constant `SET_RAM_Y_ADDRESS_START_END_POSITION`. -/
def SET_RAM_Y_ADDRESS_START_END_POSITION : Nat := 0x45

/-- Source constant `SET_RAM_X_ADDRESS_COUNTER`. -/
def SET_RAM_X_ADDRESS_COUNTER : Nat := 0x4E

/-- Source constant `SET_RAM_Y_ADDRESS_COUNTER`. -/
def SET_RAM_Y_ADDRESS_COUNTER : Nat := 0x4F

/-- Source table `lutFullUpdate`: the look-up table for full updates. -/
def lutFullUpdate : List Nat :=
  [
   0x80, 0x66, 0x00, 0x00, 0x00, 0x00, 0x00, 0x00, 0x40, 0x00, 0x00, 0x00,
   0x10, 0x66, 0x00, 0x00, 0x00, 0x00, 0x00, 0x00, 0x20, 0x00, 0x00, 0x00,
   0x80, 0x66, 0x00, 0x00, 0x00, 0x00, 0x00, 0x00, 0x40, 0x00, 0x00, 0x00,
   0x10, 0x66, 0x00, 0x00, 0x00, 0x00, 0x00, 0x00, 0x20, 0x00, 0x00, 0x00,
   0x00, 0x00, 0x00, 0x00, 0x00, 0x00, 0x00, 0x00, 0x00, 0x00, 0x00, 0x00,
   0x14, 0x08, 0x00, 0x00, 0x00, 0x00, 0x01, 0x0A, 0x0A, 0x00, 0x0A, 0x0A,
   0x00, 0x01, 0x00, 0x00, 0x00, 0x00, 0x00, 0x00, 0x00, 0x00, 0x00, 0x00,
   0x00, 0x00, 0x00, 0x00, 0x00, 0x00, 0x00, 0x00, 0x00, 0x00, 0x00, 0x00,
   0x00, 0x00, 0x00, 0x00, 0x00, 0x00, 0x00, 0x00, 0x00, 0x00, 0x00, 0x00,
   0x00, 0x00, 0x00, 0x00, 0x00, 0x00, 0x00, 0x00, 0x14, 0x08, 0x00, 0x01,
   0x00, 0x00, 0x01, 0x00, 0x00, 0x00, 0x00, 0x00, 0x00, 0x01, 0x00, 0x00,
   0x00, 0x00, 0x00, 0x00, 0x00, 0x00, 0x00, 0x00, 0x00, 0x00, 0x00, 0x00,
   0x44, 0x44, 0x44, 0x44, 0x44, 0x44, 0x00, 0x00, 0x00, 0x22, 0x17, 0x41,
   0x00, 0x32, 0x36 ]

/-- Source table `lutPartialUpdate`: the look-up table for faster updates
with some ghosting. -/
def lutPartialUpdate : List Nat :=
  [
   0x00, 0x40, 0x00, 0x00, 0x00, 0x00, 0x00, 0x00, 0x00, 0x00, 0x00, 0x00,
   0x80, 0x80, 0x00, 0x00, 0x00, 0x00, 0x00, 0x00, 0x00, 0x00, 0x00, 0x00,
   0x40, 0x40, 0x00, 0x00, 0x00, 0x00, 0x00, 0x00, 0x00, 0x00, 0x00, 0x00,
   0x00, 0x80, 0x00, 0x00, 0x00, 0x00, 0x00, 0x00, 0x00, 0x00, 0x00, 0x00,
   0x00, 0x00, 0x00, 0x00, 0x00, 0x00, 0x00, 0x00, 0x00, 0x00, 0x00, 0x00,
   0x0A, 0x00, 0x00, 0x00, 0x00, 0x00, 0x02, 0x01, 0x00, 0x00, 0x00, 0x00,
   0x00, 0x00, 0x01, 0x00, 0x00, 0x00, 0x00, 0x00, 0x00, 0x00, 0x00, 0x00,
   0x00, 0x00, 0x00, 0x00, 0x00, 0x00, 0x00, 0x00, 0x00, 0x00, 0x00, 0x00,
   0x00, 0x00, 0x00, 0x00, 0x00, 0x00, 0x00, 0x00, 0x00, 0x00, 0x00, 0x00,
   0x00, 0x00, 0x00, 0x00, 0x00, 0x00, 0x00, 0x00, 0x00, 0x00, 0x00, 0x00,
   0x00, 0x00, 0x00, 0x00, 0x00, 0x00, 0x00, 0x00, 0x00, 0x00, 0x00, 0x00,
   0x00, 0x00, 0x00, 0x00, 0x00, 0x00, 0x00, 0x00, 0x00, 0x00, 0x00, 0x00,
   0x22, 0x22, 0x22, 0x22, 0x22, 0x22, 0x00, 0x00, 0x00, 0x22, 0x17, 0x41,
   0xB0, 0x32, 0x36 ]

/-- The table `SetLUT(fullUpdate)` is to program: `lutFullUpdate` if
`fullUpdate`, else `lutPartialUpdate`. -/
def selectedLUT (fullUpdate : Bool) : List Nat :=
  if fullUpdate then lutFullUpdate else lutPartialUpdate

/-- Source `Device.sendDataCommand(isCommand, data)`. -/
def sendDataCommand (isCommand : Bool) (data : Nat) : List Event :=
  (if isCommand then [Event.pinSet Pin.dc false] else [Event.pinSet Pin.dc true]) ++
    [Event.pinSet Pin.cs false, Event.transfer data, Event.pinSet Pin.cs true]

/-- Source `Device.SendCommand(command)`. -/
def SendCommand (command : Nat) : List Event := sendDataCommand true command

/-- Source `Device.SendData(data)`. -/
def SendData (data : Nat) : List Event := sendDataCommand false data

/-- Source `Device.WaitUntilIdle()`: poll the busy pin every 100 ms. -/
def WaitUntilIdle (busy : Nat → Bool) (fuel k : Nat) : Option (List Event × Nat) :=
  pollBusy 100 busy fuel k

/-- Source `Device.Reset()`. -/
def Reset : List Event :=
  [Event.pinSet Pin.rst true, Event.sleep 10, Event.pinSet Pin.rst false, Event.sleep 2,
   Event.pinSet Pin.rst true, Event.sleep 10]

/-- Source `Device.SetLUT(fullUpdate)`.  The table has 159 entries, so no
index is out of range. -/
def SetLUT (fullUpdate : Bool) (busy : Nat → Bool) (fuel k : Nat) :
    Option (List Event × Nat) :=
  let lut := if !fullUpdate then lutPartialUpdate else lutFullUpdate
  seqRun (some
    (SendCommand WRITE_LUT_REGISTER ++
      (List.range 153).flatMap (fun i => SendData (lut.getD i 0)), k)) fun k1 =>
  seqRun (WaitUntilIdle busy fuel k1) fun k2 =>
  some
    (SendCommand 0x3f ++ SendData (lut.getD 153 0) ++
      SendCommand 0x03 ++ SendData (lut.getD 154 0) ++
      SendCommand 0x04 ++ SendData (lut.getD 155 0) ++ SendData (lut.getD 156 0) ++
        SendData (lut.getD 157 0) ++
      SendCommand 0x2c ++ SendData (lut.getD 158 0), k2)

/-- The traffic that programs the table `lut`, as the specification words
it: command `0x32` with data `lut[0..152]`, the busy-wait `w`, command `0x3f`
with data `lut[153]`, command `0x03` with data `lut[154]`, command `0x04` with
data `lut[155]`, `lut[156]`, `lut[157]`, and command `0x2c` with data
`lut[158]`. -/
def lutTraffic (lut : List Nat) (w : List Event) : List Event :=
  SendCommand 0x32 ++ (lut.take 153).flatMap SendData ++ w ++
    SendCommand 0x3f ++ SendData (lut.getD 153 0) ++
    SendCommand 0x03 ++ SendData (lut.getD 154 0) ++
    SendCommand 0x04 ++ SendData (lut.getD 155 0) ++ SendData (lut.getD 156 0) ++
      SendData (lut.getD 157 0) ++
    SendCommand 0x2c ++ SendData (lut.getD 158 0)

/-- Source `Device.setMemoryArea(x0, y0, x1, y1)`; `>> n` on an `int16` is the
floor division by `2^n`. -/
def setMemoryArea (x0 y0 x1 y1 : Int) : List Event :=
  SendCommand SET_RAM_X_ADDRESS_START_END_POSITION ++
    SendData (toByte (x0 / 8)) ++ SendData (toByte (x1 / 8)) ++
  SendCommand SET_RAM_Y_ADDRESS_START_END_POSITION ++
    SendData (toByte y0) ++ SendData (toByte (y0 / 256)) ++
    SendData (toByte y1) ++ SendData (toByte (y1 / 256))

/-- Source `Device.setMemoryPointer(x, y)`. -/
def setMemoryPointer (x y : Int) (busy : Nat → Bool) (fuel k : Nat) :
    Option (List Event × Nat) :=
  seqRun (some
    (SendCommand SET_RAM_X_ADDRESS_COUNTER ++ SendData (toByte (x / 8)) ++
      SendCommand SET_RAM_Y_ADDRESS_COUNTER ++
        SendData (toByte y) ++ SendData (toByte (y / 256)), k)) fun k1 =>
  WaitUntilIdle busy fuel k1

/-- The bytes `d.buffer[i+j*(d.logicalWidth/8)]` for `i = 0 .. logicalWidth/8 - 1`
that the inner loop of `Display` sends for row `j`; the index is an `int16`
expression. -/
def rowData (d : Device) (j : Int) : Option (List Nat) :=
  readAll d.buffer
    ((List.range (wrap16 (Int.tdiv d.logicalWidth 8)).toNat).map
      (fun (i : Nat) => wrap16 ((i : Int) + wrap16 (j * wrap16 (Int.tdiv d.logicalWidth 8)))))

/-- The loop `for j := int16(0); j < d.height; j++ { ... }` of `Display`, with
`n` rows left and `j` the next one.  The counter stays below `d.height`, an
`int16`, so `j++` does not wrap. -/
def displayRows (d : Device) (busy : Nat → Bool) (fuel : Nat) :
    Nat → Int → Nat → Option (List Event × Nat)
  | 0, _, k => some ([], k)
  | n + 1, j, k =>
    seqRun (setMemoryPointer 0 j busy fuel k) fun k1 =>
    match rowData d j with
    | none => none
    | some bytes =>
      seqRun (some (SendCommand WRITE_RAM ++ bytes.flatMap SendData, k1)) fun k2 =>
      displayRows d busy fuel n (j + 1) k2

/-- Source `Device.Display() error`: `none` when the call does not return (a
run-time panic, or the busy pin never idle within `fuel` reads), otherwise the
device after the call, the returned error (`none` for `nil`), the trace and the
new read count. -/
def Display (d : Device) (busy : Nat → Bool) (fuel k : Nat) :
    Option (Device × Option String × List Event × Nat) :=
  match
    seqRun (some (setMemoryArea 0 0 (wrap16 (d.logicalWidth - 1)) (wrap16 (d.height - 1)), k))
      fun k1 =>
    seqRun (displayRows d busy fuel d.height.toNat 0 k1) fun k2 =>
    seqRun (some
      (SendCommand DISPLAY_UPDATE_CONTROL_2 ++ SendData 0xC7 ++
        SendCommand MASTER_ACTIVATION, k2)) fun k3 =>
    WaitUntilIdle busy fuel k3
  with
  | none => none
  | some (t, k4) => some (d, none, t, k4)

/-- The traffic of `Display` for row `j` with the busy pin idle, as the
specification words it: the address counter is set to `(0, j)` (command `0x4E`
with data `0`, command `0x4F` with the low and then the high byte of `j`), the
busy pin is read once, then `WRITE_RAM` (`0x24`) and the `logicalWidth/8` bytes
of row `j` of the buffer. -/
def rowTraffic (d : Device) (j : Nat) : List Event :=
  SendCommand 0x4E ++ SendData 0 ++
    SendCommand 0x4F ++ SendData (j % 256) ++ SendData (j / 256 % 256) ++
    [Event.busyGet false] ++
    SendCommand 0x24 ++ (bufferRow d.buffer (d.logicalWidth / 8).toNat j).flatMap SendData

/-- The pin and bus traffic of source `Device.Configure(cfg)`, which follows
the field assignments and the filling of the buffer (see `Configure`) and
reads `d.height`. -/
def ConfigureTraffic (d : Device) (busy : Nat → Bool) (fuel k : Nat) :
    Option (List Event × Nat) :=
  seqRun (some
    ([Event.pinSet Pin.cs false, Event.pinSet Pin.dc false, Event.pinSet Pin.rst false] ++
      Reset ++ [Event.sleep 100] ++ SendCommand SW_RESET, k)) fun k1 =>
  seqRun (WaitUntilIdle busy fuel k1) fun k2 =>
  seqRun (some
    (SendCommand DRIVER_OUTPUT_CONTROL ++
        SendData (toByte (wrap16 (d.height - 1))) ++
        SendData (toByte (wrap16 (d.height - 1) / 256)) ++
        SendData 0x00 ++
      SendCommand DATA_ENTRY_MODE_SETTING ++ SendData 0x03 ++
      SendCommand DISPLAY_UPDATE_CONTROL_1 ++ SendData 0x00 ++ SendData 0x80, k2)) fun k3 =>
  seqRun (WaitUntilIdle busy fuel k3) fun k4 =>
  SetLUT true busy fuel k4

/-- Source `Device.ClearDisplay()`: the RAM window is set to the whole panel,
the address counter to `(0, 0)`, `bufferLength` bytes `0xFF` follow one
`WRITE_RAM` command, and then `d.Display()` is called.  The result is `none`
when the call does not return, otherwise the trace and the new read count. -/
def ClearDisplay (d : Device) (busy : Nat → Bool) (fuel k : Nat) :
    Option (List Event × Nat) :=
  seqRun (some (setMemoryArea 0 0 (wrap16 (d.logicalWidth - 1)) (wrap16 (d.height - 1)), k))
    fun k1 =>
  seqRun (setMemoryPointer 0 0 busy fuel k1) fun k2 =>
  seqRun (some
    (SendCommand WRITE_RAM ++ (List.replicate d.bufferLength 0xFF).flatMap SendData, k2))
    fun k3 =>
  match Display d busy fuel k3 with
  | none => none
  | some (_, _, t, k4) => some (t, k4)

/-- The panel as it follows the bus: the command in progress, the number of
its data bytes received, the address counter `(x, y)` (`x` in bytes), the RAM
position of the next `WRITE_RAM` data byte, and the RAM window, row-major with
`stride` bytes per row. -/
structure Panel where
  stride : Nat
  cmd : Nat
  nargs : Nat
  x : Nat
  y : Nat
  addr : Nat
  ram : List Nat
deriving DecidableEq, Repr

/-- The effect of one bus byte on the panel.  A command byte (data/command
line low) starts a command and places the write position at the address
counter.  A data byte (line high) sets the X counter after
`SET_RAM_X_ADDRESS_COUNTER`, the low and then the high byte of the Y counter
after `SET_RAM_Y_ADDRESS_COUNTER`, and after `WRITE_RAM` is stored at the write
position, which then advances by one. -/
def Panel.step (p : Panel) (b : Nat × Lines) : Panel :=
  if b.2.dc = some false then
    { p with cmd := b.1, nargs := 0, addr := p.y * p.stride + p.x }
  else if b.2.dc = some true then
    if p.cmd = SET_RAM_X_ADDRESS_COUNTER then
      { p with x := if p.nargs = 0 then b.1 else p.x, nargs := p.nargs + 1 }
    else if p.cmd = SET_RAM_Y_ADDRESS_COUNTER then
      { p with
        y := if p.nargs = 0 then b.1 else if p.nargs = 1 then p.y % 256 + 256 * b.1 else p.y,
        nargs := p.nargs + 1 }
    else if p.cmd = WRITE_RAM then
      { p with ram := p.ram.set p.addr b.1, addr := p.addr + 1, nargs := p.nargs + 1 }
    else { p with nargs := p.nargs + 1 }
  else p

/-- The panel RAM after the trace `t`, started from the content `ram` with
`stride` bytes per row: the data bytes that follow `WRITE_RAM` commands are
stored from the address counter set just before them. -/
def panelRAM (stride : Nat) (ram : List Nat) (t : List Event) : List Nat :=
  ((wire ⟨none, none⟩ t).foldl Panel.step
    { stride := stride, cmd := 0, nargs := 0, x := 0, y := 0, addr := 0, ram := ram }).ram

/-- An 8x2 panel (one byte per row) whose buffer holds the bytes `a, b`. -/
def panelOf (a b : Nat) : Device :=
  { logicalWidth := 8, width := 8, height := 2, buffer := [a, b], bufferLength := 2,
    rotation := 0 }

/-- The traffic of `ClearDisplay` before its call of `Display`, with the busy
pin idle: the RAM window, the address counter `(0, 0)`, one read of the busy
pin, then `WRITE_RAM` and `bufferLength` bytes `0xFF`. -/
def fillTraffic (d : Device) : List Event :=
  setMemoryArea 0 0 (wrap16 (d.logicalWidth - 1)) (wrap16 (d.height - 1)) ++
    (SendCommand 0x4E ++ SendData 0 ++ SendCommand 0x4F ++ SendData 0 ++ SendData 0 ++
      [Event.busyGet false]) ++
    (SendCommand 0x24 ++ (List.replicate d.bufferLength 0xFF).flatMap SendData)

end epd2in9v2

/-! ## Package `tester` -/

namespace tester

/-- Source constant `MaxRegisters`. -/
def MaxRegisters : Nat := 200

/-- A value of the interface `Failer`, whose declaration is not among the
files at hand.  Of a failer only one thing matters here: whether its `Fatalf`
returns to the caller.  The `Fatalf` of `testing.T` does not (it ends the
goroutine), which `FindDevice` relies on when it follows the call with
`panic("unreachable")`. -/
structure Failer where
  returns : Bool
deriving DecidableEq, Repr

/-- How a call ends: it returns a value, it is stopped inside a `Fatalf` that
does not return, or it ends in a run-time panic.  The functions below pair the
ending with the number of calls of `Fatalf` made. -/
inductive Ending (α : Type) where
  | ret (a : α)
  | stopped
  | panicked
deriving DecidableEq, Repr

/-- Source `I2CContiguousRegisterDevice`; `Registers` is the array
`[MaxRegisters]uint8`, `Err` is `none` for `nil`. -/
structure I2CContiguousRegisterDevice where
  c : Failer
  addr : Nat
  Registers : List Nat
  Err : Option String
deriving DecidableEq, Repr

/-- Source `NewI2CContiguousRegisterDevice(c, addr)`: the registers are the
zero value of the array and `Err` is `nil`. -/
def NewI2CContiguousRegisterDevice (c : Failer) (addr : Nat) : I2CContiguousRegisterDevice :=
  { c := c, addr := addr, Registers := List.replicate MaxRegisters 0, Err := none }

/-- The Go built-in `copy(dst, src)`: the first `min(len(dst), len(src))`
elements of `dst` are replaced by those of `src`. -/
def copy (dst src : List Nat) : List Nat :=
  src.take dst.length ++ dst.drop src.length

/-- Source `assertRegisterRange(r, buf)`: the number of calls of `Fatalf` and
whether control returns to the caller.  A `Fatalf` that returns lets the
second test run too. -/
def assertRegisterRange (d : I2CContiguousRegisterDevice) (r : Nat) (buf : List Nat) :
    Nat × Bool :=
  if d.Registers.length ≤ r then
    if d.c.returns then
      if d.Registers.length < r + buf.length then (2, true) else (1, true)
    else (1, false)
  else if d.Registers.length < r + buf.length then (1, d.c.returns)
  else (0, true)

/-- Source `I2CContiguousRegisterDevice.ReadRegister(r, buf)`: the calls of
`Fatalf` and the ending, which on return carries the error (`none` for `nil`)
and the content of the buffer of the caller.  The slice expression
`d.Registers[r:]` panics when `r` exceeds the length of the array. -/
def ReadRegister (d : I2CContiguousRegisterDevice) (r : Nat) (buf : List Nat) :
    Nat × Ending (Option String × List Nat) :=
  match d.Err with
  | some e => (0, Ending.ret (some e, buf))
  | none =>
    let a := assertRegisterRange d r buf
    if a.2 then
      if r ≤ d.Registers.length then (a.1, Ending.ret (none, copy buf (d.Registers.drop r)))
      else (a.1, Ending.panicked)
    else (a.1, Ending.stopped)

/-- Source `I2CContiguousRegisterDevice.WriteRegister(r, buf)`: the calls of
`Fatalf` and the ending, which on return carries the error and the device
after the call. -/
def WriteRegister (d : I2CContiguousRegisterDevice) (r : Nat) (buf : List Nat) :
    Nat × Ending (Option String × I2CContiguousRegisterDevice) :=
  match d.Err with
  | some e => (0, Ending.ret (some e, d))
  | none =>
    let a := assertRegisterRange d r buf
    if a.2 then
      if r ≤ d.Registers.length then
        (a.1, Ending.ret (none,
          { d with Registers := d.Registers.take r ++ copy (d.Registers.drop r) buf }))
      else (a.1, Ending.panicked)
    else (a.1, Ending.stopped)

/-- Source `I2CClassicDevice`; the map `Registers` is a list of pairs. -/
structure I2CClassicDevice where
  c : Failer
  addr : Nat
  Registers : List (Nat × List Nat)
  Err : Option String
deriving DecidableEq, Repr

/-- Source `NewI2CClassicDevice(c, addr)`. -/
def NewI2CClassicDevice (c : Failer) (addr : Nat) : I2CClassicDevice :=
  { c := c, addr := addr, Registers := [], Err := none }

/-- The interface `I2CDevice` with its two implementations. -/
inductive I2CDevice where
  | classic (d : I2CClassicDevice)
  | contiguous (d : I2CContiguousRegisterDevice)
deriving DecidableEq, Repr

/-- Source method `Addr()` of both implementations. -/
def I2CDevice.Addr : I2CDevice → Nat
  | I2CDevice.classic d => d.addr
  | I2CDevice.contiguous d => d.addr

/-- Source `I2CBus`. -/
structure I2CBus where
  c : Failer
  devices : List I2CDevice
deriving DecidableEq, Repr

/-- Source `NewI2CBus(c)`. -/
def NewI2CBus (c : Failer) : I2CBus := { c := c, devices := [] }

/-- Source `I2CBus.AddDevice(d)`: `none` when the loop over `bus.devices`
meets a device with the address of `d` and panics, otherwise the bus with `d`
appended. -/
def AddDevice (bus : I2CBus) (d : I2CDevice) : Option I2CBus :=
  if bus.devices.any (fun dev => dev.Addr == d.Addr) then none
  else some { bus with devices := bus.devices ++ [d] }

/-- Source `I2CBus.NewContiguousRegisterDevice(addr)`: the bus after the call
and the device returned, `none` when `AddDevice` panics. -/
def NewContiguousRegisterDevice (bus : I2CBus) (addr : Nat) :
    Option (I2CBus × I2CContiguousRegisterDevice) :=
  let dev := NewI2CContiguousRegisterDevice bus.c addr
  match AddDevice bus (I2CDevice.contiguous dev) with
  | none => none
  | some b => some (b, dev)

/-- Source `I2CBus.FindDevice(addr)`: the first device of `bus.devices` with
the address `addr` is returned; when there is none `Fatalf` is called, and if
that returns the call ends in `panic("unreachable")`. -/
def FindDevice (bus : I2CBus) (addr : Nat) : Nat × Ending I2CDevice :=
  match bus.devices.find? (fun dev => dev.Addr == addr) with
  | some dev => (0, Ending.ret dev)
  | none => if bus.c.returns then (1, Ending.panicked) else (1, Ending.stopped)

/-- The bus states reachable from `NewI2CBus` by calls of `AddDevice` and
`NewContiguousRegisterDevice` that return. -/
inductive Reachable : I2CBus → Prop where
  | new (c : Failer) : Reachable (NewI2CBus c)
  | add (bus bus1 : I2CBus) (d : I2CDevice) :
      Reachable bus → AddDevice bus d = some bus1 → Reachable bus1
  | newDevice (bus bus1 : I2CBus) (addr : Nat) (dev : I2CContiguousRegisterDevice) :
      Reachable bus → NewContiguousRegisterDevice bus addr = some (bus1, dev) → Reachable bus1

/-- A fresh register device at address `0x40` whose failer stops the caller, as
that of `testing.T` does. -/
def freshDevice : I2CContiguousRegisterDevice := NewI2CContiguousRegisterDevice ⟨false⟩ 0x40

/-- A bus that holds one fresh register device at address `0x40`. -/
def oneDeviceBus : I2CBus :=
  { c := ⟨false⟩, devices := [I2CDevice.contiguous freshDevice] }

end tester

/-! ## Lemmas about `ssd1681` -/

namespace ssd1681

theorem fillCols_done (dw ypos x width : Int) (cb : Nat) (xpos : Int) (buf : List Nat)
    (h : ¬ xpos < wrap16 (x + width)) : fillCols dw ypos x width cb xpos buf = some buf := by
  rw [fillCols]; simp [h]

theorem fillRows_done (dw x y width height : Int) (cb : Nat) (ypos : Int) (buf : List Nat)
    (h : ¬ ypos < wrap16 (y + height)) :
    fillRows dw x y width height cb ypos buf = some buf := by
  rw [fillRows]; simp [h]

theorem fillRows_step (dw x y width height : Int) (cb : Nat) (ypos : Int) (buf : List Nat)
    (h : ypos < wrap16 (y + height)) :
    fillRows dw x y width height cb ypos buf =
      (fillCols dw ypos x width cb x buf).bind
        (fun buf1 => fillRows dw x y width height cb (wrap16 (ypos + 1)) buf1) := by
  rw [fillRows]; simp only [h, if_true]
  cases fillCols dw ypos x width cb x buf <;> rfl

end ssd1681

/-! ## Shared lemmas -/

theorem wrap16_id {n : Int} (h : isInt16 n) : wrap16 n = n := by
  unfold wrap16; unfold isInt16 at h; omega

theorem getD_set (l : List Nat) (i j v : Nat) (h : i < l.length) :
    (l.set i v).getD j 0 = if i = j then v else l.getD j 0 := by
  simp [List.getD_eq_getElem?_getD, List.getElem?_set]
  split <;> simp [*]

/-- Two pixels of one row-major bitmap share a byte only if they lie in the
same row and the same group of eight columns. -/
theorem byte_index_inj (S a b p q : Int) (ha : 0 ≤ a) (haS : a < S) (hb : 0 ≤ b)
    (hbS : b < S) (h : p * S + a = q * S + b) : p = q ∧ a = b := by
  have hpq : p = q := by
    rcases lt_trichotomy p q with hlt | heq | hgt
    · have : (p + 1) * S ≤ q * S := Int.mul_le_mul_of_nonneg_right (by omega) (by omega)
      have e : (p + 1) * S = p * S + S := by ring
      omega
    · exact heq
    · have : (q + 1) * S ≤ p * S := Int.mul_le_mul_of_nonneg_right (by omega) (by omega)
      have e : (q + 1) * S = q * S + S := by ring
      omega
  subst hpq
  exact ⟨rfl, by omega⟩

theorem wrap16_isInt16 (n : Int) : isInt16 (wrap16 n) := by
  unfold wrap16 isInt16; omega

namespace ssd1681

theorem ceil_eq {dw : Int} (h0 : 0 ≤ dw) (h1 : dw ≤ 32760) : ceil dw 8 = (dw + 7) / 8 := by
  unfold ceil
  have e : wrap16 (wrap16 (dw + 8) - 1) = dw + 7 := by unfold wrap16; omega
  rw [e, Int.tdiv_eq_ediv (by omega) (by omega)]
  unfold wrap16; omega

theorem ceil_neg {dw : Int} (h0 : 32760 < dw) (h1 : dw ≤ 32767) : ceil dw 8 < 0 := by
  unfold ceil
  have e : wrap16 (wrap16 (dw + 8) - 1) = dw + 7 - 65536 := by unfold wrap16; omega
  rw [e]
  have h2 : (dw + 7 - 65536).tdiv 8 = -((65536 - dw - 7).tdiv 8) := by
    rw [← Int.neg_tdiv]; congr 1; omega
  rw [h2, Int.tdiv_eq_ediv (by omega) (by omega)]
  unfold wrap16; omega

theorem mask_testBit : ∀ s < 8, ∀ k < 8,
    Nat.testBit ((1 <<< s) % 256) k = decide (k = s) := by decide

theorem cmask_testBit : ∀ s < 8, ∀ k < 8,
    Nat.testBit (255 - (1 <<< s) % 256) k = !decide (k = s) := by decide

theorem ones_testBit : ∀ k < 8, Nat.testBit 255 k = true := by decide

theorem byte_update_testBit (b cb s k : Nat) (hs : s < 8) (hk : k < 8)
    (hcb : cb = 0 ∨ cb = 255) :
    Nat.testBit ((b &&& (255 - (1 <<< s) % 256)) ||| (cb &&& ((1 <<< s) % 256))) k
      = if k = s then decide (cb = 255) else Nat.testBit b k := by
  rw [Nat.testBit_or, Nat.testBit_and, Nat.testBit_and, mask_testBit s hs k hk,
    cmask_testBit s hs k hk]
  rcases hcb with rfl | rfl <;> by_cases h : k = s <;>
    simp [h, ones_testBit s hs, ones_testBit k hk]

theorem byte_update_lt (b cb m : Nat) (hb : b < 256) (hcb : cb = 0 ∨ cb = 255) :
    (b &&& (255 - m)) ||| (cb &&& m) < 256 := by
  show _ < 2 ^ 8
  apply Nat.or_lt_two_pow
  · exact lt_of_le_of_lt Nat.and_le_left hb
  · exact lt_of_le_of_lt Nat.and_le_left (by rcases hcb with rfl | rfl <;> decide)

/-- Writing pixel `(xpos, ypos)` the way the loop body of `FillRectangle`
does changes the bit of that pixel and no other pixel bit. -/
theorem set_pixelBit (dw : Int) (buf : List Nat) (cb : Nat) (xpos ypos px py : Int)
    (hx : 0 ≤ xpos) (hx2 : xpos < 8 * ceil dw 8) (hy : 0 ≤ ypos)
    (hpx : 0 ≤ px) (hpx2 : px < 8 * ceil dw 8) (hpy : 0 ≤ py)
    (hlen : ypos * ceil dw 8 + xpos / 8 < buf.length) (hcb : cb = 0 ∨ cb = 255) :
    pixelBit dw (buf.set (ypos * ceil dw 8 + xpos / 8).toNat
        ((buf.getD (ypos * ceil dw 8 + xpos / 8).toNat 0
            &&& (255 - (1 <<< (7 - xpos % 8).toNat) % 256))
          ||| (cb &&& ((1 <<< (7 - xpos % 8).toNat) % 256)))) px py
      = if px = xpos ∧ py = ypos then decide (cb = 255) else pixelBit dw buf px py := by
  have hS : 0 ≤ ypos * ceil dw 8 := Int.mul_nonneg hy (by omega)
  have hS2 : 0 ≤ py * ceil dw 8 := Int.mul_nonneg hpy (by omega)
  unfold pixelBit
  rw [getD_set _ _ _ _ (by omega)]
  by_cases hidx : (ypos * ceil dw 8 + xpos / 8).toNat = (py * ceil dw 8 + px / 8).toNat
  · have hidx2 : py * ceil dw 8 + px / 8 = ypos * ceil dw 8 + xpos / 8 := by omega
    obtain ⟨h1, h2⟩ := byte_index_inj (ceil dw 8) (px / 8) (xpos / 8) py ypos
      (by omega) (by omega) (by omega) (by omega) hidx2
    rw [if_pos hidx, byte_update_testBit _ _ _ _ (by omega) (by omega) hcb]
    subst h1
    by_cases hk : (7 - px % 8).toNat = (7 - xpos % 8).toNat
    · have : px = xpos := by omega
      simp [this]
    · have : px ≠ xpos := by
        intro hc; subst hc; exact hk rfl
      rw [if_neg hk, if_neg (by simp [this]), hidx]
  · rw [if_neg hidx]
    have : ¬ (px = xpos ∧ py = ypos) := by
      rintro ⟨h1, h2⟩; subst h1; subst h2; exact hidx rfl
    rw [if_neg this]

/-- One iteration of the inner loop, when no `int16` operation wraps and the
byte index is inside the buffer. -/
theorem fillCols_step (dw ypos x width : Int) (cb : Nat) (xpos : Int) (buf : List Nat)
    (h : xpos < wrap16 (x + width)) (hx : 0 ≤ xpos)
    (hrow : isInt16 (ypos * ceil dw 8))
    (hpos : 0 ≤ ypos * ceil dw 8 + xpos / 8)
    (hlt : ypos * ceil dw 8 + xpos / 8 < buf.length)
    (hcap : ypos * ceil dw 8 + xpos / 8 ≤ 32767) :
    fillCols dw ypos x width cb xpos buf =
      fillCols dw ypos x width cb (xpos + 1)
        (buf.set (ypos * ceil dw 8 + xpos / 8).toNat
          ((buf.getD (ypos * ceil dw 8 + xpos / 8).toNat 0
              &&& (255 - (1 <<< (7 - xpos % 8).toNat) % 256))
            ||| (cb &&& ((1 <<< (7 - xpos % 8).toNat) % 256)))) := by
  have hb : wrap16 (x + width) ≤ 32767 := (wrap16_isInt16 _).2
  have e1 : Int.tdiv xpos 8 = xpos / 8 := Int.tdiv_eq_ediv hx (by omega)
  have e2 : Int.tmod xpos 8 = xpos % 8 := Int.tmod_eq_emod hx (by omega)
  have e3 : wrap16 (xpos / 8) = xpos / 8 := wrap16_id (by unfold isInt16; omega)
  have e4 : wrap16 (xpos % 8) = xpos % 8 := wrap16_id (by unfold isInt16; omega)
  have e5 : wrap16 (7 - xpos % 8) = 7 - xpos % 8 := wrap16_id (by unfold isInt16; omega)
  have e6 : wrap16 (ypos * ceil dw 8) = ypos * ceil dw 8 := wrap16_id hrow
  have e7 : wrap16 (ypos * ceil dw 8 + xpos / 8) = ypos * ceil dw 8 + xpos / 8 :=
    wrap16_id (by unfold isInt16; omega)
  have e8 : wrap16 (xpos + 1) = xpos + 1 := wrap16_id (by unfold isInt16; omega)
  have h5 : ¬ (7 - xpos % 8 < 0) := by omega
  rw [fillCols]
  simp only [h, if_true, e1, e2, e3, e4, e5, e6, e7, e8, h5, if_false, hpos, hlt, and_self]

/-- The inner loop, run from `xpos` on row `ypos`, returns and sets exactly
the pixels `xpos ≤ px < x + width` of that row. -/
theorem fillCols_spec (dw H ypos x width : Int) (cb : Nat) (hcb : cb = 0 ∨ cb = 255)
    (hdw0 : 0 ≤ dw) (hdw : dw ≤ 32760) (hxw0 : 0 ≤ x + width) (hxw : x + width ≤ dw)
    (hy0 : 0 ≤ ypos) (hyH : ypos < H) (hcap : ceil dw 8 * H ≤ 32767) :
    ∀ (n : Nat) (xpos : Int) (buf : List Nat), (x + width - xpos).toNat = n → 0 ≤ xpos →
      (buf.length : Int) = ceil dw 8 * H →
      ∃ buf1, fillCols dw ypos x width cb xpos buf = some buf1 ∧
        buf1.length = buf.length ∧
        ((∀ b ∈ buf, b < 256) → ∀ b ∈ buf1, b < 256) ∧
        ∀ px py : Int, 0 ≤ px → px < 8 * ceil dw 8 → 0 ≤ py →
          pixelBit dw buf1 px py =
            if py = ypos ∧ xpos ≤ px ∧ px < x + width then decide (cb = 255)
            else pixelBit dw buf px py := by
  have hS : ceil dw 8 = (dw + 7) / 8 := ceil_eq hdw0 hdw
  have hS0 : 0 ≤ ceil dw 8 := by omega
  have hr1 : 0 ≤ ypos * ceil dw 8 := Int.mul_nonneg hy0 hS0
  have hr2 : (ypos + 1) * ceil dw 8 ≤ H * ceil dw 8 :=
    Int.mul_le_mul_of_nonneg_right (by omega) hS0
  have hr3 : (ypos + 1) * ceil dw 8 = ypos * ceil dw 8 + ceil dw 8 := by ring
  have hr4 : H * ceil dw 8 = ceil dw 8 * H := by ring
  intro n
  induction n with
  | zero =>
    intro xpos buf hn hx hlen
    have hdone : ¬ xpos < wrap16 (x + width) := by unfold wrap16; omega
    refine ⟨buf, fillCols_done _ _ _ _ _ _ _ hdone, rfl, fun hb => hb, ?_⟩
    intro px py _ _ _
    rw [if_neg (by omega)]
  | succ n ih =>
    intro xpos buf hn hx hlen
    have hlt : xpos < wrap16 (x + width) := by unfold wrap16; omega
    have hxS : xpos / 8 < ceil dw 8 := by omega
    have hstep := fillCols_step dw ypos x width cb xpos buf hlt hx
      (by unfold isInt16; omega) (by omega) (by omega) (by omega)
    obtain ⟨buf1, h1, h2, h3, h4⟩ := ih (xpos + 1)
      (buf.set (ypos * ceil dw 8 + xpos / 8).toNat
          ((buf.getD (ypos * ceil dw 8 + xpos / 8).toNat 0
              &&& (255 - (1 <<< (7 - xpos % 8).toNat) % 256))
            ||| (cb &&& ((1 <<< (7 - xpos % 8).toNat) % 256))))
      (by omega) (by omega) (by rw [List.length_set]; exact hlen)
    refine ⟨buf1, by rw [hstep]; exact h1, by rw [h2, List.length_set], ?_, ?_⟩
    · intro hb
      apply h3
      intro b hmem
      rcases List.mem_or_eq_of_mem_set hmem with hm | rfl
      · exact hb b hm
      · apply byte_update_lt _ _ _ _ hcb
        rw [List.getD_eq_getElem?_getD]
        cases hget : buf[(ypos * ceil dw 8 + xpos / 8).toNat]? with
        | none => simp
        | some v => simpa using hb v (List.getElem?_mem hget)
    · intro px py hpx hpx2 hpy
      rw [h4 px py hpx hpx2 hpy,
        set_pixelBit dw buf cb xpos ypos px py hx (by omega) hy0 hpx hpx2 hpy (by omega) hcb]
      have hlt2 : xpos < x + width := by omega
      split_ifs <;> first | rfl | omega

/-- The outer loop, run from row `ypos`, returns and sets exactly the pixels
of the rows `ypos ≤ py < y + height` that lie in the columns of the
rectangle. -/
theorem fillRows_spec (dw H x y width height : Int) (cb : Nat) (hcb : cb = 0 ∨ cb = 255)
    (hdw0 : 0 ≤ dw) (hdw : dw ≤ 32760) (hx0 : 0 ≤ x) (hw0 : 0 ≤ width)
    (hxw : x + width ≤ dw) (hyh0 : 0 ≤ y + height) (hyh : y + height ≤ H)
    (hH : H ≤ 32767) (hcap : ceil dw 8 * H ≤ 32767) :
    ∀ (n : Nat) (ypos : Int) (buf : List Nat), (y + height - ypos).toNat = n → 0 ≤ ypos →
      (buf.length : Int) = ceil dw 8 * H →
      ∃ buf1, fillRows dw x y width height cb ypos buf = some buf1 ∧
        buf1.length = buf.length ∧
        ((∀ b ∈ buf, b < 256) → ∀ b ∈ buf1, b < 256) ∧
        ∀ px py : Int, 0 ≤ px → px < 8 * ceil dw 8 → 0 ≤ py →
          pixelBit dw buf1 px py =
            if x ≤ px ∧ px < x + width ∧ ypos ≤ py ∧ py < y + height then decide (cb = 255)
            else pixelBit dw buf px py := by
  intro n
  induction n with
  | zero =>
    intro ypos buf hn hy hlen
    have hdone : ¬ ypos < wrap16 (y + height) := by unfold wrap16; omega
    refine ⟨buf, fillRows_done _ _ _ _ _ _ _ _ hdone, rfl, fun hb => hb, ?_⟩
    intro px py _ _ _
    rw [if_neg (by omega)]
  | succ n ih =>
    intro ypos buf hn hy hlen
    have hlt : ypos < wrap16 (y + height) := by unfold wrap16; omega
    have hnext : wrap16 (ypos + 1) = ypos + 1 := wrap16_id (by unfold isInt16; omega)
    obtain ⟨buf1, c1, c2, c3, c4⟩ := fillCols_spec dw H ypos x width cb hcb hdw0 hdw
      (by omega) hxw hy (by omega) hcap (x + width - x).toNat x buf rfl hx0 hlen
    obtain ⟨buf2, r1, r2, r3, r4⟩ := ih (ypos + 1) buf1 (by omega) (by omega)
      (by rw [c2]; exact hlen)
    refine ⟨buf2, ?_, by rw [r2, c2], fun hb => r3 (c3 hb), ?_⟩
    · rw [fillRows_step _ _ _ _ _ _ _ _ hlt, c1, hnext]
      exact r1
    · intro px py hpx hpx2 hpy
      rw [r4 px py hpx hpx2 hpy, c4 px py hpx hpx2 hpy]
      have hlt2 : ypos < y + height := by omega
      split_ifs <;> first | rfl | omega

/-- The row stride the code uses is the mathematical ceiling of `width / 8`
whenever a non-empty buffer of `ceil(width, 8) * height` bytes exists. -/
theorem ceil_of_buffer (dw H : Int) (n : Nat) (hdw : isInt16 dw)
    (hH : 0 < H) (hlen : (n : Int) = ceil dw 8 * H) : dw ≤ 32760 := by
  by_contra hc
  have h1 : ceil dw 8 < 0 := ceil_neg (by omega) hdw.2
  have h2 : ceil dw 8 * H < 0 := Int.mul_neg_of_neg_of_pos h1 hH
  omega

end ssd1681

/-! ## Claims about `ssd1681` -/

namespace ssd1681

theorem colBit_cases (c : RGBA) : colBit c = 0 ∨ colBit c = 255 := by
  unfold colBit; split <;> simp

theorem colBit_white_iff (c : RGBA) : decide (colBit c = 255) = decide (128 ≤ grayY c) := by
  unfold colBit; split <;> simp <;> omega

/-- C1 (code defect): on a 200x200 panel the call `FillRectangle(100, 0, 32767, 1, white)`
has `x + w = 32867 > 200 = width` as integers, yet it returns `nil` and leaves
the device as it was: the sum `x + width` wraps around in `int16` to `-32669`,
so the bounds check passes and the column loop runs zero times. -/
theorem FillRectangle_overflow_accepted :
    FillRectangle panel200 100 0 32767 1 white = some (panel200, none) ∧
      (100 : Int) + 32767 > panel200.width ∧
      isInt16 100 ∧ isInt16 0 ∧ isInt16 32767 ∧ isInt16 1 := by
  have hw : panel200.width = 200 := rfl
  have hh : panel200.height = 200 := rfl
  have e1 : wrap16 (100 + 32767) = -32669 := by decide
  have e2 : wrap16 (0 + 1) = 1 := by decide
  refine ⟨?_, by rw [hw]; decide, by decide, by decide, by decide, by decide⟩
  unfold FillRectangle
  rw [fillRows_step _ _ _ _ _ _ _ _ (by decide), fillCols_done _ _ _ _ _ _ _ (by decide)]
  simp only [Option.bind]
  rw [fillRows_done _ _ _ _ _ _ _ _ (by decide)]
  rw [hw, hh, e1, e2, if_neg (by decide)]
  rfl

/-- C2: whenever `FillRectangle` returns a non-nil error, the device after the
call (framebuffer, width and height) equals the device before the call. -/
theorem FillRectangle_error_unchanged (d d1 : Device) (x y w h : Int) (c : RGBA) (e : Error)
    (hres : FillRectangle d x y w h c = some (d1, some e)) : d1 = d := by
  unfold FillRectangle at hres
  split at hres
  · simp only [Option.some.injEq, Prod.mk.injEq] at hres
    exact hres.1.symm
  · split at hres <;> simp at hres

/-- Witness for C2: a rectangle starting left of the panel is rejected and the
panel is unchanged. -/
theorem FillRectangle_error_unchanged_witness :
    FillRectangle panel200 (-1) 0 1 1 white = some (panel200, some Error.errDrawingOutOfBounds) ∧
      panel200 = panel200 :=
  have h : FillRectangle panel200 (-1) 0 1 1 white
      = some (panel200, some Error.errDrawingOutOfBounds) := by
    unfold FillRectangle; rw [if_pos (Or.inl (by decide))]
  ⟨h, FillRectangle_error_unchanged panel200 panel200 (-1) 0 1 1 white _ h⟩

/-- C3: on a device whose buffer has `ceil(width, 8) * height ≤ 32767` bytes,
`FillRectangle` on a rectangle inside the panel returns `nil`, keeps the buffer
length and the byte range, and afterwards the bit of every pixel `(px, py)`
(padding columns included) is the colour bit (1 for luminance at least 128,
that is white) inside the rectangle and its previous value outside.  Under
these hypotheses the stride `ceil(width, 8)` is the integer ceiling
`(width + 7) / 8`. -/
theorem FillRectangle_success (d : Device) (x y w h : Int) (c : RGBA)
    (hW : isInt16 d.width) (hH : isInt16 d.height)
    (hlen : (d.buffer.length : Int) = ceil d.width 8 * d.height)
    (hcap : ceil d.width 8 * d.height ≤ 32767)
    (hx : 0 ≤ x) (hy : 0 ≤ y) (hw : 0 < w) (hh : 0 < h)
    (hxw : x + w ≤ d.width) (hyh : y + h ≤ d.height) :
    ∃ buf, FillRectangle d x y w h c = some ({ d with buffer := buf }, none) ∧
      buf.length = d.buffer.length ∧
      ((∀ b ∈ d.buffer, b < 256) → ∀ b ∈ buf, b < 256) ∧
      ceil d.width 8 = (d.width + 7) / 8 ∧
      ∀ px py : Int, 0 ≤ px → px < 8 * ceil d.width 8 → 0 ≤ py → py < d.height →
        pixelBit d.width buf px py =
          if x ≤ px ∧ px < x + w ∧ y ≤ py ∧ py < y + h then decide (128 ≤ grayY c)
          else pixelBit d.width d.buffer px py := by
  have hdw : d.width ≤ 32760 :=
    ceil_of_buffer d.width d.height d.buffer.length hW (by omega) hlen
  have hH2 : d.height ≤ 32767 := hH.2
  obtain ⟨buf, r1, r2, r3, r4⟩ := fillRows_spec d.width d.height x y w h (colBit c)
    (colBit_cases c) (by omega) hdw hx (by omega) hxw (by omega) hyh hH.2 hcap
    (y + h - y).toNat y d.buffer rfl hy hlen
  have e1 : wrap16 (x + w) = x + w := wrap16_id (by unfold isInt16; omega)
  have e2 : wrap16 (y + h) = y + h := wrap16_id (by unfold isInt16; omega)
  refine ⟨buf, ?_, r2, r3, ceil_eq (by omega) hdw, ?_⟩
  · unfold FillRectangle
    rw [if_neg (by rw [e1, e2]; omega), r1]
  · intro px py hpx hpx2 hpy _
    rw [r4 px py hpx hpx2 hpy, colBit_white_iff]

/-- Witness for C3: on the 200x200 panel, filling everything white and then
the rectangle `(5, 5, 10, 1)` black leaves byte 125 equal to `0xF8`, byte 126
equal to `0x01` and every other byte equal to `0xFF`. -/
theorem FillRectangle_success_witness :
    ∃ d1 d2, FillRectangle panel200 0 0 200 200 white = some (d1, none) ∧
      FillRectangle d1 5 5 10 1 black = some (d2, none) ∧
      d2.buffer = ((List.replicate 5000 0xFF).set 125 0xF8).set 126 0x01 := by
  have hw : panel200.width = 200 := rfl
  have hh : panel200.height = 200 := rfl
  have hb : panel200.buffer = List.replicate 5000 0 := rfl
  have hc : ceil 200 8 = 25 := by decide
  have hwhite : decide (128 ≤ grayY white) = true := by decide
  have hblack : decide (128 ≤ grayY black) = false := by decide
  obtain ⟨buf1, e1, l1, b1, _, p1⟩ := FillRectangle_success panel200 0 0 200 200 white
    (by rw [hw]; decide) (by rw [hh]; decide)
    (by rw [hw, hh, hb, hc, List.length_replicate]; rfl) (by rw [hw, hh, hc]; decide)
    (by decide) (by decide) (by decide) (by decide) (by rw [hw]; decide) (by rw [hh]; decide)
  rw [hb, List.length_replicate] at l1
  have e1' : FillRectangle panel200 0 0 200 200 white = some (⟨200, 200, buf1⟩, none) := e1
  have p1' : ∀ px py : Int, 0 ≤ px → px < 200 → 0 ≤ py → py < 200 →
      pixelBit 200 buf1 px py = true := by
    intro px py h1 h2 h3 h4
    have := p1 px py h1 (by rw [hw, hc]; omega) h3 (by rw [hh]; omega)
    rw [hwhite, hw, if_pos (by omega)] at this
    exact this
  obtain ⟨buf2, e2, l2, b2, _, p2⟩ := FillRectangle_success ⟨200, 200, buf1⟩ 5 5 10 1 black
    (by show isInt16 200; decide) (by show isInt16 200; decide)
    (by show ((buf1.length : Nat) : Int) = ceil 200 8 * 200; rw [l1, hc]; rfl)
    (by show ceil 200 8 * 200 ≤ 32767; rw [hc]; decide)
    (by decide) (by decide) (by decide) (by decide)
    (by show (5 : Int) + 10 ≤ 200; decide) (by show (5 : Int) + 1 ≤ 200; decide)
  refine ⟨_, _, e1', e2, ?_⟩
  change buf2 = _
  change buf2.length = buf1.length at l2
  change (∀ b ∈ buf1, b < 256) → ∀ b ∈ buf2, b < 256 at b2
  change ∀ px py : Int, 0 ≤ px → px < 8 * ceil 200 8 → 0 ≤ py → py < 200 →
    pixelBit 200 buf2 px py =
      if 5 ≤ px ∧ px < 5 + 10 ∧ 5 ≤ py ∧ py < 5 + 1 then decide (128 ≤ grayY black)
      else pixelBit 200 buf1 px py at p2
  have hbytes : ∀ b ∈ buf2, b < 256 := by
    apply b2; apply b1; rw [hb]; intro b hb0
    rw [List.eq_of_mem_replicate hb0]; decide
  have key : ∀ i : Nat, i < 5000 → ∀ k : Nat, k < 8 →
      Nat.testBit (buf2.getD i 0) k = decide (¬ (i = 125 ∧ k ≤ 2) ∧ ¬ (i = 126 ∧ 1 ≤ k)) := by
    intro i hi k hk
    have h2 := p2 (8 * ((i : Int) % 25) + (7 - (k : Int))) ((i : Int) / 25)
      (by omega) (by rw [hc]; omega) (by omega) (by omega)
    rw [hblack, p1' _ _ (by omega) (by omega) (by omega) (by omega)] at h2
    unfold pixelBit at h2
    rw [hc] at h2
    have ei : ((i : Int) / 25 * 25 + (8 * ((i : Int) % 25) + (7 - (k : Int))) / 8).toNat = i := by
      omega
    have ek : (7 - (8 * ((i : Int) % 25) + (7 - (k : Int))) % 8).toNat = k := by omega
    rw [ei, ek] at h2
    rw [h2]
    by_cases hin : (5 : Int) ≤ 8 * ((i : Int) % 25) + (7 - (k : Int)) ∧
        8 * ((i : Int) % 25) + (7 - (k : Int)) < 5 + 10 ∧ (5 : Int) ≤ (i : Int) / 25 ∧
        (i : Int) / 25 < 5 + 1
    · rw [if_pos hin]; symm; rw [decide_eq_false_iff_not]; omega
    · rw [if_neg hin]; symm; rw [decide_eq_true_iff]; omega
  apply List.ext_getElem
  · rw [List.length_set, List.length_set, List.length_replicate, l2, l1]
  · intro i h1 h2
    have hi : i < 5000 := by omega
    apply Nat.eq_of_testBit_eq
    intro k
    have hget : buf2[i] = buf2.getD i 0 := by
      rw [List.getD_eq_getElem?_getD, List.getElem?_eq_getElem h1]; rfl
    by_cases hk : k < 8
    · rw [hget, key i hi k hk]
      simp only [List.getElem_set, List.getElem_replicate]
      split_ifs with c1 c2
      · subst c1; interval_cases k <;> decide
      · subst c2; interval_cases k <;> decide
      · rw [ones_testBit k hk, decide_eq_true_iff]; omega
    · have hlt : buf2[i] < 256 := hbytes _ (List.getElem_mem h1)
      have hpow : (256 : Nat) ≤ 2 ^ k := by
        calc (256 : Nat) = 2 ^ 8 := by norm_num
          _ ≤ 2 ^ k := Nat.pow_le_pow_right (by norm_num) (by omega)
      rw [Nat.testBit_lt_two_pow (lt_of_lt_of_le hlt hpow)]
      symm
      apply Nat.testBit_lt_two_pow
      apply lt_of_lt_of_le _ hpow
      simp only [List.getElem_set, List.getElem_replicate]
      split_ifs <;> decide

end ssd1681

/-! ## Lemmas about `epd2in9v2` -/

namespace epd2in9v2

/-- The fill loop returns when the buffer has at least `n` bytes; it sets the
bytes `i ≤ j < n` to `0xFF` and keeps the others. -/
theorem fillFF_spec (n : Nat) : ∀ (k i : Nat) (buf : List Nat), n - i = k → n ≤ buf.length →
    ∃ buf1, fillFF n i buf = some buf1 ∧ buf1.length = buf.length ∧
      ∀ j, buf1.getD j 0 = if i ≤ j ∧ j < n then 0xFF else buf.getD j 0 := by
  intro k
  induction k with
  | zero =>
    intro i buf hk hn
    refine ⟨buf, ?_, rfl, ?_⟩
    · rw [fillFF, if_neg (by omega)]
    · intro j; rw [if_neg (by omega)]
  | succ k ih =>
    intro i buf hk hn
    have hi : i < n := by omega
    obtain ⟨buf1, h1, h2, h3⟩ := ih (i + 1) (buf.set i 0xFF) (by omega)
      (by rw [List.length_set]; exact hn)
    refine ⟨buf1, ?_, by rw [h2, List.length_set], ?_⟩
    · rw [fillFF, if_pos hi, if_pos (by omega)]; exact h1
    · intro j
      rw [h3 j, getD_set _ _ _ _ (by omega)]
      split_ifs <;> first | rfl | omega

theorem byteIndex_eq (lw x y : Int) (hlw0 : 0 ≤ lw) (hlw : lw ≤ 32767) (hx : 0 ≤ x)
    (hx2 : x ≤ 32767) (hy : 0 ≤ y) (hy2 : y ≤ 32767) : byteIndex lw x y = (x + y * lw) / 8 := by
  have h1 : 0 ≤ y * lw := Int.mul_nonneg hy hlw0
  have h2 : y * lw ≤ 32767 * 32767 := Int.mul_le_mul hy2 hlw hlw0 (by norm_num)
  unfold byteIndex
  have e1 : wrap32 (y * lw) = y * lw := by unfold wrap32; omega
  have e2 : wrap32 (x + y * lw) = x + y * lw := by unfold wrap32; omega
  rw [e1, e2, Int.tdiv_eq_ediv (by omega) (by omega)]
  unfold wrap32; omega

theorem byteIndex_range (lw h x y : Int) (h8 : lw % 8 = 0) (hx : 0 ≤ x) (hx2 : x < lw)
    (hy : 0 ≤ y) (hy2 : y < h) : 0 ≤ (x + y * lw) / 8 ∧ (x + y * lw) / 8 < lw * h / 8 := by
  have h1 : 0 ≤ y * lw := Int.mul_nonneg hy (by omega)
  have h2 : (y + 1) * lw ≤ h * lw := Int.mul_le_mul_of_nonneg_right (by omega) (by omega)
  have h3 : (y + 1) * lw = y * lw + lw := by ring
  have h4 : h * lw = lw * h := by ring
  have h5 : lw * h % 8 = 0 := by
    rw [Int.mul_emod, h8]; simp
  omega

theorem bitMask_eq (x : Int) (hx : 0 ≤ x) : bitMask x = 0x80 >>> (x % 8).toNat := by
  unfold bitMask
  rw [Int.tmod_eq_emod hx (by omega)]
  have e : wrap16 (x % 8) % 256 = x % 8 := by unfold wrap16; omega
  rw [e]

theorem shr_testBit : ∀ a < 8, ∀ k < 8,
    Nat.testBit (0x80 >>> a) k = decide (k = 7 - a) := by decide

theorem shr_compl_testBit : ∀ a < 8, ∀ k < 8,
    Nat.testBit (255 - 0x80 >>> a) k = !decide (k = 7 - a) := by decide

theorem shr_inj : ∀ a < 8, ∀ b < 8, 0x80 >>> a = 0x80 >>> b → a = b := by decide

theorem shr_lt : ∀ a < 8, 0x80 >>> a < 256 := by decide

theorem wrap16_sub_one (a b : Int) (h : isInt16 (a - 1 - b)) :
    wrap16 (wrap16 (a - b) - 1) = a - 1 - b := by
  unfold isInt16 at h; unfold wrap16; omega

theorem xy_rot0 (d : Device) (x y : Int) (h : d.rotation = NO_ROTATION) :
    xy d x y = (x, y) := by
  unfold xy; rw [if_pos h]

theorem xy_rot90 (d : Device) (x y : Int) (h : d.rotation = ROTATION_90)
    (h1 : isInt16 (d.width - 1 - y)) : xy d x y = (d.width - 1 - y, x) := by
  unfold xy
  rw [if_neg (by rw [h]; decide), if_pos h, wrap16_sub_one _ _ h1]

theorem xy_rot180 (d : Device) (x y : Int) (h : d.rotation = ROTATION_180)
    (h1 : isInt16 (d.width - 1 - x)) (h2 : isInt16 (d.height - 1 - y)) :
    xy d x y = (d.width - 1 - x, d.height - 1 - y) := by
  unfold xy
  rw [if_neg (by rw [h]; decide), if_neg (by rw [h]; decide), if_pos h,
    wrap16_sub_one _ _ h1, wrap16_sub_one _ _ h2]

theorem xy_rot270 (d : Device) (x y : Int) (h : d.rotation = ROTATION_270)
    (h1 : isInt16 (d.height - 1 - x)) : xy d x y = (y, d.height - 1 - x) := by
  unfold xy
  rw [if_neg (by rw [h]; decide), if_neg (by rw [h]; decide), if_neg (by rw [h]; decide),
    if_pos h, wrap16_sub_one _ _ h1]

theorem xy_other (d : Device) (x y : Int) (h1 : d.rotation ≠ ROTATION_90)
    (h2 : d.rotation ≠ ROTATION_180) (h3 : d.rotation ≠ ROTATION_270) : xy d x y = (x, y) := by
  unfold xy
  by_cases h0 : d.rotation = NO_ROTATION
  · rw [if_pos h0]
  · rw [if_neg h0, if_neg h1, if_neg h2, if_neg h3]

/-- When the transformed coordinates pass the bounds check of `SetPixel`, the
byte index is inside the buffer and `SetPixel` rewrites that one byte. -/
theorem SetPixel_write (d : Device) (x y nx ny : Int) (c : RGBA)
    (hlw : d.logicalWidth ≤ 32767) (hh : d.height ≤ 32767) (h8 : d.logicalWidth % 8 = 0)
    (hlen : (d.buffer.length : Int) = d.logicalWidth * d.height / 8)
    (hxy : xy d x y = (nx, ny))
    (hx : 0 ≤ nx) (hx2 : nx < d.logicalWidth) (hy : 0 ≤ ny) (hy2 : ny < d.height) :
    0 ≤ (nx + ny * d.logicalWidth) / 8 ∧
    (nx + ny * d.logicalWidth) / 8 < d.buffer.length ∧
    SetPixel d x y c = some { d with buffer :=
      (d.buffer.set ((nx + ny * d.logicalWidth) / 8).toNat
        (if c.R = 0 ∧ c.G = 0 ∧ c.B = 0 then
          d.buffer.getD ((nx + ny * d.logicalWidth) / 8).toNat 0 ||| 0x80 >>> (nx % 8).toNat
        else
          d.buffer.getD ((nx + ny * d.logicalWidth) / 8).toNat 0
            &&& (255 - 0x80 >>> (nx % 8).toNat))) } := by
  obtain ⟨r1, r2⟩ := byteIndex_range d.logicalWidth d.height nx ny h8 hx hx2 hy hy2
  have eb := byteIndex_eq d.logicalWidth nx ny (by omega) hlw hx (by omega) hy (by omega)
  refine ⟨r1, by omega, ?_⟩
  unfold SetPixel
  simp only [hxy]
  rw [if_neg (by omega), eb, bitMask_eq nx hx, if_pos ⟨r1, by omega⟩]
  split_ifs <;> rfl

/-- The state `Configure` leaves behind: the configured (or default) sizes,
and a buffer of `bufferLength` bytes, all `0xFF`. -/
theorem Configure_spec (cfg : Config) :
    ∃ buf, Configure cfg = some
        { logicalWidth := if cfg.LogicalWidth ≠ 0 then cfg.LogicalWidth else 128,
          width := if cfg.Width ≠ 0 then cfg.Width else 128,
          height := if cfg.Height ≠ 0 then cfg.Height else 296,
          buffer := buf,
          bufferLength :=
            ((toU32 (if cfg.LogicalWidth ≠ 0 then cfg.LogicalWidth else 128)
              * toU32 (if cfg.Height ≠ 0 then cfg.Height else 296)) % 4294967296) / 8,
          rotation := cfg.Rotation } ∧
      buf.length =
        ((toU32 (if cfg.LogicalWidth ≠ 0 then cfg.LogicalWidth else 128)
          * toU32 (if cfg.Height ≠ 0 then cfg.Height else 296)) % 4294967296) / 8 ∧
      ∀ j, j < buf.length → buf.getD j 0 = 0xFF := by
  obtain ⟨buf, h1, h2, h3⟩ := fillFF_spec
    (((toU32 (if cfg.LogicalWidth ≠ 0 then cfg.LogicalWidth else 128)
      * toU32 (if cfg.Height ≠ 0 then cfg.Height else 296)) % 4294967296) / 8)
    _ 0 (List.replicate _ 0) rfl (by rw [List.length_replicate])
  rw [List.length_replicate] at h2
  refine ⟨buf, ?_, h2, ?_⟩
  · unfold Configure
    simp only [h1]
  · intro j hj
    rw [h3 j, if_pos ⟨by omega, by omega⟩]

/-- For positive `int16` sizes the `uint32` product in `Configure` is the
integer product. -/
theorem bufferLength_eq (lw h : Int) (hlw : 0 < lw) (hlw2 : lw ≤ 32767) (hh : 0 < h)
    (hh2 : h ≤ 32767) :
    ((((toU32 lw * toU32 h) % 4294967296) / 8 : Nat) : Int) = lw * h / 8 := by
  have h1 : 0 ≤ lw * h := Int.mul_nonneg (by omega) (by omega)
  have h2 : lw * h ≤ 32767 * 32767 := Int.mul_le_mul hlw2 hh2 (by omega) (by norm_num)
  have e1 : ((toU32 lw : Nat) : Int) = lw := by unfold toU32; omega
  have e2 : ((toU32 h : Nat) : Int) = h := by unfold toU32; omega
  push_cast
  rw [e1, e2]
  omega

theorem Size_cases (d : Device) :
    (d.rotation = ROTATION_90 ∨ d.rotation = ROTATION_270) ∧ Size d = (d.height, d.logicalWidth) ∨
    ¬ (d.rotation = ROTATION_90 ∨ d.rotation = ROTATION_270) ∧
      Size d = (d.logicalWidth, d.height) := by
  unfold Size
  by_cases h : d.rotation = ROTATION_90 ∨ d.rotation = ROTATION_270
  · left; exact ⟨h, by rw [if_pos h]⟩
  · right; exact ⟨h, by rw [if_neg h]⟩

/-- The transformed coordinates of a canvas point that also lies inside the
native width are inside the framebuffer. -/
theorem xy_in_range (d : Device) (x y : Int)
    (hw : 0 < d.width) (hwl : d.width ≤ d.logicalWidth) (hlw : d.logicalWidth ≤ 32767)
    (hh : 0 < d.height) (hh2 : d.height ≤ 32767)
    (hx : 0 ≤ x) (hx2 : x < (Size d).1) (hy : 0 ≤ y) (hy2 : y < (Size d).2)
    (h90 : d.rotation = ROTATION_90 → y < d.width)
    (h180 : d.rotation = ROTATION_180 → x < d.width) :
    0 ≤ (xy d x y).1 ∧ (xy d x y).1 < d.logicalWidth ∧
      0 ≤ (xy d x y).2 ∧ (xy d x y).2 < d.height := by
  rcases Size_cases d with ⟨hr, hs⟩ | ⟨hr, hs⟩
  · rw [hs] at hx2 hy2
    simp only at hx2 hy2
    rcases hr with hr | hr
    · have e := xy_rot90 d x y hr (by unfold isInt16; omega)
      have := h90 hr
      rw [e]; simp only; omega
    · have e := xy_rot270 d x y hr (by unfold isInt16; omega)
      rw [e]; simp only; omega
  · rw [hs] at hx2 hy2
    simp only at hx2 hy2
    by_cases h2 : d.rotation = ROTATION_180
    · have e := xy_rot180 d x y h2 (by unfold isInt16; have := h180 h2; omega)
        (by unfold isInt16; omega)
      have := h180 h2
      rw [e]; simp only; omega
    · have e : xy d x y = (x, y) :=
        xy_other d x y (fun h => hr (Or.inl h)) h2 (fun h => hr (Or.inr h))
      rw [e]; simp only; omega

end epd2in9v2

/-! ## Claims about `epd2in9v2` -/

namespace epd2in9v2

/-- C4: under `NO_ROTATION`, on a device whose logical width is a multiple of
8 and whose buffer has `logicalWidth * height / 8` bytes, `SetPixel(x, y, c)`
at an in-range `(x, y)` returns and changes only the buffer; in byte
`(x + y*logicalWidth) / 8` the bit selected by the mask `0x80 >> (x mod 8)` becomes
1 when `c.R = c.G = c.B = 0` and 0 for any other colour, and every other bit
of every byte keeps its value. -/
theorem SetPixel_no_rotation (d : Device) (x y : Int) (c : RGBA)
    (hrot : d.rotation = NO_ROTATION)
    (hlw : isInt16 d.logicalWidth) (hh : isInt16 d.height)
    (h8 : d.logicalWidth % 8 = 0)
    (hlen : (d.buffer.length : Int) = d.logicalWidth * d.height / 8)
    (hx : 0 ≤ x) (hx2 : x < d.logicalWidth) (hy : 0 ≤ y) (hy2 : y < d.height) :
    ∃ buf, SetPixel d x y c = some { d with buffer := buf } ∧
      buf.length = d.buffer.length ∧
      ∀ i k : Nat, k < 8 →
        Nat.testBit (buf.getD i 0) k =
          if i = ((x + y * d.logicalWidth) / 8).toNat ∧
              Nat.testBit (0x80 >>> (x % 8).toNat) k = true
          then decide (c.R = 0 ∧ c.G = 0 ∧ c.B = 0)
          else Nat.testBit (d.buffer.getD i 0) k := by
  have hxy : xy d x y = (x, y) := by unfold xy; rw [if_pos hrot]
  obtain ⟨r1, r2, r3⟩ := SetPixel_write d x y x y c hlw.2 hh.2 h8 hlen hxy hx hx2 hy hy2
  refine ⟨_, r3, by rw [List.length_set], ?_⟩
  intro i k hk
  have ha : (x % 8).toNat < 8 := by omega
  rw [getD_set _ _ _ _ (by omega)]
  by_cases hi : ((x + y * d.logicalWidth) / 8).toNat = i
  · rw [if_pos hi]
    by_cases hc : c.R = 0 ∧ c.G = 0 ∧ c.B = 0
    · rw [if_pos hc, Nat.testBit_or, hi]
      cases hm : Nat.testBit (0x80 >>> (x % 8).toNat) k <;> simp [hc, hi]
    · rw [if_neg hc, Nat.testBit_and, shr_compl_testBit _ ha k hk, hi]
      rw [shr_testBit _ ha k hk]
      by_cases hm : k = 7 - (x % 8).toNat <;> simp [hc, hm]
  · rw [if_neg hi, if_neg (fun h => hi h.1.symm)]

/-- Witness for C4: on the cleared 122x250 panel (logical width 128) without
rotation, writing pixel `(9, 1)` in a colour other than `RGBA(0,0,0,_)`
clears bit 6 of byte 17 (mask `0x40`). -/
theorem SetPixel_no_rotation_witness :
    ∃ buf, SetPixel (panel122 0) 9 1 white = some { panel122 0 with buffer := buf } ∧
      buf.length = (panel122 0).buffer.length ∧
      ∀ i k : Nat, k < 8 →
        Nat.testBit (buf.getD i 0) k =
          if i = (((9 : Int) + 1 * (panel122 0).logicalWidth) / 8).toNat ∧
              Nat.testBit (0x80 >>> ((9 : Int) % 8).toNat) k = true
          then decide (white.R = 0 ∧ white.G = 0 ∧ white.B = 0)
          else Nat.testBit ((panel122 0).buffer.getD i 0) k :=
  SetPixel_no_rotation (panel122 0) 9 1 white rfl (by decide) (by decide) (by decide)
    (by show ((List.replicate 4000 0xFF).length : Int) = 128 * 250 / 8
        rw [List.length_replicate]; decide)
    (by decide) (by decide) (by decide) (by decide)

/-- C5: the rotation transform of `Device.xy`, with `width` the native width:
`(x, y)` for `NO_ROTATION`, `(width-1-y, x)` for `ROTATION_90`,
`(width-1-x, height-1-y)` for `ROTATION_180` and `(y, height-1-x)` for
`ROTATION_270`, whenever the stated results are representable in `int16`. -/
theorem xy_table (d : Device) (x y : Int) :
    (d.rotation = NO_ROTATION → xy d x y = (x, y)) ∧
    (d.rotation = ROTATION_90 → isInt16 (d.width - 1 - y) →
      xy d x y = (d.width - 1 - y, x)) ∧
    (d.rotation = ROTATION_180 → isInt16 (d.width - 1 - x) → isInt16 (d.height - 1 - y) →
      xy d x y = (d.width - 1 - x, d.height - 1 - y)) ∧
    (d.rotation = ROTATION_270 → isInt16 (d.height - 1 - x) →
      xy d x y = (y, d.height - 1 - x)) := by
  exact ⟨xy_rot0 d x y, xy_rot90 d x y, xy_rot180 d x y, xy_rot270 d x y⟩

/-- Witness for C5: with width 122 and height 250, a corner and an interior
point under each rotation; in particular rotation 90 maps `(0,0)` to
`(121,0)` and rotation 270 maps `(0,0)` to `(0,249)`. -/
theorem xy_table_witness :
    xy (panel122 0) 0 0 = (0, 0) ∧ xy (panel122 0) 30 40 = (30, 40) ∧
    xy (panel122 1) 0 0 = (121, 0) ∧ xy (panel122 1) 30 40 = (81, 30) ∧
    xy (panel122 2) 0 0 = (121, 249) ∧ xy (panel122 2) 30 40 = (91, 209) ∧
    xy (panel122 3) 0 0 = (0, 249) ∧ xy (panel122 3) 30 40 = (40, 219) :=
  ⟨(xy_table (panel122 0) 0 0).1 rfl,
   (xy_table (panel122 0) 30 40).1 rfl,
   (xy_table (panel122 1) 0 0).2.1 rfl (by decide),
   (xy_table (panel122 1) 30 40).2.1 rfl (by decide),
   (xy_table (panel122 2) 0 0).2.2.1 rfl (by decide) (by decide),
   (xy_table (panel122 2) 30 40).2.2.1 rfl (by decide) (by decide),
   (xy_table (panel122 3) 0 0).2.2.2 rfl (by decide),
   (xy_table (panel122 3) 30 40).2.2.2 rfl (by decide)⟩

/-- C6 (counterexample): on the 122x250 panel with logical width 128 under
`ROTATION_90`, the point `(0, 127)` is inside the canvas `Size()` reports
(250 x 128), yet `xy` maps it to `(-6, 0)`, outside the framebuffer, and
`SetPixel` is a silent no-op. -/
theorem SetPixel_rot90_outside :
    (0 : Int) < (panel122 1).width ∧ (panel122 1).width ≤ (panel122 1).logicalWidth ∧
      (panel122 1).logicalWidth % 8 = 0 ∧ 0 < (panel122 1).height ∧
      Size (panel122 1) = (250, 128) ∧
      (0 : Int) ≤ 0 ∧ (0 : Int) < (Size (panel122 1)).1 ∧
      (0 : Int) ≤ 127 ∧ (127 : Int) < (Size (panel122 1)).2 ∧
      xy (panel122 1) 0 127 = (-6, 0) ∧
      ¬ (0 ≤ (xy (panel122 1) 0 127).1) ∧
      SetPixel (panel122 1) 0 127 black = some (panel122 1) := by
  refine ⟨by decide, by decide, by decide, by decide, by decide, by decide, by decide,
    by decide, by decide, by decide, by decide, ?_⟩
  unfold SetPixel
  rw [if_pos (Or.inl (by decide))]

/-- C6 (amended): for every rotation value and every point of the canvas
reported by `Size()` that, under `ROTATION_90`, has `y < width` and, under
`ROTATION_180`, has `x < width`, the transformed coordinates lie in
`[0, logicalWidth) x [0, height)`, the byte index lies inside the buffer and
`SetPixel` rewrites that byte instead of returning early. -/
theorem SetPixel_lands_in_buffer (d : Device) (x y : Int) (c : RGBA)
    (hw : 0 < d.width) (hwl : d.width ≤ d.logicalWidth) (hlw : d.logicalWidth ≤ 32767)
    (h8 : d.logicalWidth % 8 = 0) (hh : 0 < d.height) (hh2 : d.height ≤ 32767)
    (hlen : (d.buffer.length : Int) = d.logicalWidth * d.height / 8)
    (hx : 0 ≤ x) (hx2 : x < (Size d).1) (hy : 0 ≤ y) (hy2 : y < (Size d).2)
    (h90 : d.rotation = ROTATION_90 → y < d.width)
    (h180 : d.rotation = ROTATION_180 → x < d.width) :
    0 ≤ (xy d x y).1 ∧ (xy d x y).1 < d.logicalWidth ∧
    0 ≤ (xy d x y).2 ∧ (xy d x y).2 < d.height ∧
    0 ≤ ((xy d x y).1 + (xy d x y).2 * d.logicalWidth) / 8 ∧
    ((xy d x y).1 + (xy d x y).2 * d.logicalWidth) / 8 < d.buffer.length ∧
    SetPixel d x y c = some { d with buffer :=
      (d.buffer.set (((xy d x y).1 + (xy d x y).2 * d.logicalWidth) / 8).toNat
        (if c.R = 0 ∧ c.G = 0 ∧ c.B = 0 then
          d.buffer.getD (((xy d x y).1 + (xy d x y).2 * d.logicalWidth) / 8).toNat 0
            ||| 0x80 >>> ((xy d x y).1 % 8).toNat
        else
          d.buffer.getD (((xy d x y).1 + (xy d x y).2 * d.logicalWidth) / 8).toNat 0
            &&& (255 - 0x80 >>> ((xy d x y).1 % 8).toNat))) } := by
  obtain ⟨r1, r2, r3, r4⟩ := xy_in_range d x y hw hwl hlw hh hh2 hx hx2 hy hy2 h90 h180
  obtain ⟨w1, w2, w3⟩ := SetPixel_write d x y (xy d x y).1 (xy d x y).2 c hlw hh2 h8 hlen rfl
    r1 r2 r3 r4
  exact ⟨r1, r2, r3, r4, w1, w2, w3⟩

/-- Witness for C6: the visible corner `(0, 121)` of the 122x250 panel under
`ROTATION_90` lands in the buffer. -/
theorem SetPixel_lands_in_buffer_witness :
    0 ≤ (xy (panel122 1) 0 121).1 ∧ (xy (panel122 1) 0 121).1 < (panel122 1).logicalWidth ∧
    0 ≤ (xy (panel122 1) 0 121).2 ∧ (xy (panel122 1) 0 121).2 < (panel122 1).height :=
  have h := SetPixel_lands_in_buffer (panel122 1) 0 121 black (by decide) (by decide)
    (by decide) (by decide) (by decide) (by decide)
    (by show ((List.replicate 4000 0xFF).length : Int) = 128 * 250 / 8
        rw [List.length_replicate]; decide)
    (by decide) (by decide) (by decide) (by decide) (fun _ => by decide)
    (fun h => absurd h (by decide))
  ⟨h.1, h.2.1, h.2.2.1, h.2.2.2.1⟩

/-- C7 (counterexample): on the 122x250 panel with logical width 128 and no
rotation, `Size()` returns `(128, 250)`, not the native `(122, 250)`. -/
theorem Size_not_native :
    (panel122 0).width ≤ (panel122 0).logicalWidth ∧
      (panel122 0).rotation = NO_ROTATION ∧
      Size (panel122 0) = (128, 250) ∧
      Size (panel122 0) ≠ ((panel122 0).width, (panel122 0).height) := by
  refine ⟨by decide, by decide, by decide, by decide⟩

/-- C7 (amended): `Size()` returns `(height, logicalWidth)` when the rotation
is 90 or 270 degrees and `(logicalWidth, height)` otherwise, also after
`ClearBuffer` (which returns when `bufferLength` is the buffer length); it is
the native `(height, width)` resp. `(width, height)` when
`logicalWidth = width`. -/
theorem Size_logical (d : Device) (hbl : d.bufferLength = d.buffer.length) :
    (Size d = if d.rotation = ROTATION_90 ∨ d.rotation = ROTATION_270
      then (d.height, d.logicalWidth) else (d.logicalWidth, d.height)) ∧
    (∃ d1, ClearBuffer d = some d1 ∧ Size d1 = Size d) ∧
    (d.logicalWidth = d.width →
      Size d = if d.rotation = ROTATION_90 ∨ d.rotation = ROTATION_270
        then (d.height, d.width) else (d.width, d.height)) := by
  refine ⟨rfl, ?_, ?_⟩
  · obtain ⟨buf, h1, _, _⟩ := fillFF_spec d.bufferLength d.bufferLength 0 d.buffer
      (by omega) (by omega)
    refine ⟨{ d with buffer := buf }, ?_, rfl⟩
    unfold ClearBuffer
    rw [h1]
  · intro h
    unfold Size
    rw [h]

/-- Witness for C7: the 122x250 panel with logical width 128 under
`ROTATION_270` reports `(250, 128)`, before and after `ClearBuffer`; the
default 128x296 panel, whose logical width is its width, reports `(296, 128)`. -/
theorem Size_logical_witness :
    Size (panel122 3) = (250, 128) ∧
      (∃ d1, ClearBuffer (panel122 3) = some d1 ∧ Size d1 = Size (panel122 3)) ∧
      Size (panel128 3) = (296, 128) :=
  have h := Size_logical (panel122 3)
    (by show 4000 = (List.replicate 4000 0xFF).length; rw [List.length_replicate])
  have h2 := Size_logical (panel128 3)
    (by show 4736 = (List.replicate 4736 0xFF).length; rw [List.length_replicate])
  ⟨h.1, h.2.1, h2.2.2 rfl⟩

/-- C8: for a logical width that is a positive multiple of 8, the map
`(nx, ny) ↦ (byteIndex, bitMask)` of `SetPixel` is
`((nx + ny*logicalWidth)/8, 0x80 >> (nx mod 8))` on
`[0, logicalWidth) x [0, height)`, it is injective there, and the byte index is
non-negative and below `logicalWidth*height/8`. -/
theorem bit_addressing_injective (lw h x y x1 y1 : Int)
    (hlw : 0 < lw) (hlw2 : lw ≤ 32767) (h8 : lw % 8 = 0) (hh : 0 < h) (hh2 : h ≤ 32767)
    (hx : 0 ≤ x) (hx2 : x < lw) (hy : 0 ≤ y) (hy2 : y < h)
    (hx1 : 0 ≤ x1) (hx12 : x1 < lw) (hy1 : 0 ≤ y1) (hy12 : y1 < h) :
    byteIndex lw x y = (x + y * lw) / 8 ∧
    bitMask x = 0x80 >>> (x % 8).toNat ∧
    0 ≤ byteIndex lw x y ∧ byteIndex lw x y < lw * h / 8 ∧
    (byteIndex lw x y = byteIndex lw x1 y1 → bitMask x = bitMask x1 → x = x1 ∧ y = y1) := by
  have e1 := byteIndex_eq lw x y (by omega) hlw2 hx (by omega) hy (by omega)
  have e2 := byteIndex_eq lw x1 y1 (by omega) hlw2 hx1 (by omega) hy1 (by omega)
  obtain ⟨r1, r2⟩ := byteIndex_range lw h x y h8 hx hx2 hy hy2
  refine ⟨e1, bitMask_eq x hx, by omega, by omega, ?_⟩
  intro hb hm
  rw [e1, e2] at hb
  rw [bitMask_eq x hx, bitMask_eq x1 hx1] at hm
  have hmod : (x % 8).toNat = (x1 % 8).toNat :=
    shr_inj _ (by omega) _ (by omega) hm
  have k1 : y * lw = 8 * (y * (lw / 8)) := by
    have : lw = 8 * (lw / 8) := by omega
    calc y * lw = y * (8 * (lw / 8)) := by rw [← this]
      _ = 8 * (y * (lw / 8)) := by ring
  have k2 : y1 * lw = 8 * (y1 * (lw / 8)) := by
    have : lw = 8 * (lw / 8) := by omega
    calc y1 * lw = y1 * (8 * (lw / 8)) := by rw [← this]
      _ = 8 * (y1 * (lw / 8)) := by ring
  have hsum : y * (lw / 8) + x / 8 = y1 * (lw / 8) + x1 / 8 := by omega
  obtain ⟨q1, q2⟩ := byte_index_inj (lw / 8) (x / 8) (x1 / 8) y y1
    (by omega) (by omega) (by omega) (by omega) hsum
  exact ⟨by omega, q1⟩

/-- Witness for C8: on the 128x250 geometry the pixels `(9, 1)` and `(10, 1)`
share byte 17 and differ in the mask. -/
theorem bit_addressing_injective_witness :
    byteIndex 128 9 1 = 17 ∧ bitMask 9 = 0x40 ∧ byteIndex 128 10 1 = 17 ∧ bitMask 10 = 0x20 ∧
      byteIndex 128 9 1 < 128 * 250 / 8 :=
  have h := bit_addressing_injective 128 250 9 1 10 1 (by decide) (by decide) (by decide)
    (by decide) (by decide) (by decide) (by decide) (by decide) (by decide) (by decide)
    (by decide) (by decide) (by decide)
  ⟨by decide, by decide, by decide, by decide, h.2.2.2.1⟩

/-- C9 (counterexample): `Configure` with
`Config{Width: 12, Height: 1, LogicalWidth: 12}` allocates
`12 * 1 / 8 = 1` byte; `SetPixel(8, 0, black)` passes the bounds check
(`8 < 12`), computes byte index 1 and indexes outside the buffer. -/
theorem SetPixel_panics_unpadded :
    0 < cfg12.Width ∧ 0 < cfg12.Height ∧ 0 < cfg12.LogicalWidth ∧
      Configure cfg12 = some dev12 ∧ dev12.buffer.length = 1 ∧
      byteIndex dev12.logicalWidth 8 0 = 1 ∧
      SetPixel dev12 8 0 black = none := by
  refine ⟨by decide, by decide, by decide, ?_, by decide, by decide, by decide⟩
  unfold Configure
  have hn : ((toU32 (if cfg12.LogicalWidth ≠ 0 then cfg12.LogicalWidth else 128)
      * toU32 (if cfg12.Height ≠ 0 then cfg12.Height else 296)) % 4294967296) / 8 = 1 := by
    decide
  simp only [hn]
  have hf : fillFF 1 0 (List.replicate 1 0) = some [0xFF] := by
    rw [fillFF, if_pos (by decide), if_pos (by decide), fillFF, if_neg (by decide)]
    rfl
  rw [hf]
  rfl

/-- C9 (amended): for every `Config` with positive `int16` `Width`, `Height`
and `LogicalWidth` whose `LogicalWidth` is a multiple of 8, `Configure`
returns a device with a buffer of `LogicalWidth*Height/8` bytes, and on that
device `SetPixel` returns (no index out of range) for every rotation value,
all coordinates and every colour. -/
theorem SetPixel_never_panics (cfg : Config) (x y : Int) (c : RGBA)
    (hW : 0 < cfg.Width) (hH : 0 < cfg.Height) (hH2 : cfg.Height ≤ 32767)
    (hL : 0 < cfg.LogicalWidth) (hL2 : cfg.LogicalWidth ≤ 32767)
    (h8 : cfg.LogicalWidth % 8 = 0) :
    ∃ d, Configure cfg = some d ∧
      (d.buffer.length : Int) = cfg.LogicalWidth * cfg.Height / 8 ∧
      ∃ d1, SetPixel d x y c = some d1 := by
  obtain ⟨buf, h1, h2, _⟩ := Configure_spec cfg
  rw [if_pos (by omega), if_pos (by omega), if_pos (by omega)] at h1
  rw [if_pos (by omega), if_pos (by omega)] at h2
  have hlen : (buf.length : Int) = cfg.LogicalWidth * cfg.Height / 8 := by
    rw [h2]; exact bufferLength_eq _ _ hL hL2 hH hH2
  have key : ∀ d : Device, d.logicalWidth = cfg.LogicalWidth → d.height = cfg.Height →
      d.buffer = buf → ∃ d1, SetPixel d x y c = some d1 := by
    intro d e1 e2 e3
    by_cases hb : (xy d x y).1 < 0 ∨ (xy d x y).1 ≥ d.logicalWidth ∨
        (xy d x y).2 < 0 ∨ (xy d x y).2 ≥ d.height
    · exact ⟨d, by unfold SetPixel; exact if_pos hb⟩
    · obtain ⟨_, _, w⟩ := SetPixel_write d x y (xy d x y).1 (xy d x y).2 c
        (by rw [e1]; exact hL2) (by rw [e2]; exact hH2) (by rw [e1]; exact h8)
        (by rw [e1, e2, e3]; exact hlen) rfl
        (by omega) (by omega) (by omega) (by omega)
      exact ⟨_, w⟩
  exact ⟨_, h1, hlen, key _ rfl rfl rfl⟩

/-- Witness for C9: the 122x250 panel padded to logical width 128. -/
theorem SetPixel_never_panics_witness :
    ∃ d, Configure ⟨122, 250, 128, 1⟩ = some d ∧
      (d.buffer.length : Int) = (128 : Int) * 250 / 8 ∧
      ∃ d1, SetPixel d 0 127 black = some d1 :=
  SetPixel_never_panics ⟨122, 250, 128, 1⟩ 0 127 black (by decide) (by decide) (by decide)
    (by decide) (by decide) (by decide)

/-- C10: when the transformed coordinates `xy(x, y)` fall outside
`[0, logicalWidth) x [0, height)`, `SetPixel` returns with the device (buffer
and every other field) unchanged. -/
theorem SetPixel_out_of_canvas (d : Device) (x y : Int) (c : RGBA)
    (hout : (xy d x y).1 < 0 ∨ (xy d x y).1 ≥ d.logicalWidth ∨
      (xy d x y).2 < 0 ∨ (xy d x y).2 ≥ d.height) :
    SetPixel d x y c = some d := by
  unfold SetPixel
  exact if_pos hout

/-- Witness for C10: under `ROTATION_90` on the 122x250 panel the `int16`
subtraction `122 - (-32768)` wraps around, the transformed column is
`-32647`, and the write is dropped. -/
theorem SetPixel_out_of_canvas_witness :
    xy (panel122 1) 0 (-32768) = (-32647, 0) ∧
      SetPixel (panel122 1) 0 (-32768) black = some (panel122 1) :=
  ⟨by decide, SetPixel_out_of_canvas (panel122 1) 0 (-32768) black (Or.inl (by decide))⟩

end epd2in9v2

/-! ## More lemmas and claims about `ssd1681` -/

namespace ssd1681

/-- A one-column run of the inner loop writes one byte, or panics when the
`int16` byte index is outside the buffer. -/
theorem fillCols_one (dw ypos : Int) (cb : Nat) (x : Int) (buf : List Nat)
    (hx : 0 ≤ x) (hx2 : x ≤ 32766) :
    fillCols dw ypos x 1 cb x buf =
      if 0 ≤ wrap16 (wrap16 (ypos * ceil dw 8) + x / 8) ∧
          wrap16 (wrap16 (ypos * ceil dw 8) + x / 8) < buf.length then
        some (buf.set (wrap16 (wrap16 (ypos * ceil dw 8) + x / 8)).toNat
          ((buf.getD (wrap16 (wrap16 (ypos * ceil dw 8) + x / 8)).toNat 0
              &&& (255 - (1 <<< (7 - x % 8).toNat) % 256))
            ||| (cb &&& ((1 <<< (7 - x % 8).toNat) % 256))))
      else none := by
  have e0 : wrap16 (x + 1) = x + 1 := wrap16_id (by unfold isInt16; omega)
  have e1 : Int.tdiv x 8 = x / 8 := Int.tdiv_eq_ediv hx (by omega)
  have e2 : Int.tmod x 8 = x % 8 := Int.tmod_eq_emod hx (by omega)
  have e3 : wrap16 (x / 8) = x / 8 := wrap16_id (by unfold isInt16; omega)
  have e4 : wrap16 (x % 8) = x % 8 := wrap16_id (by unfold isInt16; omega)
  have e5 : wrap16 (7 - x % 8) = 7 - x % 8 := wrap16_id (by unfold isInt16; omega)
  have h5 : ¬ (7 - x % 8 < 0) := by omega
  rw [fillCols]
  simp only [e0, e1, e2, e3, e4, e5, h5, if_false, show x < x + 1 by omega, if_true]
  split
  · rw [fillCols_done _ _ _ _ _ _ _ (by rw [e0]; omega)]
  · rfl

/-- `FillRectangle(x, y, 1, 1, c)` at an in-bounds pixel writes one byte, or
panics when the `int16` byte index is outside the buffer. -/
theorem FillRectangle_one (d : Device) (x y : Int) (c : RGBA)
    (hW : isInt16 d.width) (hH : isInt16 d.height)
    (hin : ¬ (x < 0 ∨ y < 0 ∨ x ≥ d.width ∨ y ≥ d.height)) :
    FillRectangle d x y 1 1 c =
      if 0 ≤ wrap16 (wrap16 (y * ceil d.width 8) + x / 8) ∧
          wrap16 (wrap16 (y * ceil d.width 8) + x / 8) < d.buffer.length then
        some ({ d with buffer :=
          (d.buffer.set (wrap16 (wrap16 (y * ceil d.width 8) + x / 8)).toNat
            ((d.buffer.getD (wrap16 (wrap16 (y * ceil d.width 8) + x / 8)).toNat 0
                &&& (255 - (1 <<< (7 - x % 8).toNat) % 256))
              ||| (colBit c &&& ((1 <<< (7 - x % 8).toNat) % 256)))) }, none)
      else none := by
  have hW2 := hW.2
  have hH2 := hH.2
  have e1 : wrap16 (x + 1) = x + 1 := wrap16_id (by unfold isInt16; omega)
  have e2 : wrap16 (y + 1) = y + 1 := wrap16_id (by unfold isInt16; omega)
  unfold FillRectangle
  rw [if_neg (by rw [e1, e2]; omega), fillRows_step _ _ _ _ _ _ _ _ (by rw [e2]; omega),
    fillCols_one _ _ _ _ _ (by omega) (by omega)]
  by_cases hr : 0 ≤ wrap16 (wrap16 (y * ceil d.width 8) + x / 8) ∧
      wrap16 (wrap16 (y * ceil d.width 8) + x / 8) < d.buffer.length
  · rw [if_pos hr, if_pos hr]
    simp only [Option.bind]
    rw [fillRows_done _ _ _ _ _ _ _ _ (by rw [e2]; omega)]
  · rw [if_neg hr, if_neg hr]
    rfl

/-- What `SetPixel` does: it returns the device unchanged when `(x, y)` is outside
`[0, width) x [0, height)`.  Otherwise it does what `FillRectangle(x, y, 1, 1, c)`
does, and whenever it returns, the sizes and the buffer length are kept and
every bit other than bit `7 - x mod 8` of the byte at the `int16` index
`y*ceil(width, 8) + x/8` keeps its value.  On a device whose buffer has
`ceil(width, 8) * height ≤ 32767` bytes it does return, and that index is the
integer `y * ((width + 7) / 8) + x / 8`. -/
theorem SetPixel_spec (d : Device) (x y : Int) (c : RGBA)
    (hW : isInt16 d.width) (hH : isInt16 d.height) :
    (x < 0 ∨ y < 0 ∨ x ≥ d.width ∨ y ≥ d.height → SetPixel d x y c = some d) ∧
    (¬ (x < 0 ∨ y < 0 ∨ x ≥ d.width ∨ y ≥ d.height) →
      SetPixel d x y c = (FillRectangle d x y 1 1 c).map Prod.fst ∧
      (∀ d1, SetPixel d x y c = some d1 →
        d1.width = d.width ∧ d1.height = d.height ∧
        d1.buffer.length = d.buffer.length ∧
        ∀ i k : Nat, k < 8 →
          ¬ (i = (wrap16 (wrap16 (y * ceil d.width 8) + x / 8)).toNat ∧
              k = (7 - x % 8).toNat) →
          Nat.testBit (d1.buffer.getD i 0) k = Nat.testBit (d.buffer.getD i 0) k) ∧
      ((d.buffer.length : Int) = ceil d.width 8 * d.height →
        ceil d.width 8 * d.height ≤ 32767 →
        (∃ d1, SetPixel d x y c = some d1) ∧
        wrap16 (wrap16 (y * ceil d.width 8) + x / 8) = y * ((d.width + 7) / 8) + x / 8)) := by
  refine ⟨fun hout => by unfold SetPixel; rw [if_pos hout], fun hin => ?_⟩
  have hfill := FillRectangle_one d x y c hW hH hin
  have hset : SetPixel d x y c = (FillRectangle d x y 1 1 c).map Prod.fst := by
    unfold SetPixel
    rw [if_neg hin]
    cases FillRectangle d x y 1 1 c with
    | none => rfl
    | some p => rfl
  refine ⟨hset, ?_, ?_⟩
  · intro d1 h1
    rw [hset, hfill] at h1
    split at h1
    · rename_i hr
      simp only [Option.map_some', Option.some.injEq] at h1
      subst h1
      refine ⟨rfl, rfl, by simp only [List.length_set], ?_⟩
      intro i k hk hne
      simp only
      rw [getD_set _ _ _ _ (by omega)]
      by_cases hi : (wrap16 (wrap16 (y * ceil d.width 8) + x / 8)).toNat = i
      · rw [if_pos hi, byte_update_testBit _ _ _ _ (by omega) hk (colBit_cases c),
          if_neg (fun hks => hne ⟨hi.symm, hks⟩), hi]
      · rw [if_neg hi]
    · simp at h1
  · intro hlen hcap
    have hx0 : 0 ≤ x := by omega
    have hy0 : 0 ≤ y := by omega
    have hdw : d.width ≤ 32760 :=
      ceil_of_buffer d.width d.height d.buffer.length hW (by omega) hlen
    have hS : ceil d.width 8 = (d.width + 7) / 8 := ceil_eq (by omega) hdw
    have hr1 : 0 ≤ y * ceil d.width 8 := Int.mul_nonneg hy0 (by omega)
    have hr2 : (y + 1) * ceil d.width 8 ≤ d.height * ceil d.width 8 :=
      Int.mul_le_mul_of_nonneg_right (by omega) (by omega)
    have hr3 : (y + 1) * ceil d.width 8 = y * ceil d.width 8 + ceil d.width 8 := by ring
    have hr4 : d.height * ceil d.width 8 = ceil d.width 8 * d.height := by ring
    have e1 : wrap16 (y * ceil d.width 8) = y * ceil d.width 8 :=
      wrap16_id (by unfold isInt16; omega)
    have e2 : wrap16 (y * ceil d.width 8 + x / 8) = y * ceil d.width 8 + x / 8 :=
      wrap16_id (by unfold isInt16; omega)
    refine ⟨?_, by rw [e1, e2, hS]⟩
    rw [hset, hfill, e1, e2, if_pos ⟨by omega, by omega⟩]
    exact ⟨_, rfl⟩

/-- An instance of `SetPixel_spec`: on the 200x200 panel a pixel left of the panel is
dropped and the pixel `(5, 5)` is written. -/
theorem SetPixel_spec_witness :
    SetPixel panel200 (-1) 0 white = some panel200 ∧
      (∃ d1, SetPixel panel200 5 5 white = some d1) ∧
      wrap16 (wrap16 (5 * ceil panel200.width 8) + 5 / 8) = 5 * ((panel200.width + 7) / 8) + 5 / 8 :=
  have h := SetPixel_spec panel200 5 5 white (by decide) (by decide)
  have h0 := SetPixel_spec panel200 (-1) 0 white (by decide) (by decide)
  have h2 := (h.2 (by decide)).2.2
    (by show ((List.replicate 5000 0).length : Int) = ceil 200 8 * 200
        rw [List.length_replicate]; decide)
    (by decide)
  ⟨h0.1 (Or.inl (by decide)), h2.1, h2.2⟩

end ssd1681

namespace ssd1681

/-- C13 (code defect): `Configure` computes the buffer length in `int16`.
For `Config{Width: 2000, Height: 300}` the integer product
`ceil(2000/8) * 300 = 75000` wraps around to `9464`, and that many bytes are
allocated; for `Config{Width: 800, Height: 480}` the product `48000` wraps around
to a negative length and `make` panics.  The default configuration does
allocate `25 * 200 = 5000` bytes. -/
theorem Configure_length_wraps :
    Configure ⟨2000, 300⟩
        = some { width := 2000, height := 300, buffer := List.replicate 9464 0 } ∧
      ((2000 : Int) + 7) / 8 * 300 = 75000 ∧
      Configure ⟨800, 480⟩ = none ∧
      ((800 : Int) + 7) / 8 * 480 = 48000 ∧
      Configure ⟨0, 0⟩ = some { width := 200, height := 200, buffer := List.replicate 5000 0 } := by
  have h1 : wrap16 (wrap16 (Int.tdiv (wrap16 (2000 + 7)) 8) * 300) = 9464 := by decide
  have h2 : wrap16 (wrap16 (Int.tdiv (wrap16 (800 + 7)) 8) * 480) = -17536 := by decide
  have h3 : wrap16 (wrap16 (Int.tdiv (wrap16 (200 + 7)) 8) * 200) = 5000 := by decide
  refine ⟨?_, by decide, ?_, by decide, ?_⟩
  · unfold Configure
    simp only [show ¬ ((2000 : Int) = 0) by decide, show ¬ ((300 : Int) = 0) by decide,
      if_false, h1]
    rfl
  · unfold Configure
    simp only [show ¬ ((800 : Int) = 0) by decide, show ¬ ((480 : Int) = 0) by decide,
      if_false, h2]
    rfl
  · unfold Configure
    simp only [if_true, h3]
    rfl

end ssd1681

/-- A list all of whose entries equal `v` is `List.replicate`. -/
theorem eq_replicate_of_getD (l : List Nat) (v : Nat)
    (h : ∀ j, j < l.length → l.getD j 0 = v) : l = List.replicate l.length v := by
  apply List.ext_getElem
  · rw [List.length_replicate]
  · intro i h1 h2
    rw [List.getElem_replicate]
    have := h i h1
    rw [List.getD_eq_getElem?_getD, List.getElem?_eq_getElem h1] at this
    exact this

/-! ## More lemmas and claims about `epd2in9v2` -/

namespace epd2in9v2

/-- C12: for a `Config` with `LogicalWidth` a non-negative multiple of 8 and a
non-negative `Height` (any `Width`), `Configure` returns a device with the
configured or default sizes and rotation `cfg.Rotation`, whose buffer has
`bufferLength = ceil(logicalWidth/8) * height` bytes, each `0xFF`. -/
theorem Configure_cleared (cfg : Config)
    (hL0 : 0 ≤ cfg.LogicalWidth) (hL2 : cfg.LogicalWidth ≤ 32767)
    (h8 : cfg.LogicalWidth % 8 = 0) (hH0 : 0 ≤ cfg.Height) (hH2 : cfg.Height ≤ 32767) :
    ∃ d, Configure cfg = some d ∧
      d.logicalWidth = (if cfg.LogicalWidth ≠ 0 then cfg.LogicalWidth else 128) ∧
      d.width = (if cfg.Width ≠ 0 then cfg.Width else 128) ∧
      d.height = (if cfg.Height ≠ 0 then cfg.Height else 296) ∧
      d.rotation = cfg.Rotation ∧
      d.buffer.length = d.bufferLength ∧
      (d.bufferLength : Int) = (d.logicalWidth + 7) / 8 * d.height ∧
      d.buffer = List.replicate d.bufferLength 0xFF := by
  obtain ⟨buf, h1, h2, h3⟩ := Configure_spec cfg
  refine ⟨_, h1, rfl, rfl, rfl, rfl, h2, ?_, ?_⟩
  · simp only
    have hlw : 0 < (if cfg.LogicalWidth ≠ 0 then cfg.LogicalWidth else 128) ∧
        (if cfg.LogicalWidth ≠ 0 then cfg.LogicalWidth else 128) ≤ 32767 ∧
        (if cfg.LogicalWidth ≠ 0 then cfg.LogicalWidth else 128) % 8 = 0 := by
      split <;> omega
    have hh : 0 < (if cfg.Height ≠ 0 then cfg.Height else 296) ∧
        (if cfg.Height ≠ 0 then cfg.Height else 296) ≤ 32767 := by
      split <;> omega
    rw [bufferLength_eq _ _ hlw.1 hlw.2.1 hh.1 hh.2]
    generalize (if cfg.LogicalWidth ≠ 0 then cfg.LogicalWidth else 128) = lw at hlw
    generalize (if cfg.Height ≠ 0 then cfg.Height else 296) = h at hh
    have e1 : lw = 8 * (lw / 8) := by omega
    have e2 : (lw + 7) / 8 = lw / 8 := by omega
    rw [e2]
    have e3 : lw * h = 8 * (lw / 8 * h) := by
      calc lw * h = 8 * (lw / 8) * h := by rw [← e1]
        _ = 8 * (lw / 8 * h) := by ring
    rw [e3]
    omega
  · simp only
    have := eq_replicate_of_getD buf 0xFF h3
    rw [h2] at this
    exact this

/-- Witness for C12: the all-zero `Config` gives the default 128x296 panel
with a cleared buffer of 4736 bytes. -/
theorem Configure_cleared_witness :
    ∃ d, Configure ⟨0, 0, 0, 0⟩ = some d ∧ d.logicalWidth = 128 ∧ d.height = 296 ∧
      d.buffer = List.replicate 4736 0xFF := by
  obtain ⟨d, h1, hl, _, hh, _, _, hlen, hbuf⟩ := Configure_cleared ⟨0, 0, 0, 0⟩
    (by decide) (by decide) (by decide) (by decide) (by decide)
  have hl2 : d.logicalWidth = 128 := hl
  have hh2 : d.height = 296 := hh
  rw [hl2, hh2] at hlen
  have hn : d.bufferLength = 4736 := by omega
  rw [hn] at hbuf
  exact ⟨d, h1, hl2, hh2, hbuf⟩

/-- C14: on a device whose `bufferLength` is the length of its buffer,
`ClearBuffer` returns, changes only the buffer, keeps its length and leaves
every byte equal to `0xFF`. -/
theorem ClearBuffer_spec (d : Device) (hbl : d.bufferLength = d.buffer.length) :
    ClearBuffer d = some { d with buffer := List.replicate d.buffer.length 0xFF } := by
  obtain ⟨buf, h1, h2, h3⟩ := fillFF_spec d.bufferLength d.bufferLength 0 d.buffer
    (by omega) (by omega)
  have hb : buf = List.replicate d.buffer.length 0xFF := by
    have := eq_replicate_of_getD buf 0xFF (fun j hj => by
      rw [h3 j, if_pos ⟨by omega, by omega⟩])
    rw [h2] at this
    exact this
  unfold ClearBuffer
  rw [h1, hb]

/-- Witness for C14: a three-byte buffer with arbitrary content. -/
theorem ClearBuffer_spec_witness :
    ClearBuffer ⟨24, 24, 1, [0x00, 0xA5, 0x3C], 3, 2⟩
      = some ⟨24, 24, 1, [0xFF, 0xFF, 0xFF], 3, 2⟩ :=
  ClearBuffer_spec ⟨24, 24, 1, [0x00, 0xA5, 0x3C], 3, 2⟩ rfl

end epd2in9v2

/-! ## Lemmas about traces -/

theorem wire_append (l : Lines) (t r : List Event) :
    wire l (t ++ r) = wire l t ++ wire (l.run t) r := by
  induction t generalizing l with
  | nil => rfl
  | cons e t ih =>
    cases e with
    | transfer b =>
      show (b, l) :: wire l (t ++ r) = (b, l) :: wire l t ++ wire (Lines.run l t) r
      rw [ih]; rfl
    | tx data =>
      show data.map (fun b => (b, l)) ++ wire l (t ++ r)
        = (data.map (fun b => (b, l)) ++ wire l t) ++ wire (Lines.run l t) r
      rw [ih, List.append_assoc]
    | pinConfigure p o => exact ih _
    | pinSet p v => exact ih _
    | busyGet v => exact ih _
    | sleep ms => exact ih _

theorem wire_quiet (l : Lines) (w : List Event) (hw : Quiet w) :
    wire l w = [] ∧ l.run w = l := by
  induction w with
  | nil => exact ⟨rfl, rfl⟩
  | cons e w ih =>
    have hw2 : Quiet w := fun e1 he1 => hw e1 (List.mem_cons_of_mem _ he1)
    rcases hw e (List.mem_cons_self _ _) with ⟨v, rfl⟩ | ⟨ms, rfl⟩
    · exact ih hw2
    · exact ih hw2

theorem busBytes_append (l : Lines) (t r : List Event) :
    busBytes l (t ++ r) = busBytes l t ++ busBytes (l.run t) r := by
  unfold busBytes; rw [wire_append, List.map_append]

theorem cmdBytes_append (l : Lines) (t r : List Event) :
    cmdBytes l (t ++ r) = cmdBytes l t ++ cmdBytes (l.run t) r := by
  unfold cmdBytes; rw [wire_append, List.filter_append, List.map_append]

theorem dataBytes_append (l : Lines) (t r : List Event) :
    dataBytes l (t ++ r) = dataBytes l t ++ dataBytes (l.run t) r := by
  unfold dataBytes; rw [wire_append, List.filter_append, List.map_append]

theorem busBytes_quiet (l : Lines) (w : List Event) (hw : Quiet w) : busBytes l w = [] := by
  unfold busBytes; rw [(wire_quiet l w hw).1]; rfl

theorem cmdBytes_quiet (l : Lines) (w : List Event) (hw : Quiet w) : cmdBytes l w = [] := by
  unfold cmdBytes; rw [(wire_quiet l w hw).1]; rfl

theorem dataBytes_quiet (l : Lines) (w : List Event) (hw : Quiet w) : dataBytes l w = [] := by
  unfold dataBytes; rw [(wire_quiet l w hw).1]; rfl

/-- The polling loop only reads the busy pin and sleeps. -/
theorem pollBusy_quiet (ms : Nat) (busy : Nat → Bool) :
    ∀ (fuel k : Nat) (w : List Event) (k1 : Nat),
      pollBusy ms busy fuel k = some (w, k1) → Quiet w := by
  intro fuel
  induction fuel with
  | zero => intro k w k1 h; simp [pollBusy] at h
  | succ fuel ih =>
    intro k w k1 h
    unfold pollBusy at h
    split at h
    · split at h
      · simp at h
      · rename_i t k2 hrec
        simp only [Option.some.injEq, Prod.mk.injEq] at h
        obtain ⟨rfl, _⟩ := h
        intro e he
        rcases List.mem_cons.1 he with rfl | he
        · exact Or.inl ⟨true, rfl⟩
        · rcases List.mem_cons.1 he with rfl | he
          · exact Or.inr ⟨ms, rfl⟩
          · exact ih _ _ _ hrec e he
    · simp only [Option.some.injEq, Prod.mk.injEq] at h
      obtain ⟨rfl, _⟩ := h
      intro e he
      rcases List.mem_cons.1 he with rfl | he
      · exact Or.inl ⟨false, rfl⟩
      · simp at he

/-- With the busy pin idle at the next read, the polling loop reads once. -/
theorem pollBusy_idle (ms : Nat) (busy : Nat → Bool) (fuel k : Nat) (h : busy k = false) :
    pollBusy ms busy (fuel + 1) k = some ([Event.busyGet false], k + 1) := by
  unfold pollBusy
  rw [h]; rfl

theorem seqRun_some (t : List Event) (k : Nat) (f : Nat → Option (List Event × Nat)) :
    seqRun (some (t, k)) f = (f k).map (fun p => (t ++ p.1, p.2)) := by
  show (match f k with
    | none => none
    | some (t2, k2) => some (t ++ t2, k2)) = _
  cases f k with
  | none => rfl
  | some p => rfl

theorem seqRun_eq_some (a : Option (List Event × Nat)) (f : Nat → Option (List Event × Nat))
    (t : List Event) (k : Nat) (h : seqRun a f = some (t, k)) :
    ∃ t1 k1 t2, a = some (t1, k1) ∧ f k1 = some (t2, k) ∧ t = t1 ++ t2 := by
  unfold seqRun at h
  split at h
  · simp at h
  · rename_i t1 k1
    split at h
    · simp at h
    · rename_i t2 k2 hf
      simp only [Option.some.injEq, Prod.mk.injEq] at h
      obtain ⟨rfl, rfl⟩ := h
      exact ⟨t1, k1, t2, rfl, hf, rfl⟩

/-- C18: `SendCommand(b)` emits exactly [DC low, CS low, transfer `b`, CS high],
`SendData(b)` emits [DC high, CS low, transfer `b`, CS high] and
`Command(cmd, data)` emits [DC low, CS low, transfer `cmd`, DC high, write
`data`, CS high].  Whatever the line levels were before, every byte goes out
with chip-select low, the command byte with the data/command line low and
every data byte with it high, and chip-select is high when the operation
returns. -/
theorem command_data_framing (l : Lines) (b cmd : Nat) (data : List Nat) :
    epd2in9v2.SendCommand b =
      [Event.pinSet Pin.dc false, Event.pinSet Pin.cs false, Event.transfer b,
       Event.pinSet Pin.cs true] ∧
    epd2in9v2.SendData b =
      [Event.pinSet Pin.dc true, Event.pinSet Pin.cs false, Event.transfer b,
       Event.pinSet Pin.cs true] ∧
    ssd1681.Command cmd data =
      [Event.pinSet Pin.dc false, Event.pinSet Pin.cs false, Event.transfer cmd,
       Event.pinSet Pin.dc true, Event.tx data, Event.pinSet Pin.cs true] ∧
    wire l (epd2in9v2.SendCommand b) = [(b, ⟨some false, some false⟩)] ∧
    wire l (epd2in9v2.SendData b) = [(b, ⟨some false, some true⟩)] ∧
    wire l (ssd1681.Command cmd data) =
      (cmd, ⟨some false, some false⟩) :: data.map (fun x => (x, ⟨some false, some true⟩)) ∧
    (l.run (epd2in9v2.SendCommand b)).cs = some true ∧
    (l.run (epd2in9v2.SendData b)).cs = some true ∧
    (l.run (ssd1681.Command cmd data)).cs = some true := by
  refine ⟨rfl, rfl, rfl, rfl, rfl, ?_, rfl, rfl, rfl⟩
  simp [ssd1681.Command, wire, Lines.step]

/-! ## Lemmas about the traffic of `epd2in9v2` -/

namespace epd2in9v2

theorem wire_SendCommand (l : Lines) (b : Nat) :
    wire l (SendCommand b) = [(b, ⟨some false, some false⟩)] ∧
      l.run (SendCommand b) = ⟨some true, some false⟩ := ⟨rfl, rfl⟩

theorem wire_SendData (l : Lines) (b : Nat) :
    wire l (SendData b) = [(b, ⟨some false, some true⟩)] ∧
      l.run (SendData b) = ⟨some true, some true⟩ := ⟨rfl, rfl⟩

theorem cmdBytes_SendCommand (l : Lines) (b : Nat) : cmdBytes l (SendCommand b) = [b] := rfl

theorem cmdBytes_SendData (l : Lines) (b : Nat) : cmdBytes l (SendData b) = [] := rfl

theorem dataBytes_SendCommand (l : Lines) (b : Nat) : dataBytes l (SendCommand b) = [] := rfl

theorem dataBytes_SendData (l : Lines) (b : Nat) : dataBytes l (SendData b) = [b] := rfl

theorem busBytes_SendCommand (l : Lines) (b : Nat) : busBytes l (SendCommand b) = [b] := rfl

theorem busBytes_SendData (l : Lines) (b : Nat) : busBytes l (SendData b) = [b] := rfl

theorem cmdBytes_flatMap_SendData (bs : List Nat) :
    ∀ l : Lines, cmdBytes l (bs.flatMap SendData) = [] := by
  induction bs with
  | nil => intro l; rfl
  | cons b bs ih =>
    intro l
    rw [List.flatMap_cons, cmdBytes_append, cmdBytes_SendData, ih]
    rfl

theorem dataBytes_flatMap_SendData (bs : List Nat) :
    ∀ l : Lines, dataBytes l (bs.flatMap SendData) = bs := by
  induction bs with
  | nil => intro l; rfl
  | cons b bs ih =>
    intro l
    rw [List.flatMap_cons, dataBytes_append, dataBytes_SendData, ih]
    rfl

theorem busBytes_flatMap_SendData (bs : List Nat) :
    ∀ l : Lines, busBytes l (bs.flatMap SendData) = bs := by
  induction bs with
  | nil => intro l; rfl
  | cons b bs ih =>
    intro l
    rw [List.flatMap_cons, busBytes_append, busBytes_SendData, ih]
    rfl

theorem range_flatMap_getD (lut : List Nat) (n : Nat) (h : n ≤ lut.length) :
    (List.range n).flatMap (fun i => SendData (lut.getD i 0))
      = (lut.take n).flatMap SendData := by
  induction n with
  | zero => rfl
  | succ n ih =>
    rw [List.range_succ, List.flatMap_append, ih (by omega), List.take_succ,
      List.flatMap_append]
    congr 1
    rw [List.getElem?_eq_getElem (by omega)]
    simp only [List.flatMap_cons, List.flatMap_nil, Option.toList]
    rw [List.getD_eq_getElem?_getD, List.getElem?_eq_getElem (by omega)]
    rfl

theorem selectedLUT_length (fullUpdate : Bool) : (selectedLUT fullUpdate).length = 159 := by
  cases fullUpdate <;> rfl

theorem SetLUT_eq (fullUpdate : Bool) (busy : Nat → Bool) (fuel k : Nat)
    (w : List Event) (k1 : Nat) (hw : WaitUntilIdle busy fuel k = some (w, k1)) :
    SetLUT fullUpdate busy fuel k = some (lutTraffic (selectedLUT fullUpdate) w, k1) := by
  have hsel : (if (!fullUpdate) = true then lutPartialUpdate else lutFullUpdate)
      = selectedLUT fullUpdate := by
    cases fullUpdate <;> rfl
  unfold SetLUT
  simp only [hsel]
  rw [seqRun_some, hw, seqRun_some, range_flatMap_getD _ _ (by rw [selectedLUT_length]; omega)]
  simp only [Option.map_some', lutTraffic, List.append_assoc]
  rfl

theorem cmdBytes_lutTraffic (lut : List Nat) (w : List Event) (hq : Quiet w) (l : Lines) :
    cmdBytes l (lutTraffic lut w) = [0x32, 0x3f, 0x03, 0x04, 0x2c] := by
  unfold lutTraffic
  simp only [cmdBytes_append, cmdBytes_SendCommand, cmdBytes_SendData,
    cmdBytes_flatMap_SendData, cmdBytes_quiet _ w hq, List.append_nil, List.nil_append,
    List.singleton_append, List.cons_append]

theorem dataBytes_lutTraffic (lut : List Nat) (w : List Event) (hq : Quiet w) (l : Lines)
    (hlen : lut.length = 159) : dataBytes l (lutTraffic lut w) = lut := by
  unfold lutTraffic
  simp only [dataBytes_append, dataBytes_SendCommand, dataBytes_SendData,
    dataBytes_flatMap_SendData, dataBytes_quiet _ w hq, List.append_nil, List.nil_append,
    List.append_assoc, List.singleton_append, List.cons_append]
  have h1 : lut = lut.take 153 ++ lut.drop 153 := (List.take_append_drop 153 lut).symm
  have h2 : lut.drop 153 = [lut.getD 153 0, lut.getD 154 0, lut.getD 155 0, lut.getD 156 0,
      lut.getD 157 0, lut.getD 158 0] := by
    apply List.ext_getElem
    · simp [hlen]
    · intro i hi1 hi2
      simp only [List.length_cons, List.length_nil] at hi2
      rw [List.getElem_drop]
      have hi : i = 0 ∨ i = 1 ∨ i = 2 ∨ i = 3 ∨ i = 4 ∨ i = 5 := by omega
      rcases hi with rfl | rfl | rfl | rfl | rfl | rfl <;>
        simp [List.getD_eq_getElem?_getD, List.getElem?_eq_getElem, hlen]
  conv_rhs => rw [h1, h2]

/-- C19: whenever its busy-wait returns, `SetLUT(fullUpdate)` returns after
sending command `0x32` with data `lut[0..152]`, waiting, then command `0x3f`
with `lut[153]`, `0x03` with `lut[154]`, `0x04` with `lut[155..157]` and `0x2c`
with `lut[158]`, for `lut` the selected table; its data bytes are the 159 bytes
of that table, its command bytes are `0x32, 0x3f, 0x03, 0x04, 0x2c`, and the two
tables give different traces. -/
theorem SetLUT_spec (fullUpdate : Bool) (busy : Nat → Bool) (fuel k : Nat)
    (w : List Event) (k1 : Nat) (l : Lines)
    (hw : WaitUntilIdle busy fuel k = some (w, k1)) :
    SetLUT fullUpdate busy fuel k = some (lutTraffic (selectedLUT fullUpdate) w, k1) ∧
    (selectedLUT fullUpdate).length = 159 ∧
    dataBytes l (lutTraffic (selectedLUT fullUpdate) w) = selectedLUT fullUpdate ∧
    cmdBytes l (lutTraffic (selectedLUT fullUpdate) w) = [0x32, 0x3f, 0x03, 0x04, 0x2c] ∧
    SetLUT true busy fuel k ≠ SetLUT false busy fuel k := by
  have hq : Quiet w := pollBusy_quiet _ _ _ _ _ _ hw
  refine ⟨SetLUT_eq _ _ _ _ _ _ hw, selectedLUT_length _,
    dataBytes_lutTraffic _ _ hq _ (selectedLUT_length _), cmdBytes_lutTraffic _ _ hq _, ?_⟩
  intro heq
  rw [SetLUT_eq true _ _ _ _ _ hw, SetLUT_eq false _ _ _ _ _ hw] at heq
  simp only [Option.some.injEq, Prod.mk.injEq, and_true] at heq
  have h3 := congrArg (dataBytes l) heq
  rw [dataBytes_lutTraffic _ _ hq _ (selectedLUT_length _),
    dataBytes_lutTraffic _ _ hq _ (selectedLUT_length _)] at h3
  exact absurd h3 (by decide)

/-- Witness for C19: with the busy pin idle, `SetLUT(false)` sends the 159
bytes of `lutPartialUpdate` as data. -/
theorem SetLUT_spec_witness :
    SetLUT false (fun _ => false) 1 0
        = some (lutTraffic lutPartialUpdate [Event.busyGet false], 1) ∧
      dataBytes ⟨none, none⟩ (lutTraffic lutPartialUpdate [Event.busyGet false])
        = lutPartialUpdate :=
  have h := SetLUT_spec false (fun _ => false) 1 0 [Event.busyGet false] 1 ⟨none, none⟩ rfl
  ⟨h.1, h.2.2.1⟩

end epd2in9v2

/-! ## Lemmas about the traffic of `ssd1681` -/

namespace ssd1681

theorem wire_Command (l : Lines) (cmd : Nat) (data : List Nat) :
    wire l (Command cmd data) =
        (cmd, ⟨some false, some false⟩) :: data.map (fun x => (x, ⟨some false, some true⟩)) ∧
      l.run (Command cmd data) = ⟨some true, some true⟩ := by
  refine ⟨?_, rfl⟩
  simp [Command, wire, Lines.step]

theorem cmdBytes_Command (l : Lines) (cmd : Nat) (data : List Nat) :
    cmdBytes l (Command cmd data) = [cmd] := by
  unfold cmdBytes
  rw [(wire_Command l cmd data).1]
  simp [List.filter_cons, List.filter_map, List.filter_eq_nil_iff]

theorem dataBytes_Command (l : Lines) (cmd : Nat) (data : List Nat) :
    dataBytes l (Command cmd data) = data := by
  unfold dataBytes
  rw [(wire_Command l cmd data).1]
  simp [List.filter_cons, List.filter_map]
  induction data with
  | nil => rfl
  | cons b bs ih => simp [List.filter_cons, ih]

theorem busBytes_Command (l : Lines) (cmd : Nat) (data : List Nat) :
    busBytes l (Command cmd data) = cmd :: data := by
  unfold busBytes
  rw [(wire_Command l cmd data).1]
  simp [Function.comp_def]

end ssd1681

theorem toByte_wrap16 (v : Int) :
    toByte (wrap16 v) = toByte v ∧ toByte (wrap16 v / 256) = toByte (v / 256) := by
  unfold toByte wrap16
  constructor <;> congr 1 <;> omega

/-- C20: whenever its three busy-waits return, the traffic of
`epd2in9v2.Configure` is: the lines driven low, the reset toggle and a 100 ms
sleep (no bus byte), then command `0x12` (software reset), a busy-wait, command
`0x01` (driver output control) with data `(height-1)` low byte, `(height-1)`
high byte, `0x00`, command `0x11` with data `0x03`, command `0x21` with data
`0x00, 0x80`, a busy-wait and the traffic of `SetLUT(true)` for the full-update
table; its command bytes are `0x12, 0x01, 0x11, 0x21` followed by those of
`SetLUT`.  Likewise the traffic of `ssd1681.Configure` is: pin set-up and reset
toggle (no bus byte), a busy-wait, `SW_RESET`, a busy-wait, then
`DRIVER_CONTROL`, `DATA_MODE`, `SET_RAMXPOS`, `SET_RAMYPOS`, `WRITE_BORDER`,
`TEMP_CONTROL` and a last busy-wait. -/
theorem Configure_init_order (d : epd2in9v2.Device) (busy : Nat → Bool) (fuel k k1 k2 k3 : Nat)
    (w1 w2 w3 : List Event)
    (r : ssd1681.Registers) (ds : ssd1681.Device) (busys : Nat → Bool) (fuels n n1 n2 n3 : Nat)
    (v1 v2 v3 : List Event) (l : Lines)
    (hw1 : epd2in9v2.WaitUntilIdle busy fuel k = some (w1, k1))
    (hw2 : epd2in9v2.WaitUntilIdle busy fuel k1 = some (w2, k2))
    (hw3 : epd2in9v2.WaitUntilIdle busy fuel k2 = some (w3, k3))
    (hv1 : ssd1681.Wait busys fuels n = some (v1, n1))
    (hv2 : ssd1681.Wait busys fuels n1 = some (v2, n2))
    (hv3 : ssd1681.Wait busys fuels n2 = some (v3, n3)) :
    epd2in9v2.ConfigureTraffic d busy fuel k = some
      ([Event.pinSet Pin.cs false, Event.pinSet Pin.dc false, Event.pinSet Pin.rst false,
        Event.pinSet Pin.rst true, Event.sleep 10, Event.pinSet Pin.rst false, Event.sleep 2,
        Event.pinSet Pin.rst true, Event.sleep 10, Event.sleep 100] ++
       epd2in9v2.SendCommand 0x12 ++ w1 ++
       epd2in9v2.SendCommand 0x01 ++ epd2in9v2.SendData (toByte (d.height - 1)) ++
         epd2in9v2.SendData (toByte ((d.height - 1) / 256)) ++ epd2in9v2.SendData 0x00 ++
       epd2in9v2.SendCommand 0x11 ++ epd2in9v2.SendData 0x03 ++
       epd2in9v2.SendCommand 0x21 ++ epd2in9v2.SendData 0x00 ++ epd2in9v2.SendData 0x80 ++ w2 ++
       epd2in9v2.lutTraffic epd2in9v2.lutFullUpdate w3, k3) ∧
    (∀ t k4, epd2in9v2.ConfigureTraffic d busy fuel k = some (t, k4) →
      cmdBytes l t = [0x12, 0x01, 0x11, 0x21] ++ [0x32, 0x3f, 0x03, 0x04, 0x2c]) ∧
    ssd1681.ConfigureTraffic r ds busys fuels n = some
      ([Event.pinConfigure Pin.dc true, Event.pinConfigure Pin.rst true,
        Event.pinConfigure Pin.cs true, Event.pinConfigure Pin.en true,
        Event.pinConfigure Pin.busy false, Event.pinSet Pin.en true,
        Event.pinSet Pin.rst true, Event.sleep 100, Event.pinSet Pin.rst false,
        Event.sleep 100, Event.pinSet Pin.rst true, Event.sleep 200] ++ v1 ++
       ssd1681.Command r.SW_RESET [] ++ v2 ++
       ssd1681.Command r.DRIVER_CONTROL
         [toByte (ds.width - 1), toByte ((ds.width - 1) / 256), 0] ++
       ssd1681.Command r.DATA_MODE [0x3] ++
       ssd1681.Command r.SET_RAMXPOS [0, toByte (ssd1681.ceil ds.width 8)] ++
       ssd1681.Command r.SET_RAMYPOS
         [0, 0, toByte (ds.height - 1), toByte ((ds.height - 1) / 256)] ++
       ssd1681.Command r.WRITE_BORDER [0x05] ++
       ssd1681.Command r.TEMP_CONTROL [0x80] ++ v3, n3) ∧
    (∀ t n4, ssd1681.ConfigureTraffic r ds busys fuels n = some (t, n4) →
      cmdBytes l t = [r.SW_RESET, r.DRIVER_CONTROL, r.DATA_MODE, r.SET_RAMXPOS,
        r.SET_RAMYPOS, r.WRITE_BORDER, r.TEMP_CONTROL]) := by
  have q1 : Quiet w1 := pollBusy_quiet _ _ _ _ _ _ hw1
  have q2 : Quiet w2 := pollBusy_quiet _ _ _ _ _ _ hw2
  have q3 : Quiet w3 := pollBusy_quiet _ _ _ _ _ _ hw3
  have p1 : Quiet v1 := pollBusy_quiet _ _ _ _ _ _ hv1
  have p2 : Quiet v2 := pollBusy_quiet _ _ _ _ _ _ hv2
  have p3 : Quiet v3 := pollBusy_quiet _ _ _ _ _ _ hv3
  have hE : epd2in9v2.ConfigureTraffic d busy fuel k = some
      ([Event.pinSet Pin.cs false, Event.pinSet Pin.dc false, Event.pinSet Pin.rst false,
        Event.pinSet Pin.rst true, Event.sleep 10, Event.pinSet Pin.rst false, Event.sleep 2,
        Event.pinSet Pin.rst true, Event.sleep 10, Event.sleep 100] ++
       epd2in9v2.SendCommand 0x12 ++ w1 ++
       epd2in9v2.SendCommand 0x01 ++ epd2in9v2.SendData (toByte (d.height - 1)) ++
         epd2in9v2.SendData (toByte ((d.height - 1) / 256)) ++ epd2in9v2.SendData 0x00 ++
       epd2in9v2.SendCommand 0x11 ++ epd2in9v2.SendData 0x03 ++
       epd2in9v2.SendCommand 0x21 ++ epd2in9v2.SendData 0x00 ++ epd2in9v2.SendData 0x80 ++ w2 ++
       epd2in9v2.lutTraffic epd2in9v2.lutFullUpdate w3, k3) := by
    unfold epd2in9v2.ConfigureTraffic
    rw [seqRun_some, hw1, seqRun_some, seqRun_some, hw2, seqRun_some,
      epd2in9v2.SetLUT_eq true _ _ _ _ _ hw3, (toByte_wrap16 _).1, (toByte_wrap16 _).2]
    simp only [Option.map_some', List.append_assoc]
    rfl
  have hS : ssd1681.ConfigureTraffic r ds busys fuels n = some
      ([Event.pinConfigure Pin.dc true, Event.pinConfigure Pin.rst true,
        Event.pinConfigure Pin.cs true, Event.pinConfigure Pin.en true,
        Event.pinConfigure Pin.busy false, Event.pinSet Pin.en true,
        Event.pinSet Pin.rst true, Event.sleep 100, Event.pinSet Pin.rst false,
        Event.sleep 100, Event.pinSet Pin.rst true, Event.sleep 200] ++ v1 ++
       ssd1681.Command r.SW_RESET [] ++ v2 ++
       ssd1681.Command r.DRIVER_CONTROL
         [toByte (ds.width - 1), toByte ((ds.width - 1) / 256), 0] ++
       ssd1681.Command r.DATA_MODE [0x3] ++
       ssd1681.Command r.SET_RAMXPOS [0, toByte (ssd1681.ceil ds.width 8)] ++
       ssd1681.Command r.SET_RAMYPOS
         [0, 0, toByte (ds.height - 1), toByte ((ds.height - 1) / 256)] ++
       ssd1681.Command r.WRITE_BORDER [0x05] ++
       ssd1681.Command r.TEMP_CONTROL [0x80] ++ v3, n3) := by
    unfold ssd1681.ConfigureTraffic
    rw [seqRun_some, hv1, seqRun_some, seqRun_some, hv2, seqRun_some, seqRun_some, hv3,
      (toByte_wrap16 _).1, (toByte_wrap16 _).2, (toByte_wrap16 _).1, (toByte_wrap16 _).2]
    simp only [Option.map_some', List.append_assoc]
  refine ⟨hE, ?_, hS, ?_⟩
  · intro t k4 ht
    rw [hE] at ht
    simp only [Option.some.injEq, Prod.mk.injEq] at ht
    rw [← ht.1]
    have hp : ∀ l0 : Lines, cmdBytes l0
        [Event.pinSet Pin.cs false, Event.pinSet Pin.dc false, Event.pinSet Pin.rst false,
         Event.pinSet Pin.rst true, Event.sleep 10, Event.pinSet Pin.rst false, Event.sleep 2,
         Event.pinSet Pin.rst true, Event.sleep 10, Event.sleep 100] = [] := fun _ => rfl
    simp only [cmdBytes_append, epd2in9v2.cmdBytes_SendCommand, epd2in9v2.cmdBytes_SendData,
      cmdBytes_quiet _ w1 q1, cmdBytes_quiet _ w2 q2, epd2in9v2.cmdBytes_lutTraffic _ _ q3,
      hp, List.append_nil, List.nil_append]
    rfl
  · intro t n4 ht
    rw [hS] at ht
    simp only [Option.some.injEq, Prod.mk.injEq] at ht
    rw [← ht.1]
    have hp : ∀ l0 : Lines, cmdBytes l0
        [Event.pinConfigure Pin.dc true, Event.pinConfigure Pin.rst true,
         Event.pinConfigure Pin.cs true, Event.pinConfigure Pin.en true,
         Event.pinConfigure Pin.busy false, Event.pinSet Pin.en true,
         Event.pinSet Pin.rst true, Event.sleep 100, Event.pinSet Pin.rst false,
         Event.sleep 100, Event.pinSet Pin.rst true, Event.sleep 200] = [] := fun _ => rfl
    simp only [cmdBytes_append, ssd1681.cmdBytes_Command,
      cmdBytes_quiet _ v1 p1, cmdBytes_quiet _ v2 p2, cmdBytes_quiet _ v3 p3,
      hp, List.append_nil, List.nil_append]
    rfl

/-- Witness for C20: with the busy pin idle, on the default 128x296 panel and
on the 200x200 panel with sample register values. -/
theorem Configure_init_order_witness :
    (∃ t, epd2in9v2.ConfigureTraffic (epd2in9v2.panel128 0) (fun _ => false) 1 0 = some (t, 3) ∧
      cmdBytes ⟨none, none⟩ t = [0x12, 0x01, 0x11, 0x21, 0x32, 0x3f, 0x03, 0x04, 0x2c]) ∧
    (∃ t, ssd1681.ConfigureTraffic ssd1681.sampleRegisters ssd1681.panel200 (fun _ => false) 1 0
        = some (t, 3) ∧
      cmdBytes ⟨none, none⟩ t = [0x12, 0x01, 0x11, 0x44, 0x45, 0x3C, 0x18]) :=
  have h := Configure_init_order (epd2in9v2.panel128 0) (fun _ => false) 1 0 1 2 3
    [Event.busyGet false] [Event.busyGet false] [Event.busyGet false]
    ssd1681.sampleRegisters ssd1681.panel200 (fun _ => false) 1 0 1 2 3
    [Event.busyGet false] [Event.busyGet false] [Event.busyGet false] ⟨none, none⟩
    rfl rfl rfl rfl rfl rfl
  ⟨⟨_, h.1, h.2.1 _ _ h.1⟩, ⟨_, h.2.2.1, h.2.2.2 _ _ h.2.2.1⟩⟩

/-! ## Rows of a buffer -/

theorem flatMap_bufferRow_take (buf : List Nat) (m : Nat) :
    ∀ n : Nat, (List.range n).flatMap (bufferRow buf m) = buf.take (n * m) := by
  intro n
  induction n with
  | zero => simp
  | succ n ih =>
    rw [List.range_succ, List.flatMap_append, ih, Nat.succ_mul, List.take_add]
    simp [bufferRow]

/-- The rows of a buffer of `n * m` bytes, concatenated, are the buffer. -/
theorem flatMap_bufferRow (buf : List Nat) (m n : Nat) (h : buf.length = n * m) :
    (List.range n).flatMap (bufferRow buf m) = buf := by
  rw [flatMap_bufferRow_take, List.take_of_length_le (by omega)]

theorem bufferRow_length (buf : List Nat) (m j : Nat) (h : (j + 1) * m ≤ buf.length) :
    (bufferRow buf m j).length = m := by
  unfold bufferRow
  rw [List.length_take, List.length_drop]
  have : (j + 1) * m = j * m + m := by ring
  omega

theorem sliceBuf_row (buf : List Nat) (m : Int) (j : Nat) (hm : 0 ≤ m)
    (h : ((j : Int) + 1) * m ≤ buf.length) :
    sliceBuf buf ((j : Int) * m) (((j : Int) + 1) * m) = some (bufferRow buf m.toNat j) := by
  have h1 : 0 ≤ (j : Int) * m := Int.mul_nonneg (by omega) hm
  have h2 : ((j : Int) + 1) * m = (j : Int) * m + m := by ring
  have h3 : ((j : Int) * m).toNat = j * m.toNat := by
    have : ((j * m.toNat : Nat) : Int) = (j : Int) * m := by
      push_cast; rw [Int.toNat_of_nonneg hm]
    omega
  unfold sliceBuf bufferRow
  rw [if_pos ⟨h1, by omega, h⟩, h3]
  congr 2
  omega

namespace ssd1681

theorem displayRows_spec (r : Registers) (d : Device) (hm : 0 ≤ ceil d.width 8) :
    ∀ (n j0 : Nat), (((j0 + n : Nat) : Int)) * ceil d.width 8 ≤ d.buffer.length →
      displayRows r d n (j0 : Int) = some ((List.range' j0 n).flatMap
        (fun j => Command r.WRITE_BWRAM (bufferRow d.buffer (ceil d.width 8).toNat j))) := by
  intro n
  induction n with
  | zero => intro j0 _; rfl
  | succ n ih =>
    intro j0 h
    have h1 : ((j0 : Int) + 1) * ceil d.width 8 ≤ d.buffer.length := by
      have : ((j0 : Int) + 1) * ceil d.width 8 ≤ ((j0 + (n + 1) : Nat) : Int) * ceil d.width 8 :=
        Int.mul_le_mul_of_nonneg_right (by push_cast; omega) hm
      omega
    have h2 := ih (j0 + 1) (by
      have : j0 + 1 + n = j0 + (n + 1) := by omega
      rw [this]; exact h)
    have h3 : ((j0 + 1 : Nat) : Int) = (j0 : Int) + 1 := by push_cast; rfl
    rw [h3] at h2
    unfold displayRows
    rw [sliceBuf_row _ _ _ hm h1, h2, List.range'_succ, List.flatMap_cons]

theorem cmdBytes_rows (c : Nat) (f : Nat → List Nat) (js : List Nat) :
    ∀ l : Lines, cmdBytes l (js.flatMap (fun j => Command c (f j))) = js.map (fun _ => c) := by
  induction js with
  | nil => intro l; rfl
  | cons j js ih =>
    intro l
    rw [List.flatMap_cons, cmdBytes_append, cmdBytes_Command, ih]
    rfl

theorem dataBytes_rows (c : Nat) (f : Nat → List Nat) (js : List Nat) :
    ∀ l : Lines, dataBytes l (js.flatMap (fun j => Command c (f j))) = js.flatMap f := by
  induction js with
  | nil => intro l; rfl
  | cons j js ih =>
    intro l
    rw [List.flatMap_cons, dataBytes_append, dataBytes_Command, ih]
    rfl

/-- C16: on a device with `height ≥ 0` whose buffer has `ceil(width, 8) * height`
bytes, whenever the final busy-wait returns, `Display` returns `nil` with the
device unchanged after sending `SET_RAMXCOUNT` with data `[0]`, `SET_RAMYCOUNT`
with data `[0, 0]`, then for each row `j = 0 .. height-1` in order `WRITE_BWRAM`
with the `ceil(width, 8)` bytes of row `j` of the buffer, then `DISP_CTRL2` with
`[0xF7]` and `MASTER_ACTIVATE`.  The rows concatenated are the buffer; there
are exactly `height` `WRITE_BWRAM` commands. -/
theorem Display_rows (r : Registers) (d : Device) (busy : Nat → Bool) (fuel k : Nat)
    (w : List Event) (k1 : Nat) (l : Lines)
    (hh : 0 ≤ d.height) (hlen : (d.buffer.length : Int) = ceil d.width 8 * d.height)
    (hw : Wait busy fuel k = some (w, k1)) :
    Display r d busy fuel k = some (d, none,
      Command r.SET_RAMXCOUNT [0] ++ Command r.SET_RAMYCOUNT [0, 0] ++
        (List.range d.height.toNat).flatMap
          (fun j => Command r.WRITE_BWRAM (bufferRow d.buffer (ceil d.width 8).toNat j)) ++
        Command r.DISP_CTRL2 [0xF7] ++ Command r.MASTER_ACTIVATE [] ++ w, k1) ∧
    (List.range d.height.toNat).flatMap (bufferRow d.buffer (ceil d.width 8).toNat)
      = d.buffer ∧
    (∀ j, j < d.height.toNat →
      (bufferRow d.buffer (ceil d.width 8).toNat j).length = (ceil d.width 8).toNat) ∧
    cmdBytes l ((List.range d.height.toNat).flatMap
        (fun j => Command r.WRITE_BWRAM (bufferRow d.buffer (ceil d.width 8).toNat j)))
      = List.replicate d.height.toNat r.WRITE_BWRAM ∧
    dataBytes l ((List.range d.height.toNat).flatMap
        (fun j => Command r.WRITE_BWRAM (bufferRow d.buffer (ceil d.width 8).toNat j)))
      = d.buffer := by
  have hcases : d.height = 0 ∨ (0 < d.height ∧ 0 ≤ ceil d.width 8) := by
    rcases lt_or_ge 0 d.height with hpos | hle
    · right
      refine ⟨hpos, ?_⟩
      by_contra hneg
      have : ceil d.width 8 * d.height < 0 :=
        Int.mul_neg_of_neg_of_pos (by omega) hpos
      omega
    · left; omega
  have hlenN : d.buffer.length = d.height.toNat * (ceil d.width 8).toNat := by
    rcases hcases with h0 | ⟨hpos, hm⟩
    · rw [h0] at hlen ⊢
      simp at hlen ⊢
      exact hlen
    · have : ((d.height.toNat * (ceil d.width 8).toNat : Nat) : Int)
          = ceil d.width 8 * d.height := by
        push_cast
        rw [Int.toNat_of_nonneg hm, Int.toNat_of_nonneg hh]
        ring
      omega
  have hjoin := flatMap_bufferRow d.buffer (ceil d.width 8).toNat d.height.toNat hlenN
  have hrows : displayRows r d d.height.toNat 0 = some ((List.range d.height.toNat).flatMap
      (fun j => Command r.WRITE_BWRAM (bufferRow d.buffer (ceil d.width 8).toNat j))) := by
    rcases hcases with h0 | ⟨hpos, hm⟩
    · rw [h0]; rfl
    · have := displayRows_spec r d hm d.height.toNat 0 (by
        have e : ((0 + d.height.toNat : Nat) : Int) = d.height := by
          rw [Nat.zero_add, Int.toNat_of_nonneg hh]
        rw [e, hlen]
        exact le_of_eq (by ring))
      rw [List.range_eq_range']
      exact this
  refine ⟨?_, hjoin, ?_, ?_, ?_⟩
  · unfold Display
    rw [hrows, hw]
  · intro j hj
    apply bufferRow_length
    rw [hlenN]
    exact Nat.mul_le_mul_right _ (by omega)
  · rw [cmdBytes_rows]
    exact List.eq_replicate_iff.2 ⟨by simp, fun b hb => by
      simp only [List.mem_map] at hb
      obtain ⟨_, _, rfl⟩ := hb
      rfl⟩
  · rw [dataBytes_rows]
    exact hjoin

/-- Witness for C16: a 16x2 panel whose buffer holds `1, 2, 3, 4`, with sample
register values and the busy pin idle: two `WRITE_BWRAM` commands with the
payloads `[1, 2]` and `[3, 4]`. -/
theorem Display_rows_witness :
    Display sampleRegisters panel16x2 (fun _ => false) 1 0 = some
      (panel16x2, none,
        Command 0x4E [0] ++ Command 0x4F [0, 0] ++ Command 0x24 [1, 2] ++ Command 0x24 [3, 4] ++
          Command 0x22 [0xF7] ++ Command 0x20 [] ++ [Event.busyGet false], 1) :=
  (Display_rows sampleRegisters panel16x2 (fun _ => false) 1 0
    [Event.busyGet false] 1 ⟨none, none⟩ (by decide) (by decide) rfl).1

end ssd1681

theorem readAll_range (buf : List Nat) :
    ∀ (n s : Nat), s + n ≤ buf.length →
      readAll buf ((List.range n).map (fun i => ((s + i : Nat) : Int)))
        = some ((buf.drop s).take n) := by
  intro n
  induction n with
  | zero => intro s _; rfl
  | succ n ih =>
    intro s h
    have hrec := ih (s + 1) (by omega)
    have hmap : (List.range n).map (fun i => ((s + 1 + i : Nat) : Int))
        = (List.map Nat.succ (List.range n)).map (fun i => ((s + i : Nat) : Int)) := by
      rw [List.map_map]
      apply List.map_congr_left
      intro i _
      show ((s + 1 + i : Nat) : Int) = ((s + (i + 1) : Nat) : Int)
      congr 1; omega
    rw [List.range_succ_eq_map, List.map_cons, ← hmap]
    unfold readAll
    rw [if_pos ⟨by omega, by omega⟩, hrec, List.drop_eq_getElem_cons (by omega : s < buf.length),
      List.take_succ_cons]
    simp only [Nat.add_zero, Int.toNat_ofNat, List.getD_eq_getElem?_getD,
      List.getElem?_eq_getElem (by omega : s < buf.length), Option.getD_some]

namespace epd2in9v2

theorem rowData_spec (d : Device) (j : Nat)
    (hlw0 : 0 ≤ d.logicalWidth) (hlw2 : d.logicalWidth ≤ 32767)
    (hfit : (j + 1) * (d.logicalWidth / 8).toNat ≤ d.buffer.length)
    (hcap : (j + 1) * (d.logicalWidth / 8).toNat ≤ 32768) :
    rowData d (j : Int) = some (bufferRow d.buffer (d.logicalWidth / 8).toNat j) := by
  have e1 : Int.tdiv d.logicalWidth 8 = d.logicalWidth / 8 :=
    Int.tdiv_eq_ediv hlw0 (by omega)
  have e2 : wrap16 (d.logicalWidth / 8) = d.logicalWidth / 8 :=
    wrap16_id (by unfold isInt16; omega)
  have hM : ((d.logicalWidth / 8).toNat : Int) = d.logicalWidth / 8 :=
    Int.toNat_of_nonneg (by omega)
  have hsplit : (j + 1) * (d.logicalWidth / 8).toNat
      = j * (d.logicalWidth / 8).toNat + (d.logicalWidth / 8).toNat := by ring
  have hprod : (j : Int) * (d.logicalWidth / 8) = ((j * (d.logicalWidth / 8).toNat : Nat) : Int) := by
    push_cast; rw [hM]
  unfold rowData bufferRow
  rw [e1, e2]
  have hmap : (List.range (d.logicalWidth / 8).toNat).map
        (fun (i : Nat) => wrap16 ((i : Int) + wrap16 ((j : Int) * (d.logicalWidth / 8))))
      = (List.range (d.logicalWidth / 8).toNat).map
        (fun i => ((j * (d.logicalWidth / 8).toNat + i : Nat) : Int)) := by
    apply List.map_congr_left
    intro i hi
    have hi2 : i < (d.logicalWidth / 8).toNat := List.mem_range.1 hi
    rw [hprod]
    have e3 : wrap16 ((j * (d.logicalWidth / 8).toNat : Nat) : Int)
        = ((j * (d.logicalWidth / 8).toNat : Nat) : Int) :=
      wrap16_id (by unfold isInt16; omega)
    rw [e3]
    rw [wrap16_id (by unfold isInt16; omega)]
    push_cast
    ring
  rw [hmap, readAll_range _ _ _ (by omega)]

theorem toByte_nat (j : Nat) :
    toByte (j : Int) = j % 256 ∧ toByte ((j : Int) / 256) = j / 256 % 256 := by
  unfold toByte
  constructor <;> omega

/-- With the busy pin idle, the row loop of `Display` returns the traffic of
the rows in order and reads the busy pin once per row. -/
theorem displayRows_idle (d : Device) (busy : Nat → Bool) (fuel : Nat)
    (hidle : ∀ i, busy i = false)
    (hlw0 : 0 ≤ d.logicalWidth) (hlw2 : d.logicalWidth ≤ 32767) :
    ∀ (n j0 k : Nat), (j0 + n) * (d.logicalWidth / 8).toNat ≤ d.buffer.length →
      (j0 + n) * (d.logicalWidth / 8).toNat ≤ 32768 →
      displayRows d busy (fuel + 1) n (j0 : Int) k
        = some ((List.range' j0 n).flatMap (rowTraffic d), k + n) := by
  intro n
  induction n with
  | zero => intro j0 k _ _; rfl
  | succ n ih =>
    intro j0 k hfit hcap
    have hle : (j0 + 1) * (d.logicalWidth / 8).toNat
        ≤ (j0 + (n + 1)) * (d.logicalWidth / 8).toNat :=
      Nat.mul_le_mul_right _ (by omega)
    have hrow := rowData_spec d j0 hlw0 hlw2 (by omega) (by omega)
    have hrec := ih (j0 + 1) (k + 1)
      (by rw [show j0 + 1 + n = j0 + (n + 1) by omega]; exact hfit)
      (by rw [show j0 + 1 + n = j0 + (n + 1) by omega]; exact hcap)
    have hcast : ((j0 + 1 : Nat) : Int) = (j0 : Int) + 1 := by push_cast; rfl
    rw [hcast] at hrec
    unfold displayRows
    unfold setMemoryPointer
    rw [seqRun_some, show WaitUntilIdle busy (fuel + 1) k = some ([Event.busyGet false], k + 1)
      from pollBusy_idle _ _ _ _ (hidle k)]
    simp only [Option.map_some', hrow]
    rw [seqRun_some, seqRun_some, hrec, (toByte_nat j0).1, (toByte_nat j0).2]
    simp only [Option.map_some', List.range'_succ, List.flatMap_cons, rowTraffic,
      List.append_assoc]
    rw [show k + 1 + n = k + (n + 1) by omega]
    rfl

/-- C15: on a device whose logical width is a positive multiple of 8, with
`height > 0`, `(logicalWidth/8) * height ≤ 32767` and a buffer of
`logicalWidth*height/8` bytes, with the busy pin idle, `Display` returns `nil`
with the device unchanged.  It sets the RAM window (command `0x44` with data
`0`, `(logicalWidth-1) >> 3`; command `0x45` with data `0`, `0` and the low and
high byte of `height-1`), then for each row `j = 0 .. height-1` in order sets
the address counter to `(0, j)`, sends `WRITE_RAM` and the `logicalWidth/8` bytes
of row `j`, then sends `0x22` with data `0xC7` and `0x20` and reads the busy pin.
The rows concatenated are the buffer. -/
theorem Display_streams (d : Device) (busy : Nat → Bool) (fuel k : Nat)
    (hlw0 : 0 < d.logicalWidth) (hlw2 : d.logicalWidth ≤ 32767)
    (h8 : d.logicalWidth % 8 = 0) (hh0 : 0 < d.height) (hh2 : d.height ≤ 32767)
    (hcap : d.logicalWidth / 8 * d.height ≤ 32767)
    (hlen : (d.buffer.length : Int) = d.logicalWidth * d.height / 8)
    (hidle : ∀ i, busy i = false) :
    Display d busy (fuel + 1) k = some (d, none,
      SendCommand 0x44 ++ SendData 0 ++ SendData (toByte ((d.logicalWidth - 1) / 8)) ++
      SendCommand 0x45 ++ SendData 0 ++ SendData 0 ++ SendData (toByte (d.height - 1)) ++
        SendData (toByte ((d.height - 1) / 256)) ++
      (List.range d.height.toNat).flatMap (rowTraffic d) ++
      SendCommand 0x22 ++ SendData 0xC7 ++ SendCommand 0x20 ++ [Event.busyGet false],
      k + d.height.toNat + 1) ∧
    (List.range d.height.toNat).flatMap (bufferRow d.buffer (d.logicalWidth / 8).toNat)
      = d.buffer ∧
    (∀ j, j < d.height.toNat →
      (bufferRow d.buffer (d.logicalWidth / 8).toNat j).length = (d.logicalWidth / 8).toNat) := by
  have hprod : d.logicalWidth * d.height = 8 * (d.logicalWidth / 8 * d.height) := by
    have e1 : d.logicalWidth = 8 * (d.logicalWidth / 8) := by omega
    calc d.logicalWidth * d.height = 8 * (d.logicalWidth / 8) * d.height := by rw [← e1]
      _ = 8 * (d.logicalWidth / 8 * d.height) := by ring
  have hlen2 : (d.buffer.length : Int) = d.logicalWidth / 8 * d.height := by
    rw [hlen, hprod]; omega
  have hcastN : ((d.height.toNat * (d.logicalWidth / 8).toNat : Nat) : Int)
      = d.logicalWidth / 8 * d.height := by
    push_cast
    rw [Int.toNat_of_nonneg (by omega), Int.toNat_of_nonneg (by omega)]
    ring
  have hlenN : d.buffer.length = d.height.toNat * (d.logicalWidth / 8).toNat := by omega
  have hrows := displayRows_idle d busy fuel hidle (by omega) hlw2 d.height.toNat 0 k
    (by rw [Nat.zero_add]; omega) (by rw [Nat.zero_add]; omega)
  rw [← List.range_eq_range'] at hrows
  refine ⟨?_, flatMap_bufferRow _ _ _ hlenN, ?_⟩
  · unfold Display
    rw [seqRun_some]
    have hz : ((0 : Nat) : Int) = 0 := rfl
    rw [hz] at hrows
    rw [hrows, seqRun_some, seqRun_some,
      show WaitUntilIdle busy (fuel + 1) (k + d.height.toNat) =
        some ([Event.busyGet false], k + d.height.toNat + 1)
      from pollBusy_idle _ _ _ _ (hidle _)]
    simp only [Option.map_some', setMemoryArea, (toByte_wrap16 _).1, (toByte_wrap16 _).2,
      List.append_assoc]
    have hw : wrap16 (d.logicalWidth - 1) = d.logicalWidth - 1 :=
      wrap16_id (by unfold isInt16; omega)
    rw [hw]
    rfl
  · intro j hj
    apply bufferRow_length
    rw [hlenN]
    exact Nat.mul_le_mul_right _ (by omega)

/-- Witness for C15: an 8x2 panel whose buffer holds `0xAA, 0x55`, busy pin
idle. -/
theorem Display_streams_witness :
    Display panel8x2 (fun _ => false) 1 0 = some
      (panel8x2, none,
        SendCommand 0x44 ++ SendData 0 ++ SendData 0 ++
        SendCommand 0x45 ++ SendData 0 ++ SendData 0 ++ SendData 1 ++ SendData 0 ++
        (SendCommand 0x4E ++ SendData 0 ++ SendCommand 0x4F ++ SendData 0 ++ SendData 0 ++
          [Event.busyGet false] ++ SendCommand 0x24 ++ SendData 0xAA) ++
        (SendCommand 0x4E ++ SendData 0 ++ SendCommand 0x4F ++ SendData 1 ++ SendData 0 ++
          [Event.busyGet false] ++ SendCommand 0x24 ++ SendData 0x55) ++
        SendCommand 0x22 ++ SendData 0xC7 ++ SendCommand 0x20 ++ [Event.busyGet false], 3) :=
  (Display_streams panel8x2 (fun _ => false) 0 0 (by decide) (by decide)
    (by decide) (by decide) (by decide) (by decide) (by decide) (fun _ => rfl)).1

end epd2in9v2

/-! ## Busy-wait -/

theorem pollBusy_returns (ms : Nat) (busy : Nat → Bool) :
    ∀ (n k fuel : Nat), (∀ i, i < n → busy (k + i) = true) → busy (k + n) = false →
      n < fuel → pollBusy ms busy fuel k = some (pollTrace ms n, k + n + 1) := by
  intro n
  induction n with
  | zero =>
    intro k fuel _ hidle hfuel
    obtain ⟨f, rfl⟩ : ∃ f, fuel = f + 1 := ⟨fuel - 1, by omega⟩
    exact pollBusy_idle ms busy f k hidle
  | succ n ih =>
    intro k fuel hbusy hidle hfuel
    obtain ⟨f, rfl⟩ : ∃ f, fuel = f + 1 := ⟨fuel - 1, by omega⟩
    have h0 : busy k = true := hbusy 0 (by omega)
    have hrec := ih (k + 1) f
      (fun i hi => by rw [show k + 1 + i = k + (i + 1) by omega]; exact hbusy (i + 1) (by omega))
      (by rw [show k + 1 + n = k + (n + 1) by omega]; exact hidle) (by omega)
    unfold pollBusy
    rw [h0, if_pos rfl, hrec, show k + 1 + n + 1 = k + (n + 1) + 1 by omega]
    rfl

theorem pollBusy_blocks (ms : Nat) (busy : Nat → Bool) :
    ∀ (fuel k : Nat), (∀ i, busy (k + i) = true) → pollBusy ms busy fuel k = none := by
  intro fuel
  induction fuel with
  | zero => intro k _; rfl
  | succ f ih =>
    intro k hbusy
    have h0 : busy k = true := hbusy 0
    have hrec := ih (k + 1)
      (fun i => by rw [show k + 1 + i = k + (i + 1) by omega]; exact hbusy (i + 1))
    unfold pollBusy
    rw [h0, if_pos rfl, hrec]

theorem pollTrace_counts (ms : Nat) (l : Lines) :
    ∀ n : Nat, reads (pollTrace ms n) = n + 1 ∧ sleeps (pollTrace ms n) = List.replicate n ms ∧
      busBytes l (pollTrace ms n) = [] := by
  intro n
  induction n with
  | zero => exact ⟨rfl, rfl, rfl⟩
  | succ n ih =>
    obtain ⟨h1, h2, h3⟩ := ih
    refine ⟨?_, ?_, ?_⟩
    · show reads (pollTrace ms n) + 1 = n + 1 + 1
      rw [h1]
    · show ms :: sleeps (pollTrace ms n) = List.replicate (n + 1) ms
      rw [h2]; rfl
    · exact h3

/-- C24: with the busy pin read as a sequence of readings, if the next `n`
readings report busy and the one after reports idle, then `ssd1681.Wait` and
`epd2in9v2.WaitUntilIdle` return (with any poll budget above `n`) after exactly
`n + 1` reads and `n` sleeps, of 10 ms resp. 100 ms each, without a byte on the
bus; if every reading reports busy, they do not return within any number of
polls. -/
theorem busy_wait_handshake (busy : Nat → Bool) (k : Nat) (l : Lines) :
    (∀ n fuel, (∀ i, i < n → busy (k + i) = true) → busy (k + n) = false → n < fuel →
      ssd1681.Wait busy fuel k = some (pollTrace 10 n, k + n + 1) ∧
      epd2in9v2.WaitUntilIdle busy fuel k = some (pollTrace 100 n, k + n + 1) ∧
      reads (pollTrace 10 n) = n + 1 ∧ reads (pollTrace 100 n) = n + 1 ∧
      sleeps (pollTrace 10 n) = List.replicate n 10 ∧
      sleeps (pollTrace 100 n) = List.replicate n 100 ∧
      busBytes l (pollTrace 10 n) = [] ∧ busBytes l (pollTrace 100 n) = []) ∧
    ((∀ i, busy (k + i) = true) →
      ∀ fuel, ssd1681.Wait busy fuel k = none ∧ epd2in9v2.WaitUntilIdle busy fuel k = none) := by
  refine ⟨fun n fuel hbusy hidle hfuel => ?_, fun hbusy fuel => ?_⟩
  · have c1 := pollTrace_counts 10 l n
    have c2 := pollTrace_counts 100 l n
    exact ⟨pollBusy_returns 10 busy n k fuel hbusy hidle hfuel,
      pollBusy_returns 100 busy n k fuel hbusy hidle hfuel,
      c1.1, c2.1, c1.2.1, c2.2.1, c1.2.2, c2.2.2⟩
  · exact ⟨pollBusy_blocks 10 busy fuel k hbusy, pollBusy_blocks 100 busy fuel k hbusy⟩

/-- Witness for C24: a pin that is busy for two readings and idle from the
third on is read three times with two sleeps; a pin that is always busy gives
no return within 1000 polls. -/
theorem busy_wait_handshake_witness :
    ssd1681.Wait (fun i => decide (i < 2)) 3 0
        = some ([Event.busyGet true, Event.sleep 10, Event.busyGet true, Event.sleep 10,
            Event.busyGet false], 3) ∧
      epd2in9v2.WaitUntilIdle (fun i => decide (i < 2)) 3 0
        = some ([Event.busyGet true, Event.sleep 100, Event.busyGet true, Event.sleep 100,
            Event.busyGet false], 3) ∧
      ssd1681.Wait (fun _ => true) 1000 0 = none ∧
      epd2in9v2.WaitUntilIdle (fun _ => true) 1000 0 = none :=
  have h := (busy_wait_handshake (fun i => decide (i < 2)) 0 ⟨none, none⟩).1 2 3
    (fun i hi => by simp [hi]) (by decide) (by decide)
  have h2 := (busy_wait_handshake (fun _ => true) 0 ⟨none, none⟩).2 (fun _ => rfl) 1000
  ⟨h.1, h.2.1, h2.1, h2.2⟩

/-! ## Colour quantisation of `ssd1681` -/

namespace ssd1681

set_option maxRecDepth 100000 in
theorem widen_channel : ∀ v, v < 256 → v ||| (v <<< 8) = v * 257 := by decide

theorem grayY_eq (c : RGBA) (hR : c.R ≤ 255) (hG : c.G ≤ 255) (hB : c.B ≤ 255) :
    grayY c = (19595 * (c.R * 257) + 38470 * (c.G * 257) + 7471 * (c.B * 257) + 32768)
      / 16777216 := by
  unfold grayY
  simp only [widen_channel c.R (by omega), widen_channel c.G (by omega),
    widen_channel c.B (by omega), Nat.shiftRight_eq_div_pow]
  have e : (1 <<< 15 : Nat) = 32768 := by decide
  have e2 : (2 ^ 24 : Nat) = 16777216 := by decide
  rw [e, e2]
  have hs : 19595 * (c.R * 257) + 38470 * (c.G * 257) + 7471 * (c.B * 257) + 32768
      < 4294967296 := by omega
  rw [Nat.mod_eq_of_lt hs]
  apply Nat.mod_eq_of_lt
  omega

theorem colBit_mono (c c1 : RGBA) (hR : c1.R ≤ 255) (hG : c1.G ≤ 255) (hB : c1.B ≤ 255)
    (h1 : c.R ≤ c1.R) (h2 : c.G ≤ c1.G) (h3 : c.B ≤ c1.B) : colBit c ≤ colBit c1 := by
  have e := grayY_eq c (by omega) (by omega) (by omega)
  have e1 := grayY_eq c1 hR hG hB
  have hle : grayY c ≤ grayY c1 := by
    rw [e, e1]; omega
  unfold colBit
  split <;> split <;> omega

end ssd1681

/-! ## Rotation as a bijection -/

namespace epd2in9v2

theorem nativeCanvas_cases (d : Device) (hr : d.rotation ≤ 3) :
    (d.rotation = NO_ROTATION ∧ nativeCanvas d = (d.width, d.height)) ∨
    (d.rotation = ROTATION_90 ∧ nativeCanvas d = (d.height, d.width)) ∨
    (d.rotation = ROTATION_180 ∧ nativeCanvas d = (d.width, d.height)) ∨
    (d.rotation = ROTATION_270 ∧ nativeCanvas d = (d.height, d.width)) := by
  unfold nativeCanvas NO_ROTATION ROTATION_90 ROTATION_180 ROTATION_270
  have hcases : d.rotation = 0 ∨ d.rotation = 1 ∨ d.rotation = 2 ∨ d.rotation = 3 := by omega
  rcases hcases with h | h | h | h <;> rw [h] <;> simp

/-- C26: for a device with `0 < width`, `0 < height` and one of the four
rotations, `xy` maps the canvas `[0, w') x [0, h')` (native size, swapped for
90 and 270 degrees) into `[0, width) x [0, height)`, is injective on the canvas
and reaches every native pixel; under 180 degrees it is its own inverse. -/
theorem xy_bijection (d : Device) (hw : 0 < d.width) (hw2 : d.width ≤ 32767)
    (hh : 0 < d.height) (hh2 : d.height ≤ 32767) (hr : d.rotation ≤ 3) :
    (∀ x y : Int, 0 ≤ x → x < (nativeCanvas d).1 → 0 ≤ y → y < (nativeCanvas d).2 →
      0 ≤ (xy d x y).1 ∧ (xy d x y).1 < d.width ∧
      0 ≤ (xy d x y).2 ∧ (xy d x y).2 < d.height) ∧
    (∀ x y x1 y1 : Int, 0 ≤ x → x < (nativeCanvas d).1 → 0 ≤ y → y < (nativeCanvas d).2 →
      0 ≤ x1 → x1 < (nativeCanvas d).1 → 0 ≤ y1 → y1 < (nativeCanvas d).2 →
      xy d x y = xy d x1 y1 → x = x1 ∧ y = y1) ∧
    (∀ nx ny : Int, 0 ≤ nx → nx < d.width → 0 ≤ ny → ny < d.height →
      ∃ x y : Int, 0 ≤ x ∧ x < (nativeCanvas d).1 ∧ 0 ≤ y ∧ y < (nativeCanvas d).2 ∧
        xy d x y = (nx, ny)) ∧
    (d.rotation = ROTATION_180 →
      ∀ x y : Int, 0 ≤ x → x < d.width → 0 ≤ y → y < d.height →
        xy d (xy d x y).1 (xy d x y).2 = (x, y)) := by
  have key : ∀ x y : Int, 0 ≤ x → x < (nativeCanvas d).1 → 0 ≤ y → y < (nativeCanvas d).2 →
      (d.rotation = NO_ROTATION ∧ nativeCanvas d = (d.width, d.height) ∧ xy d x y = (x, y)) ∨
      (d.rotation = ROTATION_90 ∧ nativeCanvas d = (d.height, d.width) ∧
        xy d x y = (d.width - 1 - y, x)) ∨
      (d.rotation = ROTATION_180 ∧ nativeCanvas d = (d.width, d.height) ∧
        xy d x y = (d.width - 1 - x, d.height - 1 - y)) ∨
      (d.rotation = ROTATION_270 ∧ nativeCanvas d = (d.height, d.width) ∧
        xy d x y = (y, d.height - 1 - x)) := by
    intro x y hx hx2 hy hy2
    rcases nativeCanvas_cases d hr with ⟨h, hc⟩ | ⟨h, hc⟩ | ⟨h, hc⟩ | ⟨h, hc⟩
    · exact Or.inl ⟨h, hc, xy_rot0 d x y h⟩
    · rw [hc] at hx2 hy2; simp only at hx2 hy2
      exact Or.inr (Or.inl ⟨h, hc, xy_rot90 d x y h (by unfold isInt16; omega)⟩)
    · rw [hc] at hx2 hy2; simp only at hx2 hy2
      exact Or.inr (Or.inr (Or.inl ⟨h, hc, xy_rot180 d x y h (by unfold isInt16; omega)
        (by unfold isInt16; omega)⟩))
    · rw [hc] at hx2 hy2; simp only at hx2 hy2
      exact Or.inr (Or.inr (Or.inr ⟨h, hc, xy_rot270 d x y h (by unfold isInt16; omega)⟩))
  refine ⟨?_, ?_, ?_, ?_⟩
  · intro x y hx hx2 hy hy2
    rcases key x y hx hx2 hy hy2 with ⟨_, hc, e⟩ | ⟨_, hc, e⟩ | ⟨_, hc, e⟩ | ⟨_, hc, e⟩ <;>
      (rw [hc] at hx2 hy2; simp only at hx2 hy2; rw [e]; simp only; omega)
  · intro x y x1 y1 hx hx2 hy hy2 hx1 hx12 hy1 hy12 heq
    rcases key x y hx hx2 hy hy2 with ⟨h, _, e⟩ | ⟨h, _, e⟩ | ⟨h, _, e⟩ | ⟨h, _, e⟩ <;>
      rcases key x1 y1 hx1 hx12 hy1 hy12 with ⟨h1, _, e1⟩ | ⟨h1, _, e1⟩ | ⟨h1, _, e1⟩ |
        ⟨h1, _, e1⟩ <;>
      first
        | (rw [e, e1] at heq
           simp only [Prod.mk.injEq] at heq
           omega)
        | (rw [h] at h1; exact absurd h1 (by decide))
  · intro nx ny hnx hnx2 hny hny2
    rcases nativeCanvas_cases d hr with ⟨h, hc⟩ | ⟨h, hc⟩ | ⟨h, hc⟩ | ⟨h, hc⟩
    · refine ⟨nx, ny, ?_⟩
      rw [hc, xy_rot0 d nx ny h]
      exact ⟨hnx, hnx2, hny, hny2, rfl⟩
    · refine ⟨ny, d.width - 1 - nx, ?_⟩
      rw [hc, xy_rot90 d _ _ h (by unfold isInt16; omega)]
      refine ⟨hny, hny2, by omega, by simp only; omega, ?_⟩
      simp only [Prod.mk.injEq, and_true]; omega
    · refine ⟨d.width - 1 - nx, d.height - 1 - ny, ?_⟩
      rw [hc, xy_rot180 d _ _ h (by unfold isInt16; omega) (by unfold isInt16; omega)]
      refine ⟨by omega, by simp only; omega, by omega, by simp only; omega, ?_⟩
      simp only [Prod.mk.injEq]; omega
    · refine ⟨d.height - 1 - ny, nx, ?_⟩
      rw [hc, xy_rot270 d _ _ h (by unfold isInt16; omega)]
      refine ⟨by omega, by simp only; omega, hnx, hnx2, ?_⟩
      simp only [Prod.mk.injEq, true_and]; omega
  · intro h x y hx hx2 hy hy2
    rw [xy_rot180 d x y h (by unfold isInt16; omega) (by unfold isInt16; omega)]
    simp only
    rw [xy_rot180 d _ _ h (by unfold isInt16; omega) (by unfold isInt16; omega)]
    simp only [Prod.mk.injEq]; omega

/-- Witness for C26: on the 122x250 panel under `ROTATION_90` the canvas is
250 x 122; its corners `(0, 0)` and `(249, 121)` go to the native pixels
`(121, 0)` and `(0, 249)`, and the native pixel `(5, 7)` is reached. -/
theorem xy_bijection_witness :
    nativeCanvas (panel122 1) = (250, 122) ∧
      (0 ≤ (xy (panel122 1) 249 121).1 ∧ (xy (panel122 1) 249 121).1 < (panel122 1).width ∧
        0 ≤ (xy (panel122 1) 249 121).2 ∧ (xy (panel122 1) 249 121).2 < (panel122 1).height) ∧
      (∃ x y : Int, 0 ≤ x ∧ x < (nativeCanvas (panel122 1)).1 ∧ 0 ≤ y ∧
        y < (nativeCanvas (panel122 1)).2 ∧ xy (panel122 1) x y = (5, 7)) :=
  have h := xy_bijection (panel122 1) (by decide) (by decide) (by decide) (by decide)
    (by decide)
  ⟨by decide, h.1 249 121 (by decide) (by decide) (by decide) (by decide),
    h.2.2.1 5 7 (by decide) (by decide) (by decide) (by decide)⟩

end epd2in9v2

/-! ## `ClearDisplay` and the panel RAM -/

namespace epd2in9v2

/-- C21 (code defect): on the 8x2 panel with the framebuffer bytes `a, b`, an idle
busy pin and any previous RAM content `p, q`, `ClearDisplay` returns; its
traffic before the call of `Display` (window, address counter `(0, 0)`,
`WRITE_RAM` and two bytes `0xFF`) leaves `0xFF, 0xFF` in the panel RAM, but the
traffic of `Display` that follows stores the framebuffer again, so the RAM
holds `a, b` when `ClearDisplay` returns: it is blank only if the framebuffer
is. -/
theorem ClearDisplay_shows_framebuffer (a b p q : Nat) :
    ∃ t2 k2,
      Display (panelOf a b) (fun _ => false) 1 1 = some (panelOf a b, none, t2, k2) ∧
      ClearDisplay (panelOf a b) (fun _ => false) 1 0
        = some (fillTraffic (panelOf a b) ++ t2, k2) ∧
      panelRAM 1 [p, q] (fillTraffic (panelOf a b)) = [0xFF, 0xFF] ∧
      panelRAM 1 [p, q] (fillTraffic (panelOf a b) ++ t2) = [a, b] := by
  refine ⟨setMemoryArea 0 0 7 1 ++
    ((rowTraffic (panelOf a b) 0 ++ rowTraffic (panelOf a b) 1) ++
      (SendCommand DISPLAY_UPDATE_CONTROL_2 ++ SendData 0xC7 ++ SendCommand MASTER_ACTIVATION ++
        [Event.busyGet false])), 4, ?_, ?_, ?_, ?_⟩
  · rfl
  · rfl
  · simp [panelRAM, fillTraffic, panelOf, setMemoryArea, SendCommand, SendData,
      sendDataCommand, wire, Lines.step, Panel.step, WRITE_RAM, SET_RAM_X_ADDRESS_COUNTER,
      SET_RAM_Y_ADDRESS_COUNTER, SET_RAM_X_ADDRESS_START_END_POSITION,
      SET_RAM_Y_ADDRESS_START_END_POSITION, List.replicate]
  · simp [panelRAM, fillTraffic, rowTraffic, bufferRow, panelOf, setMemoryArea, SendCommand,
      SendData, sendDataCommand, wire, Lines.step, Panel.step, WRITE_RAM,
      SET_RAM_X_ADDRESS_COUNTER, SET_RAM_Y_ADDRESS_COUNTER,
      SET_RAM_X_ADDRESS_START_END_POSITION, SET_RAM_Y_ADDRESS_START_END_POSITION,
      DISPLAY_UPDATE_CONTROL_2, MASTER_ACTIVATION, List.replicate]

end epd2in9v2

/-! ## The mock register device of `tester` -/

namespace tester

theorem copy_short (dst src : List Nat) (h : src.length ≤ dst.length) :
    copy dst src = src ++ dst.drop src.length := by
  unfold copy
  rw [List.take_of_length_le h]

theorem copy_long (dst src : List Nat) (h : dst.length ≤ src.length) :
    copy dst src = src.take dst.length := by
  unfold copy
  rw [List.drop_of_length_le h, List.append_nil]

theorem assertRegisterRange_ok (d : I2CContiguousRegisterDevice) (r : Nat) (buf : List Nat)
    (h1 : r < d.Registers.length) (h2 : r + buf.length ≤ d.Registers.length) :
    assertRegisterRange d r buf = (0, true) := by
  unfold assertRegisterRange
  rw [if_neg (by omega), if_neg (by omega)]

theorem assertRegisterRange_fatal (d : I2CContiguousRegisterDevice) (r : Nat) (buf : List Nat)
    (h : d.Registers.length ≤ r ∨ d.Registers.length < r + buf.length) :
    1 ≤ (assertRegisterRange d r buf).1 ∧
      (d.c.returns = false → (assertRegisterRange d r buf).2 = false) := by
  unfold assertRegisterRange
  split_ifs <;> first | omega | simp_all

theorem ReadRegister_ok (d : I2CContiguousRegisterDevice) (r : Nat) (buf : List Nat)
    (hE : d.Err = none) (h1 : r < d.Registers.length)
    (h2 : r + buf.length ≤ d.Registers.length) :
    ReadRegister d r buf = (0, Ending.ret (none, copy buf (d.Registers.drop r))) := by
  unfold ReadRegister
  rw [hE]
  simp only [assertRegisterRange_ok d r buf h1 h2, if_true]
  rw [if_pos (by omega)]

theorem WriteRegister_ok (d : I2CContiguousRegisterDevice) (r : Nat) (buf : List Nat)
    (hE : d.Err = none) (h1 : r < d.Registers.length)
    (h2 : r + buf.length ≤ d.Registers.length) :
    WriteRegister d r buf = (0, Ending.ret (none,
      { d with Registers := d.Registers.take r ++ copy (d.Registers.drop r) buf })) := by
  unfold WriteRegister
  rw [hE]
  simp only [assertRegisterRange_ok d r buf h1 h2, if_true]
  rw [if_pos (by omega)]

/-- The registers after a write in range: the bytes of `buf` stand at
`r, r+1, ...` between the untouched parts. -/
theorem write_registers (regs buf : List Nat) (r : Nat) (h : r + buf.length ≤ regs.length) :
    regs.take r ++ copy (regs.drop r) buf = regs.take r ++ (buf ++ regs.drop (r + buf.length)) := by
  rw [copy_short _ _ (by rw [List.length_drop]; omega), List.drop_drop]

/-- C22 (counterexample): the fresh device with a failer that stops the
caller has `Err == nil`, and `r = 200` with the empty slice satisfies
`r + len(buf) <= MaxRegisters`, but `WriteRegister(200, [])` calls `Fatalf`
and does not return `nil`; `ReadRegister(200, [])` does the same. -/
theorem WriteRegister_end_of_array :
    freshDevice.Err = none ∧ 200 + ([] : List Nat).length ≤ MaxRegisters ∧
      WriteRegister freshDevice 200 [] = (1, Ending.stopped) ∧
      ReadRegister freshDevice 200 [] = (1, Ending.stopped) := by
  have hl : freshDevice.Registers.length = 200 := List.length_replicate _ _
  refine ⟨rfl, Nat.le_refl 200, ?_, ?_⟩
  · unfold WriteRegister assertRegisterRange
    rw [hl]
    rfl
  · unfold ReadRegister assertRegisterRange
    rw [hl]
    rfl

/-- C22 (amended): for a device whose register array has `MaxRegisters`
entries.  With `Err == nil`, `r < MaxRegisters` and
`r + len(buf) <= MaxRegisters`, `WriteRegister(r, buf)` returns `nil` without a
call of `Fatalf`, sets `Registers[r+i] = buf[i]` for `i < len(buf)`, changes
no other register and no other field, and a following `ReadRegister(r, out)`
with `len(out) = len(buf)` returns `nil` with `out = buf`.  With `Err` non-nil
both operations return `Err` without a call of `Fatalf` and change neither the
device nor the buffer.  With `Err == nil` and `r >= MaxRegisters` or
`r + len(buf) > MaxRegisters` both operations call `Fatalf`, and do not return
when `Fatalf` does not. -/
theorem register_round_trip (d : I2CContiguousRegisterDevice) (r : Nat) (buf out : List Nat)
    (hlen : d.Registers.length = MaxRegisters) :
    (d.Err = none → r < MaxRegisters → r + buf.length ≤ MaxRegisters →
      out.length = buf.length →
      ∃ d1, WriteRegister d r buf = (0, Ending.ret (none, d1)) ∧
        d1.Registers.length = MaxRegisters ∧ d1.c = d.c ∧ d1.addr = d.addr ∧ d1.Err = d.Err ∧
        (∀ i, i < buf.length → d1.Registers.getD (r + i) 0 = buf.getD i 0) ∧
        (∀ j, j < r ∨ r + buf.length ≤ j → d1.Registers.getD j 0 = d.Registers.getD j 0) ∧
        ReadRegister d1 r out = (0, Ending.ret (none, buf))) ∧
    (∀ e, d.Err = some e →
      WriteRegister d r buf = (0, Ending.ret (some e, d)) ∧
      ReadRegister d r out = (0, Ending.ret (some e, out))) ∧
    (d.Err = none → MaxRegisters ≤ r ∨ MaxRegisters < r + buf.length →
      1 ≤ (WriteRegister d r buf).1 ∧ 1 ≤ (ReadRegister d r buf).1 ∧
      (d.c.returns = false →
        (WriteRegister d r buf).2 = Ending.stopped ∧
        (ReadRegister d r buf).2 = Ending.stopped)) := by
  refine ⟨?_, ?_, ?_⟩
  · intro hE hr hrb ho
    rw [← hlen] at hr hrb
    have hw : WriteRegister d r buf = (0, Ending.ret (none,
        { d with Registers := d.Registers.take r ++ (buf ++ d.Registers.drop (r + buf.length)) }))
        := by
      rw [WriteRegister_ok d r buf hE hr hrb, write_registers _ _ _ hrb]
    have hl : (d.Registers.take r ++ (buf ++ d.Registers.drop (r + buf.length))).length
        = d.Registers.length := by
      simp only [List.length_append, List.length_take, List.length_drop]
      omega
    refine ⟨_, hw, by rw [← hlen]; exact hl, rfl, rfl, rfl, ?_, ?_, ?_⟩
    · intro i hi
      show (d.Registers.take r ++ (buf ++ d.Registers.drop (r + buf.length))).getD (r + i) 0 = _
      rw [List.getD_append_right _ _ _ _ (by rw [List.length_take]; omega)]
      rw [List.length_take, Nat.min_eq_left (by omega), Nat.add_sub_cancel_left]
      rw [List.getD_append _ _ _ _ hi]
    · intro j hj
      show (d.Registers.take r ++ (buf ++ d.Registers.drop (r + buf.length))).getD j 0 = _
      rcases hj with hj | hj
      · rw [List.getD_append _ _ _ _ (by rw [List.length_take]; omega)]
        simp only [List.getD_eq_getElem?_getD, List.getElem?_take, if_pos hj]
      · rw [List.getD_append_right _ _ _ _ (by rw [List.length_take]; omega)]
        rw [List.length_take, Nat.min_eq_left (by omega)]
        rw [List.getD_append_right _ _ _ _ (by omega)]
        simp only [List.getD_eq_getElem?_getD, List.getElem?_drop]
        congr 2
        omega
    · refine (ReadRegister_ok
        { d with Registers := d.Registers.take r ++ (buf ++ d.Registers.drop (r + buf.length)) }
        r out hE (by show r < _; rw [hl]; exact hr)
        (by show r + _ ≤ _; rw [hl, ho]; exact hrb)).trans ?_
      show (0, Ending.ret (none, copy out
        ((d.Registers.take r ++ (buf ++ d.Registers.drop (r + buf.length))).drop r))) = _
      have hd : (d.Registers.take r ++ (buf ++ d.Registers.drop (r + buf.length))).drop r
          = buf ++ d.Registers.drop (r + buf.length) := by
        rw [List.drop_append_of_le_length (by rw [List.length_take]; omega)]
        rw [List.drop_of_length_le (by rw [List.length_take]; omega), List.nil_append]
      rw [hd, copy_long _ _ (by rw [List.length_append]; omega), ho, List.take_left]
  · intro e hE
    unfold WriteRegister ReadRegister
    simp only [hE, and_self]
  · intro hE h
    rw [← hlen] at h
    have ha := assertRegisterRange_fatal d r buf h
    unfold WriteRegister ReadRegister
    simp only [hE]
    refine ⟨?_, ?_, ?_⟩
    · split_ifs <;> exact ha.1
    · split_ifs <;> exact ha.1
    · intro hc
      rw [ha.2 hc]
      exact ⟨rfl, rfl⟩

/-- Witness for C22: on the fresh device, writing `[7, 8, 9]` at register 197
(the last three registers) returns `nil`, and reading three bytes back from
197 gives `[7, 8, 9]`. -/
theorem register_round_trip_witness :
    ∃ d1, WriteRegister freshDevice 197 [7, 8, 9] = (0, Ending.ret (none, d1)) ∧
      d1.Registers.getD 199 0 = 9 ∧
      ReadRegister d1 197 [0, 0, 0] = (0, Ending.ret (none, [7, 8, 9])) :=
  have h := (register_round_trip freshDevice 197 [7, 8, 9] [0, 0, 0]
    (List.length_replicate _ _)).1 rfl (by decide) (by decide) rfl
  h.elim fun d1 hd => ⟨d1, hd.1, hd.2.2.2.2.2.1 2 (by decide), hd.2.2.2.2.2.2.2⟩

end tester

/-! ## The mock bus of `tester` -/

namespace tester

theorem AddDevice_none_iff (bus : I2CBus) (d : I2CDevice) :
    AddDevice bus d = none ↔ ∃ dev ∈ bus.devices, dev.Addr = d.Addr := by
  unfold AddDevice
  split_ifs with h
  · simp only [true_iff]
    rw [List.any_eq_true] at h
    obtain ⟨dev, hm, he⟩ := h
    exact ⟨dev, hm, by simpa using he⟩
  · simp only [reduceCtorEq, false_iff]
    rintro ⟨dev, hm, he⟩
    exact h (List.any_eq_true.mpr ⟨dev, hm, by simpa using he⟩)

theorem AddDevice_some (bus bus1 : I2CBus) (d : I2CDevice) (h : AddDevice bus d = some bus1) :
    bus1 = { bus with devices := bus.devices ++ [d] } ∧
      ∀ dev ∈ bus.devices, dev.Addr ≠ d.Addr := by
  have hn : ¬ ∃ dev ∈ bus.devices, dev.Addr = d.Addr := by
    rw [← AddDevice_none_iff, h]
    simp
  refine ⟨?_, fun dev hm he => hn ⟨dev, hm, he⟩⟩
  unfold AddDevice at h
  split_ifs at h
  exact (Option.some.inj h).symm

theorem AddDevice_fresh (bus : I2CBus) (d : I2CDevice)
    (h : ∀ dev ∈ bus.devices, dev.Addr ≠ d.Addr) :
    AddDevice bus d = some { bus with devices := bus.devices ++ [d] } := by
  unfold AddDevice
  rw [if_neg]
  intro hany
  rw [List.any_eq_true] at hany
  obtain ⟨dev, hm, he⟩ := hany
  exact h dev hm (by simpa using he)

theorem AddDevice_nodup (bus bus1 : I2CBus) (d : I2CDevice) (h : AddDevice bus d = some bus1)
    (hn : (bus.devices.map I2CDevice.Addr).Nodup) : (bus1.devices.map I2CDevice.Addr).Nodup := by
  obtain ⟨e, hf⟩ := AddDevice_some bus bus1 d h
  rw [e]
  show ((bus.devices ++ [d]).map I2CDevice.Addr).Nodup
  rw [List.map_append, List.nodup_append]
  refine ⟨hn, List.nodup_singleton _, ?_⟩
  intro a ha hb
  rw [List.map_singleton, List.mem_singleton] at hb
  rw [List.mem_map] at ha
  obtain ⟨dev, hm, he⟩ := ha
  exact hf dev hm (he.trans hb)

theorem Reachable_nodup (bus : I2CBus) (h : Reachable bus) :
    (bus.devices.map I2CDevice.Addr).Nodup := by
  induction h with
  | new c => exact List.nodup_nil
  | add bus bus1 d _ hadd ih => exact AddDevice_nodup bus bus1 d hadd ih
  | newDevice bus bus1 addr dev _ hnew ih =>
    unfold NewContiguousRegisterDevice at hnew
    simp only at hnew
    split at hnew
    · exact absurd hnew (by simp)
    · rename_i b hb
      have e : b = bus1 := (Prod.mk.inj (Option.some.inj hnew)).1
      rw [← e]
      exact AddDevice_nodup bus b _ hb ih

theorem FindDevice_found (bus : I2CBus) (dev : I2CDevice) (hm : dev ∈ bus.devices)
    (hn : (bus.devices.map I2CDevice.Addr).Nodup) :
    FindDevice bus dev.Addr = (0, Ending.ret dev) := by
  unfold FindDevice
  cases hf : bus.devices.find? (fun d => d.Addr == dev.Addr) with
  | none =>
    rw [List.find?_eq_none] at hf
    exact absurd (hf dev hm) (by simp)
  | some dev1 =>
    have h1 : dev1.Addr = dev.Addr := by simpa using List.find?_some hf
    have h2 : dev1 ∈ bus.devices := List.mem_of_find?_eq_some hf
    have e : dev1 = dev := List.inj_on_of_nodup_map hn h2 hm h1
    rw [e]

theorem FindDevice_missing (bus : I2CBus) (addr : Nat)
    (h : ∀ dev ∈ bus.devices, dev.Addr ≠ addr) :
    FindDevice bus addr = (1, if bus.c.returns then Ending.panicked else Ending.stopped) := by
  unfold FindDevice
  have hf : bus.devices.find? (fun d => d.Addr == addr) = none := by
    rw [List.find?_eq_none]
    intro dev hm
    simpa using h dev hm
  rw [hf]
  split_ifs <;> rfl

/-- C23: on every bus, `AddDevice(d)` panics if and only if a device with
the address of `d` is on the bus, and otherwise appends `d` and changes nothing
else; `NewContiguousRegisterDevice(addr)` panics under the same condition.  On
every bus reachable from `NewI2CBus` by `AddDevice` and
`NewContiguousRegisterDevice` the addresses are pairwise distinct,
`FindDevice(addr)` returns the one device with that address without a call of
`Fatalf` when there is one, and calls `Fatalf` once and does not return a
device when there is none. -/
theorem bus_address_uniqueness (bus : I2CBus) (h : Reachable bus) :
    (∀ d : I2CDevice,
      (AddDevice bus d = none ↔ ∃ dev ∈ bus.devices, dev.Addr = d.Addr) ∧
      ((∀ dev ∈ bus.devices, dev.Addr ≠ d.Addr) →
        AddDevice bus d = some { bus with devices := bus.devices ++ [d] })) ∧
    (∀ addr : Nat,
      NewContiguousRegisterDevice bus addr = none ↔ ∃ dev ∈ bus.devices, dev.Addr = addr) ∧
    (bus.devices.map I2CDevice.Addr).Nodup ∧
    (∀ dev ∈ bus.devices,
      FindDevice bus dev.Addr = (0, Ending.ret dev) ∧
      ∀ dev1 ∈ bus.devices, dev1.Addr = dev.Addr → dev1 = dev) ∧
    (∀ addr : Nat, (∀ dev ∈ bus.devices, dev.Addr ≠ addr) →
      (FindDevice bus addr).1 = 1 ∧ ∀ dev, (FindDevice bus addr).2 ≠ Ending.ret dev) := by
  have hn := Reachable_nodup bus h
  refine ⟨fun d => ⟨AddDevice_none_iff bus d, AddDevice_fresh bus d⟩, ?_, hn, ?_, ?_⟩
  · intro addr
    have hi := AddDevice_none_iff bus
      (I2CDevice.contiguous (NewI2CContiguousRegisterDevice bus.c addr))
    refine Iff.trans ?_ hi
    unfold NewContiguousRegisterDevice
    simp only
    split
    · rename_i hnone
      simp only [hnone]
    · rename_i b hsome
      simp only [hsome, reduceCtorEq]
  · intro dev hm
    exact ⟨FindDevice_found bus dev hm hn,
      fun dev1 hm1 he => List.inj_on_of_nodup_map hn hm1 hm he⟩
  · intro addr hmiss
    rw [FindDevice_missing bus addr hmiss]
    refine ⟨rfl, fun dev => ?_⟩
    show (if bus.c.returns then Ending.panicked else Ending.stopped) ≠ Ending.ret dev
    split_ifs <;> simp

/-- Witness for C23: the bus that `NewContiguousRegisterDevice(0x40)` makes
from a new bus is reachable; on it a second device at `0x40` makes `AddDevice`
panic, `FindDevice(0x40)` returns the device and `FindDevice(0x41)` calls
`Fatalf`. -/
theorem bus_address_uniqueness_witness :
    AddDevice oneDeviceBus (I2CDevice.classic (NewI2CClassicDevice ⟨false⟩ 0x40)) = none ∧
      FindDevice oneDeviceBus 0x40 = (0, Ending.ret (I2CDevice.contiguous freshDevice)) ∧
      (FindDevice oneDeviceBus 0x41).1 = 1 :=
  have h := bus_address_uniqueness oneDeviceBus
    (Reachable.newDevice (NewI2CBus ⟨false⟩) oneDeviceBus 0x40 freshDevice
      (Reachable.new ⟨false⟩) rfl)
  ⟨(h.1 (I2CDevice.classic (NewI2CClassicDevice ⟨false⟩ 0x40))).1.mpr
      ⟨I2CDevice.contiguous freshDevice, List.mem_singleton.mpr rfl, rfl⟩,
    (h.2.2.2.1 (I2CDevice.contiguous freshDevice) (List.mem_singleton.mpr rfl)).1,
    (h.2.2.2.2 0x41 (fun dev hm => by
      rw [List.mem_singleton.mp hm]; decide)).1⟩

end tester

/-! ## `SetPixel` on a device whose buffer length wrapped around -/

namespace ssd1681

/-- When the `int16` product `((width+7)/8) * height` does not wrap around,
`Configure` returns a device whose buffer has `ceil(width, 8) * height` bytes,
the length that `SetPixel_spec` and `FillRectangle` need. -/
theorem Configure_fits (cfg : Config) (hw0 : 0 < cfg.Width) (hw : cfg.Width ≤ 32760)
    (hh0 : 0 < cfg.Height) (hcap : (cfg.Width + 7) / 8 * cfg.Height ≤ 32767) :
    ∃ d, Configure cfg = some d ∧ d.width = cfg.Width ∧ d.height = cfg.Height ∧
      (d.buffer.length : Int) = ceil d.width 8 * d.height ∧
      ceil d.width 8 * d.height ≤ 32767 := by
  have e1 : wrap16 (cfg.Width + 7) = cfg.Width + 7 := wrap16_id (by unfold isInt16; omega)
  have e2 : Int.tdiv (cfg.Width + 7) 8 = (cfg.Width + 7) / 8 :=
    Int.tdiv_eq_ediv (by omega) (by omega)
  have e3 : wrap16 ((cfg.Width + 7) / 8) = (cfg.Width + 7) / 8 :=
    wrap16_id (by unfold isInt16; omega)
  have hp : 0 ≤ (cfg.Width + 7) / 8 * cfg.Height :=
    Int.mul_nonneg (by omega) (by omega)
  have e4 : wrap16 ((cfg.Width + 7) / 8 * cfg.Height) = (cfg.Width + 7) / 8 * cfg.Height :=
    wrap16_id (by unfold isInt16; omega)
  have hc : ceil cfg.Width 8 = (cfg.Width + 7) / 8 := ceil_eq (by omega) hw
  refine ⟨(⟨cfg.Width, cfg.Height,
    List.replicate ((cfg.Width + 7) / 8 * cfg.Height).toNat 0⟩ : Device), ?_, rfl, rfl, ?_, ?_⟩
  · unfold Configure
    simp only [if_neg (show ¬ cfg.Width = 0 by omega), if_neg (show ¬ cfg.Height = 0 by omega),
      e1, e2, e3, e4, if_neg (show ¬ (cfg.Width + 7) / 8 * cfg.Height < 0 by omega)]
  · show ((List.replicate _ 0).length : Int) = ceil cfg.Width 8 * cfg.Height
    rw [List.length_replicate, hc, Int.toNat_of_nonneg hp]
  · show ceil cfg.Width 8 * cfg.Height ≤ 32767
    rw [hc]; exact hcap

/-- C11 (code defect): `Configure(Config{Width: 2000, Height: 300})` returns a
device with 9464 buffer bytes, because the `int16` length `250 * 300` wraps
around.  On that device the pixel `(0, 38)` is inside `[0, width) x [0, height)`,
yet `SetPixel(0, 38, c)` does not return for any colour: `FillRectangle`
computes the byte index `38 * 250 = 9500`, which is outside the buffer, and the
write panics. -/
theorem SetPixel_panics_after_wrap (c : RGBA) :
    Configure ⟨2000, 300⟩
        = some { width := 2000, height := 300, buffer := List.replicate 9464 0 } ∧
      ¬ ((0 : Int) < 0 ∨ (38 : Int) < 0 ∨ (0 : Int) ≥ 2000 ∨ (38 : Int) ≥ 300) ∧
      wrap16 (wrap16 (38 * ceil 2000 8) + 0 / 8) = 9500 ∧
      FillRectangle { width := 2000, height := 300, buffer := List.replicate 9464 0 } 0 38 1 1 c
        = none ∧
      SetPixel { width := 2000, height := 300, buffer := List.replicate 9464 0 } 0 38 c
        = none := by
  have h1 : wrap16 (wrap16 (Int.tdiv (wrap16 (2000 + 7)) 8) * 300) = 9464 := by decide
  have hidx : wrap16 (wrap16 (38 * ceil 2000 8) + 0 / 8) = 9500 := by decide
  have hin : ¬ ((0 : Int) < 0 ∨ (38 : Int) < 0 ∨ (0 : Int) ≥ 2000 ∨ (38 : Int) ≥ 300) := by
    decide
  have hfill : FillRectangle
      { width := 2000, height := 300, buffer := List.replicate 9464 0 } 0 38 1 1 c = none := by
    rw [FillRectangle_one _ 0 38 c (by decide) (by decide) hin]
    show (if 0 ≤ wrap16 (wrap16 (38 * ceil 2000 8) + 0 / 8) ∧
        wrap16 (wrap16 (38 * ceil 2000 8) + 0 / 8) < ((List.replicate 9464 0).length : Int)
      then _ else none) = none
    rw [hidx, List.length_replicate, if_neg (by decide)]
  refine ⟨?_, hin, hidx, hfill, ?_⟩
  · unfold Configure
    simp only [show ¬ ((2000 : Int) = 0) by decide, show ¬ ((300 : Int) = 0) by decide,
      if_false, h1]
    rfl
  · unfold SetPixel
    rw [if_neg hin, hfill]

end ssd1681

/-! ## The bit `FillRectangle` writes -/

namespace ssd1681

/-- The bits `FillRectangle` writes: on a device whose buffer has
`ceil(width, 8) * height ≤ 32767` bytes and for a rectangle inside the panel,
the call returns `nil` and the bit of every pixel is `1` exactly when the
luminance is at least 128 inside the rectangle, and its previous value
outside. -/
theorem FillRectangle_pixels (d : Device) (x y w h : Int) (c : RGBA)
    (hW : isInt16 d.width) (hH : isInt16 d.height)
    (hlen : (d.buffer.length : Int) = ceil d.width 8 * d.height)
    (hcap : ceil d.width 8 * d.height ≤ 32767)
    (hx : 0 ≤ x) (hy : 0 ≤ y) (hw : 0 < w) (hh : 0 < h)
    (hxw : x + w ≤ d.width) (hyh : y + h ≤ d.height) :
    ∃ buf, FillRectangle d x y w h c = some ({ d with buffer := buf }, none) ∧
      buf.length = d.buffer.length ∧
      ∀ px py : Int, 0 ≤ px → px < 8 * ceil d.width 8 → 0 ≤ py → py < d.height →
        pixelBit d.width buf px py =
          if x ≤ px ∧ px < x + w ∧ y ≤ py ∧ py < y + h then decide (128 ≤ grayY c)
          else pixelBit d.width d.buffer px py := by
  have hdw : d.width ≤ 32760 :=
    ceil_of_buffer d.width d.height d.buffer.length hW (by omega) hlen
  have hH2 : d.height ≤ 32767 := hH.2
  obtain ⟨buf, r1, r2, _, r4⟩ := fillRows_spec d.width d.height x y w h (colBit c)
    (colBit_cases c) (by omega) hdw hx (by omega) hxw (by omega) hyh hH.2 hcap
    (y + h - y).toNat y d.buffer rfl hy hlen
  have e1 : wrap16 (x + w) = x + w := wrap16_id (by unfold isInt16; omega)
  have e2 : wrap16 (y + h) = y + h := wrap16_id (by unfold isInt16; omega)
  refine ⟨buf, ?_, r2, ?_⟩
  · unfold FillRectangle
    rw [if_neg (by rw [e1, e2]; omega), r1]
  · intro px py hpx hpx2 hpy _
    rw [r4 px py hpx hpx2 hpy, colBit_white_iff]

/-- C25: for a colour `c` with byte channels, the luminance is
`Y = (19595*R' + 38470*G' + 7471*B' + 32768) >> 24` with `R' = R*257`,
`G' = G*257`, `B' = B*257`.  On every device whose buffer has
`ceil(width, 8) * height ≤ 32767` bytes and for every rectangle inside the
panel, `FillRectangle` returns `nil` and leaves in the bit of every pixel of the
rectangle the value `1` when `128 ≤ Y` and `0` when `Y < 128`, and in every
other pixel bit its previous value.  The byte `colBit` from which the bit is
taken is `0` when `Y < 128` and `255` otherwise; neither depends on alpha;
`FillRectangle` depends on the colour only through `Y`; white gives `255` and
black `0`; and `colBit` is monotone non-decreasing in `R`, `G` and `B`. -/
theorem colour_quantisation (c : RGBA) (hR : c.R ≤ 255) (hG : c.G ≤ 255) (hB : c.B ≤ 255) :
    grayY c = (19595 * (c.R * 257) + 38470 * (c.G * 257) + 7471 * (c.B * 257) + 32768)
      / 2 ^ 24 ∧
    (∀ (d : Device) (x y w h : Int), isInt16 d.width → isInt16 d.height →
      (d.buffer.length : Int) = ceil d.width 8 * d.height →
      ceil d.width 8 * d.height ≤ 32767 →
      0 ≤ x → 0 ≤ y → 0 < w → 0 < h → x + w ≤ d.width → y + h ≤ d.height →
      ∃ buf, FillRectangle d x y w h c = some ({ d with buffer := buf }, none) ∧
        buf.length = d.buffer.length ∧
        ∀ px py : Int, 0 ≤ px → px < 8 * ceil d.width 8 → 0 ≤ py → py < d.height →
          pixelBit d.width buf px py =
            if x ≤ px ∧ px < x + w ∧ y ≤ py ∧ py < y + h then decide (128 ≤ grayY c)
            else pixelBit d.width d.buffer px py) ∧
    colBit c = (if grayY c < 128 then 0 else 255) ∧
    (∀ s, s < 8 → (colBit c).testBit s = decide (128 ≤ grayY c)) ∧
    (∀ a, grayY { c with A := a } = grayY c ∧ colBit { c with A := a } = colBit c) ∧
    (∀ (d : Device) (x y w h : Int) (c1 : RGBA), grayY c1 = grayY c →
      FillRectangle d x y w h c1 = FillRectangle d x y w h c) ∧
    colBit white = 255 ∧ colBit black = 0 ∧
    (∀ c1 : RGBA, c1.R ≤ 255 → c1.G ≤ 255 → c1.B ≤ 255 →
      c.R ≤ c1.R → c.G ≤ c1.G → c.B ≤ c1.B →
      colBit c ≤ colBit c1 ∧ (128 ≤ grayY c → 128 ≤ grayY c1)) := by
  refine ⟨grayY_eq c hR hG hB, ?_, rfl, ?_, fun a => ⟨rfl, rfl⟩, ?_, by decide, by decide, ?_⟩
  · intro d x y w h hW hH hlen hcap hx hy hw hh hxw hyh
    exact FillRectangle_pixels d x y w h c hW hH hlen hcap hx hy hw hh hxw hyh
  · intro s hs
    have h0 : ∀ s, s < 8 → Nat.testBit 0 s = false ∧ Nat.testBit 255 s = true := by decide
    unfold colBit
    split_ifs with hlt
    · rw [(h0 s hs).1]; symm; simpa using hlt
    · rw [(h0 s hs).2]; symm; simpa using hlt
  · intro d x y w h c1 hY
    have hcb : colBit c1 = colBit c := by unfold colBit; rw [hY]
    unfold FillRectangle
    rw [hcb]
  · intro c1 h1 h2 h3 h4 h5 h6
    have hm := colBit_mono c c1 h1 h2 h3 h4 h5 h6
    refine ⟨hm, fun hY => ?_⟩
    unfold colBit at hm
    split_ifs at hm <;> omega

/-- Witness for C25: on the 200x200 panel with the all-zero buffer,
`FillRectangle(5, 5, 10, 1, c)` with the mid-grey `c = RGBA(128, 128, 128, 0)`,
whose luminance is 128, returns `nil` and leaves the bit of pixel `(5, 5)` set
and that of pixel `(4, 5)` clear; `RGBA(127, 127, 127, 255)` has luminance 127
and is not brighter. -/
theorem colour_quantisation_witness :
    grayY ⟨128, 128, 128, 0⟩ = 128 ∧ grayY ⟨127, 127, 127, 255⟩ = 127 ∧
      colBit ⟨127, 127, 127, 255⟩ ≤ colBit ⟨128, 128, 128, 0⟩ ∧
      ∃ buf, FillRectangle panel200 5 5 10 1 ⟨128, 128, 128, 0⟩
          = some ({ panel200 with buffer := buf }, none) ∧
        pixelBit 200 buf 5 5 = true ∧ pixelBit 200 buf 4 5 = false := by
  have hw : panel200.width = 200 := rfl
  have hh : panel200.height = 200 := rfl
  have hb : panel200.buffer = List.replicate 5000 0 := rfl
  have hc : ceil 200 8 = 25 := by decide
  have hY : grayY ⟨128, 128, 128, 0⟩ = 128 := by decide
  have h := colour_quantisation ⟨128, 128, 128, 0⟩ (by decide) (by decide) (by decide)
  have h1 := colour_quantisation ⟨127, 127, 127, 255⟩ (by decide) (by decide) (by decide)
  obtain ⟨buf, e, _, p⟩ := h.2.1 panel200 5 5 10 1
    (by rw [hw]; decide) (by rw [hh]; decide)
    (by rw [hw, hh, hb, hc, List.length_replicate]; rfl) (by rw [hw, hh, hc]; decide)
    (by decide) (by decide) (by decide) (by decide) (by rw [hw]; decide) (by rw [hh]; decide)
  refine ⟨hY, by decide,
    (h1.2.2.2.2.2.2.2.2 ⟨128, 128, 128, 0⟩ (by decide) (by decide) (by decide)
      (by decide) (by decide) (by decide)).1, buf, e, ?_, ?_⟩
  · have := p 5 5 (by decide) (by rw [hw, hc]; decide) (by decide) (by rw [hh]; decide)
    rw [hw, hY, if_pos (by decide)] at this
    rw [this]; rfl
  · have := p 4 5 (by decide) (by rw [hw, hc]; decide) (by decide) (by rw [hh]; decide)
    rw [hw, if_neg (by decide), hb] at this
    rw [this]
    unfold pixelBit
    rw [hc]
    have e0 : ((5 : Int) * 25 + 4 / 8).toNat = 125 := by decide
    rw [e0, List.getD_eq_getElem?_getD, List.getElem?_replicate]
    rfl

end ssd1681

/-! ## Refresh order of `Display` -/

/-- In the trace of every `epd2in9v2.Display` call that returns: the RAM
window and the traffic of the row loop, then `0x22` with data `0xC7` and
`0x20`, then only the final busy-wait. -/
theorem Display_order_epd (d d1 : epd2in9v2.Device) (busy : Nat → Bool) (fuel k k2 : Nat)
    (e : Option String) (t : List Event) (l : Lines)
    (hE : epd2in9v2.Display d busy fuel k = some (d1, e, t, k2)) :
    ∃ rows k1 w,
      epd2in9v2.displayRows d busy fuel d.height.toNat 0 k = some (rows, k1) ∧
      epd2in9v2.WaitUntilIdle busy fuel k1 = some (w, k2) ∧
      t = (epd2in9v2.setMemoryArea 0 0 (wrap16 (d.logicalWidth - 1)) (wrap16 (d.height - 1))
            ++ rows) ++
          (epd2in9v2.SendCommand 0x22 ++ epd2in9v2.SendData 0xC7 ++ epd2in9v2.SendCommand 0x20)
          ++ w ∧
      busBytes l t =
        busBytes l (epd2in9v2.setMemoryArea 0 0 (wrap16 (d.logicalWidth - 1))
          (wrap16 (d.height - 1)) ++ rows) ++ [0x22, 0xC7, 0x20] ∧
      Quiet w := by
  unfold epd2in9v2.Display at hE
  split at hE
  · simp at hE
  · rename_i t0 k4 hrun
    simp only [Option.some.injEq, Prod.mk.injEq] at hE
    obtain ⟨_, _, rfl, rfl⟩ := hE
    rw [seqRun_some] at hrun
    cases hrows : seqRun (epd2in9v2.displayRows d busy fuel d.height.toNat 0 k) (fun k2 =>
        seqRun (some (epd2in9v2.SendCommand epd2in9v2.DISPLAY_UPDATE_CONTROL_2 ++
          epd2in9v2.SendData 0xC7 ++
          epd2in9v2.SendCommand epd2in9v2.MASTER_ACTIVATION, k2)) fun k3 =>
        epd2in9v2.WaitUntilIdle busy fuel k3) with
    | none => rw [hrows] at hrun; simp at hrun
    | some p =>
      rw [hrows] at hrun
      simp only [Option.map_some', Option.some.injEq, Prod.mk.injEq] at hrun
      obtain ⟨ht, hk⟩ := hrun
      obtain ⟨rows, k1, t2, h1, h2, h3⟩ := seqRun_eq_some _ _ p.1 p.2 hrows
      rw [seqRun_some] at h2
      cases hwait : epd2in9v2.WaitUntilIdle busy fuel k1 with
      | none => rw [hwait] at h2; simp at h2
      | some q =>
        rw [hwait] at h2
        simp only [Option.map_some', Option.some.injEq, Prod.mk.injEq] at h2
        obtain ⟨h4, h5⟩ := h2
        have hq : Quiet q.1 := pollBusy_quiet _ _ _ _ _ _ hwait
        have htr : t0 = (epd2in9v2.setMemoryArea 0 0 (wrap16 (d.logicalWidth - 1))
              (wrap16 (d.height - 1)) ++ rows) ++
            (epd2in9v2.SendCommand 0x22 ++ epd2in9v2.SendData 0xC7 ++
              epd2in9v2.SendCommand 0x20) ++ q.1 := by
          rw [← ht, h3, ← h4]
          simp only [List.append_assoc]
          rfl
        refine ⟨rows, k1, q.1, h1, ?_, htr, ?_, hq⟩
        · rw [← hk, ← h5]
          exact hwait
        · rw [htr, busBytes_append, busBytes_append, busBytes_quiet _ _ hq, List.append_nil]
          rfl

/-- In the trace of every `ssd1681.Display` call that returns: the RAM
addressing and the traffic of the row loop, then `DISP_CTRL2` with data `0xF7`
and `MASTER_ACTIVATE`, then only the final busy-wait. -/
theorem Display_order_ssd (r : ssd1681.Registers) (ds ds1 : ssd1681.Device)
    (busys : Nat → Bool) (fuels n n1 : Nat) (es : Option ssd1681.Error) (ts : List Event)
    (l : Lines)
    (hS : ssd1681.Display r ds busys fuels n = some (ds1, es, ts, n1)) :
    ∃ rows w,
      ssd1681.displayRows r ds ds.height.toNat 0 = some rows ∧
      ssd1681.Wait busys fuels n = some (w, n1) ∧
      ts = (ssd1681.Command r.SET_RAMXCOUNT [0] ++ ssd1681.Command r.SET_RAMYCOUNT [0, 0]
            ++ rows) ++
          (ssd1681.Command r.DISP_CTRL2 [0xF7] ++ ssd1681.Command r.MASTER_ACTIVATE []) ++ w ∧
      busBytes l ts =
        busBytes l (ssd1681.Command r.SET_RAMXCOUNT [0] ++ ssd1681.Command r.SET_RAMYCOUNT [0, 0]
          ++ rows) ++ [r.DISP_CTRL2, 0xF7, r.MASTER_ACTIVATE] ∧
      Quiet w := by
  unfold ssd1681.Display at hS
  split at hS
  · simp at hS
  · rename_i rows hrows
    split at hS
    · simp at hS
    · rename_i w k1 hw
      simp only [Option.some.injEq, Prod.mk.injEq] at hS
      obtain ⟨_, _, rfl, rfl⟩ := hS
      have hq : Quiet w := pollBusy_quiet _ _ _ _ _ _ hw
      refine ⟨rows, w, hrows, hw, by simp only [List.append_assoc], ?_, hq⟩
      have e1 : ssd1681.Command r.SET_RAMXCOUNT [0] ++ ssd1681.Command r.SET_RAMYCOUNT [0, 0] ++
          rows ++ ssd1681.Command r.DISP_CTRL2 [0xF7] ++ ssd1681.Command r.MASTER_ACTIVATE [] ++ w
          = (ssd1681.Command r.SET_RAMXCOUNT [0] ++ ssd1681.Command r.SET_RAMYCOUNT [0, 0] ++
              rows) ++ (ssd1681.Command r.DISP_CTRL2 [0xF7] ++
              ssd1681.Command r.MASTER_ACTIVATE []) ++ w := by
        simp only [List.append_assoc]
      rw [e1, busBytes_append, busBytes_append, busBytes_quiet _ _ hq, List.append_nil]
      rfl

/-- `epd2in9v2.Display` returns `nil` on a device whose logical width is a
positive multiple of 8, with `(logicalWidth/8) * height ≤ 32767` buffer bytes,
when the busy pin is idle; it reads the busy pin once per row and once at the
end. -/
theorem Display_returns_epd (d : epd2in9v2.Device) (busy : Nat → Bool) (fuel k : Nat)
    (hlw0 : 0 < d.logicalWidth) (hlw2 : d.logicalWidth ≤ 32767)
    (h8 : d.logicalWidth % 8 = 0) (hh0 : 0 < d.height)
    (hcap : d.logicalWidth / 8 * d.height ≤ 32767)
    (hlen : (d.buffer.length : Int) = d.logicalWidth * d.height / 8)
    (hidle : ∀ i, busy i = false) :
    ∃ t, epd2in9v2.Display d busy (fuel + 1) k = some (d, none, t, k + d.height.toNat + 1) := by
  have hprod : d.logicalWidth * d.height = 8 * (d.logicalWidth / 8 * d.height) := by
    have e1 : d.logicalWidth = 8 * (d.logicalWidth / 8) := by omega
    calc d.logicalWidth * d.height = 8 * (d.logicalWidth / 8) * d.height := by rw [← e1]
      _ = 8 * (d.logicalWidth / 8 * d.height) := by ring
  have hlen2 : (d.buffer.length : Int) = d.logicalWidth / 8 * d.height := by
    rw [hlen, hprod]; omega
  have hcastN : ((d.height.toNat * (d.logicalWidth / 8).toNat : Nat) : Int)
      = d.logicalWidth / 8 * d.height := by
    push_cast
    rw [Int.toNat_of_nonneg (by omega), Int.toNat_of_nonneg (by omega)]
    ring
  have hlenN : d.buffer.length = d.height.toNat * (d.logicalWidth / 8).toNat := by omega
  have hrows := epd2in9v2.displayRows_idle d busy fuel hidle (by omega) hlw2 d.height.toNat 0 k
    (by rw [Nat.zero_add]; omega) (by rw [Nat.zero_add]; omega)
  have hz : ((0 : Nat) : Int) = 0 := rfl
  rw [hz] at hrows
  unfold epd2in9v2.Display
  rw [seqRun_some, hrows, seqRun_some, seqRun_some,
    show epd2in9v2.WaitUntilIdle busy (fuel + 1) (k + d.height.toNat) =
      some ([Event.busyGet false], k + d.height.toNat + 1)
    from pollBusy_idle _ _ _ _ (hidle _)]
  exact ⟨_, rfl⟩

/-- `ssd1681.Display` returns `nil` on a device with `height ≥ 0` whose buffer
has `ceil(width, 8) * height` bytes, when the busy pin reports idle at its
`m`-th reading and more than `m` readings are allowed. -/
theorem Display_returns_ssd (r : ssd1681.Registers) (ds : ssd1681.Device)
    (busys : Nat → Bool) (fuels n m : Nat)
    (hh : 0 ≤ ds.height)
    (hlen : (ds.buffer.length : Int) = ssd1681.ceil ds.width 8 * ds.height)
    (hbusy : ∀ i, i < m → busys (n + i) = true) (hidle : busys (n + m) = false)
    (hfuel : m < fuels) :
    ∃ ts, ssd1681.Display r ds busys fuels n = some (ds, none, ts, n + m + 1) := by
  have hcases : ds.height = 0 ∨ (0 < ds.height ∧ 0 ≤ ssd1681.ceil ds.width 8) := by
    rcases lt_or_ge 0 ds.height with hpos | hle
    · right
      refine ⟨hpos, ?_⟩
      by_contra hneg
      have : ssd1681.ceil ds.width 8 * ds.height < 0 :=
        Int.mul_neg_of_neg_of_pos (by omega) hpos
      omega
    · left; omega
  have hrows : ∃ rows, ssd1681.displayRows r ds ds.height.toNat 0 = some rows := by
    rcases hcases with h0 | ⟨hpos, hm⟩
    · rw [h0]; exact ⟨[], rfl⟩
    · have := ssd1681.displayRows_spec r ds hm ds.height.toNat 0 (by
        have e : ((0 + ds.height.toNat : Nat) : Int) = ds.height := by
          rw [Nat.zero_add, Int.toNat_of_nonneg hh]
        rw [e, hlen]
        exact le_of_eq (by ring))
      exact ⟨_, this⟩
  obtain ⟨rows, hr⟩ := hrows
  have hw : ssd1681.Wait busys fuels n = some (pollTrace 10 m, n + m + 1) :=
    pollBusy_returns 10 busys m n fuels hbusy hidle hfuel
  unfold ssd1681.Display
  rw [hr, hw]
  exact ⟨_, rfl⟩

/-- C17 (counterexample): with a busy pin that never reports idle,
`epd2in9v2.Display` on the 8x2 panel does not return, however many readings are
allowed: it stays in the busy-wait of `setMemoryPointer(0, 0)`.  The bytes sent
before that wait are the RAM window and the address counter; the
master-activation byte `0x20` is not among them and is never sent. -/
theorem Display_blocks_before_activation :
    (∀ fuel k, epd2in9v2.Display epd2in9v2.panel8x2 (fun _ => true) fuel k = none) ∧
      (∀ fuel k, epd2in9v2.setMemoryPointer 0 0 (fun _ => true) fuel k = none) ∧
      busBytes ⟨none, none⟩
        (epd2in9v2.setMemoryArea 0 0 (wrap16 (epd2in9v2.panel8x2.logicalWidth - 1))
            (wrap16 (epd2in9v2.panel8x2.height - 1)) ++
          (epd2in9v2.SendCommand epd2in9v2.SET_RAM_X_ADDRESS_COUNTER ++ epd2in9v2.SendData 0 ++
            epd2in9v2.SendCommand epd2in9v2.SET_RAM_Y_ADDRESS_COUNTER ++
            epd2in9v2.SendData 0 ++ epd2in9v2.SendData 0))
        = [0x44, 0, 0, 0x45, 0, 0, 1, 0, 0x4E, 0, 0x4F, 0, 0] := by
  have hp : ∀ fuel k, epd2in9v2.setMemoryPointer 0 0 (fun _ => true) fuel k = none := by
    intro fuel k
    unfold epd2in9v2.setMemoryPointer
    rw [seqRun_some]
    have hw : epd2in9v2.WaitUntilIdle (fun _ => true) fuel k = none :=
      pollBusy_blocks 100 (fun _ => true) fuel k (fun _ => rfl)
    rw [hw]
    rfl
  refine ⟨?_, hp, by decide⟩
  intro fuel k
  unfold epd2in9v2.Display
  rw [seqRun_some]
  have hrows : epd2in9v2.displayRows epd2in9v2.panel8x2 (fun _ => true) fuel
      epd2in9v2.panel8x2.height.toNat 0 k = none := by
    show epd2in9v2.displayRows epd2in9v2.panel8x2 (fun _ => true) fuel (1 + 1) 0 k = none
    unfold epd2in9v2.displayRows
    rw [hp]
    rfl
  rw [hrows]
  rfl

/-- C17 (amended): in the bus trace of every `Display` call that returns, for
both drivers: first the RAM addressing and the traffic of the row loop, which
carries the framebuffer bytes; then the display-update-control command (`0x22`
with data `0xC7`; `DISP_CTRL2` with data `0xF7`), then the master-activation
command (`0x20`; `MASTER_ACTIVATE`), whose byte is the last one on the bus;
then only the final busy-wait, which reads the busy pin and sleeps.  And
`Display` does return `nil`: for `epd2in9v2` on a device whose logical width is
a positive multiple of 8 with `(logicalWidth/8) * height ≤ 32767` buffer bytes
and an idle busy pin; for `ssd1681` on a device with `ceil(width, 8) * height`
buffer bytes when the busy pin reports idle after finitely many readings. -/
theorem Display_refresh_order (l : Lines) :
    (∀ (d d1 : epd2in9v2.Device) (busy : Nat → Bool) (fuel k k2 : Nat) (e : Option String)
        (t : List Event),
      epd2in9v2.Display d busy fuel k = some (d1, e, t, k2) →
      ∃ rows k1 w,
        epd2in9v2.displayRows d busy fuel d.height.toNat 0 k = some (rows, k1) ∧
        epd2in9v2.WaitUntilIdle busy fuel k1 = some (w, k2) ∧
        t = (epd2in9v2.setMemoryArea 0 0 (wrap16 (d.logicalWidth - 1)) (wrap16 (d.height - 1))
              ++ rows) ++
            (epd2in9v2.SendCommand 0x22 ++ epd2in9v2.SendData 0xC7 ++
              epd2in9v2.SendCommand 0x20) ++ w ∧
        busBytes l t =
          busBytes l (epd2in9v2.setMemoryArea 0 0 (wrap16 (d.logicalWidth - 1))
            (wrap16 (d.height - 1)) ++ rows) ++ [0x22, 0xC7, 0x20] ∧
        Quiet w) ∧
    wire l (epd2in9v2.SendCommand 0x22 ++ epd2in9v2.SendData 0xC7 ++ epd2in9v2.SendCommand 0x20)
      = [(0x22, ⟨some false, some false⟩), (0xC7, ⟨some false, some true⟩),
         (0x20, ⟨some false, some false⟩)] ∧
    (∀ (r : ssd1681.Registers) (ds ds1 : ssd1681.Device) (busys : Nat → Bool)
        (fuels n n1 : Nat) (es : Option ssd1681.Error) (ts : List Event),
      ssd1681.Display r ds busys fuels n = some (ds1, es, ts, n1) →
      ∃ rows w,
        ssd1681.displayRows r ds ds.height.toNat 0 = some rows ∧
        ssd1681.Wait busys fuels n = some (w, n1) ∧
        ts = (ssd1681.Command r.SET_RAMXCOUNT [0] ++ ssd1681.Command r.SET_RAMYCOUNT [0, 0]
              ++ rows) ++
            (ssd1681.Command r.DISP_CTRL2 [0xF7] ++ ssd1681.Command r.MASTER_ACTIVATE []) ++ w ∧
        busBytes l ts =
          busBytes l (ssd1681.Command r.SET_RAMXCOUNT [0] ++
            ssd1681.Command r.SET_RAMYCOUNT [0, 0] ++ rows) ++
            [r.DISP_CTRL2, 0xF7, r.MASTER_ACTIVATE] ∧
        Quiet w) ∧
    (∀ r : ssd1681.Registers,
      wire l (ssd1681.Command r.DISP_CTRL2 [0xF7] ++ ssd1681.Command r.MASTER_ACTIVATE [])
        = [(r.DISP_CTRL2, ⟨some false, some false⟩), (0xF7, ⟨some false, some true⟩),
           (r.MASTER_ACTIVATE, ⟨some false, some false⟩)]) ∧
    (∀ (d : epd2in9v2.Device) (busy : Nat → Bool) (fuel k : Nat),
      0 < d.logicalWidth → d.logicalWidth ≤ 32767 → d.logicalWidth % 8 = 0 →
      0 < d.height → d.logicalWidth / 8 * d.height ≤ 32767 →
      (d.buffer.length : Int) = d.logicalWidth * d.height / 8 →
      (∀ i, busy i = false) →
      ∃ t, epd2in9v2.Display d busy (fuel + 1) k
        = some (d, none, t, k + d.height.toNat + 1)) ∧
    (∀ (r : ssd1681.Registers) (ds : ssd1681.Device) (busys : Nat → Bool) (fuels n m : Nat),
      0 ≤ ds.height →
      (ds.buffer.length : Int) = ssd1681.ceil ds.width 8 * ds.height →
      (∀ i, i < m → busys (n + i) = true) → busys (n + m) = false → m < fuels →
      ∃ ts, ssd1681.Display r ds busys fuels n = some (ds, none, ts, n + m + 1)) :=
  ⟨fun d d1 busy fuel k k2 e t hE => Display_order_epd d d1 busy fuel k k2 e t l hE,
    rfl,
    fun r ds ds1 busys fuels n n1 es ts hS => Display_order_ssd r ds ds1 busys fuels n n1 es ts l hS,
    fun _ => rfl,
    fun d busy fuel k h1 h2 h3 h4 h5 h6 h7 => Display_returns_epd d busy fuel k h1 h2 h3 h4 h5 h6 h7,
    fun r ds busys fuels n m h1 h2 h3 h4 h5 =>
      Display_returns_ssd r ds busys fuels n m h1 h2 h3 h4 h5⟩

/-- Witness for C17: `Display` on the 8x2 panel of `epd2in9v2` and on the 16x2
panel of `ssd1681` with the busy pin idle returns `nil`, and the bus bytes of
its trace end with `0x22, 0xC7, 0x20` and with `0x22, 0xF7, 0x20`. -/
theorem Display_refresh_order_witness :
    (∃ t rows, epd2in9v2.Display epd2in9v2.panel8x2 (fun _ => false) 1 0
        = some (epd2in9v2.panel8x2, none, t, 3) ∧
      busBytes ⟨none, none⟩ t
        = busBytes ⟨none, none⟩ (epd2in9v2.setMemoryArea 0 0 7 1 ++ rows)
            ++ [0x22, 0xC7, 0x20]) ∧
    (∃ ts rows, ssd1681.Display ssd1681.sampleRegisters ssd1681.panel16x2 (fun _ => false) 1 0
        = some (ssd1681.panel16x2, none, ts, 1) ∧
      busBytes ⟨none, none⟩ ts
        = busBytes ⟨none, none⟩
            (ssd1681.Command 0x4E [0] ++ ssd1681.Command 0x4F [0, 0] ++ rows)
            ++ [0x22, 0xF7, 0x20]) := by
  have h := Display_refresh_order ⟨none, none⟩
  obtain ⟨t, ht⟩ := h.2.2.2.2.1 epd2in9v2.panel8x2 (fun _ => false) 0 0
    (by decide) (by decide) (by decide) (by decide) (by decide) (by decide) (fun _ => rfl)
  obtain ⟨rows, _, _, _, _, _, hb, _⟩ := h.1 _ _ _ _ _ _ _ _ ht
  obtain ⟨ts, hts⟩ := h.2.2.2.2.2 ssd1681.sampleRegisters ssd1681.panel16x2 (fun _ => false)
    1 0 0 (by decide) (by decide) (fun i hi => absurd hi (Nat.not_lt_zero i)) rfl (by decide)
  obtain ⟨rows1, _, _, _, _, hb1, _⟩ := h.2.2.1 _ _ _ _ _ _ _ _ _ hts
  exact ⟨⟨t, rows, ht, hb⟩, ⟨ts, rows1, hts, hb1⟩⟩
